import Mathlib

/-!
# DinnerDecider backend: ingredient store, use-case and handlers

A shallow embedding of the Go backend under `src/backend/internal`:

* `repository/ingredient_impl.go` : the SQL implementation of the ingredient store,
* `usecase/ingredient_impl.go`    : validation and the field-by-field merge of updates,
* `handler/error.go`, `handler/ingredient.go` : the mapping of outcomes to HTTP responses,
* `service/ollama_impl.go`        : the adapter of the recipe generation backend,
* `usecase/recipe_impl.go`, `handler/recipe.go` : the recipe use-case and its handler.

Go values are modelled as follows.

* An `error` is a `GoError`: a tree that keeps the wrap chain built by `fmt.Errorf("...%w", err)`,
  so that `errors.Is` and `Error()` can be computed.  A nil error is `none`.
* A `*domain.Ingredient` is an `Option Ingredient`; a method that receives such a pointer and
  writes through it hands the record back as part of its result.
* `time.Now()` reads the clock of the environment: the `k`-th reading is `clock k`.
* The database behind `*sqlx.DB` is an arbitrary state machine `DB σ`.
* Every call of a store method made by the use-case is appended to `World.calls`.
* The HTTP client of the adapter and the JSON codec are parameters (`HTTPClient`, `StdLib`);
  every request handed to the client is appended to `Net.sent`, every call of the adapter
  made by the recipe use-case to `RecipeWorld.generateCalls`.
-/

namespace DinnerDecider

deriving instance DecidableEq for Except

/-! ## Errors -/

/-- Fields of Go's `*time.ParseError`. -/
structure ParseError where
  Layout : String
  Value : String
  LayoutElem : String
  ValueElem : String
  Message : String
deriving DecidableEq, Repr

/-- Go error values, with their wrap chain.
* `errNoRows` is the sentinel `sql.ErrNoRows`;
* `errorString s` is a leaf error carrying only text (`errors.New(s)`, `fmt.Errorf` without `%w`,
  driver and network errors);
* `parseError e` is a `*time.ParseError`;
* `wrapError msg err` is the value of `fmt.Errorf(msg + "%w", err)`. -/
inductive GoError where
  | errNoRows
  | errorString (s : String)
  | parseError (e : ParseError)
  | wrapError (msg : String) (err : GoError)
deriving DecidableEq, Repr

/-- Lower-case hexadecimal digit, Go's `lowerhex[n]`. -/
def lowerhex (n : Nat) : Char :=
  if n < 10 then Char.ofNat (48 + n) else Char.ofNat (87 + n)

/-- The characters `\xNN` for one byte. -/
def hexEscape (b : Nat) : List Char :=
  ['\\', 'x', lowerhex (b / 16), lowerhex (b % 16)]

/-- Go's `time.quote`, one character: printable ASCII is copied (a double quote or a backslash
gets a backslash in front), everything else is written byte by byte as `\xNN`. -/
def quoteChar (c : Char) : List Char :=
  if 128 ≤ c.toNat ∨ c.toNat < 32 then
    ((String.utf8EncodeChar c).map fun b => hexEscape b.toNat).flatten
  else if c = '"' ∨ c = '\\' then ['\\', c]
  else [c]

/-- Go's `time.quote`. -/
def quote (s : String) : String :=
  ⟨'"' :: ((s.data.map quoteChar).flatten ++ ['"'])⟩

/-- The method `(*time.ParseError).Error`. -/
def ParseError.Error (e : ParseError) : String :=
  if e.Message = "" then
    "parsing time " ++ quote e.Value ++ " as " ++ quote e.Layout ++ ": cannot parse " ++
      quote e.ValueElem ++ " as " ++ quote e.LayoutElem
  else
    "parsing time " ++ quote e.Value ++ e.Message

/-- The method `Error()`: the text of an error. -/
def GoError.Error : GoError → String
  | .errNoRows => "sql: no rows in result set"
  | .errorString s => s
  | .parseError e => e.Error
  | .wrapError msg err => msg ++ err.Error

/-- Go's `errors.New`. -/
def errorsNew (text : String) : GoError := .errorString text

/-- Go's `errors.Unwrap`. -/
def GoError.Unwrap : GoError → Option GoError
  | .wrapError _ err => some err
  | _ => none

/-- Go's `errors.Is(err, target)`: `target` occurs in the wrap chain of `err`. -/
def errorsIs (err target : GoError) : Bool :=
  if err = target then true
  else
    match err with
    | .wrapError _ inner => errorsIs inner target
    | _ => false

/-- Go's `strings.Contains(s, substr)`. -/
def stringsContains (s substr : String) : Prop := substr.data <:+: s.data

instance (s substr : String) : Decidable (stringsContains s substr) := by
  unfold stringsContains; infer_instance

/-! ## Calendar dates and `time.Parse` with the layout `2006-01-02` -/

/-- A calendar date: the `time.Time` at midnight UTC of that day, which is what `time.Parse`
returns for a date-only layout and what a `DATE` column holds. -/
structure Date where
  year : Nat
  month : Nat
  day : Nat
deriving DecidableEq, Repr

/-- Go's `time.isDigit` at position 0. -/
def isDigit (c : Char) : Bool := decide (48 ≤ c.toNat) && decide (c.toNat ≤ 57)

/-- Value of a decimal digit. -/
def digitVal (c : Char) : Nat := c.toNat - 48

/-- Go's `time.isLeap`. -/
def isLeap (year : Nat) : Bool :=
  year % 4 == 0 && (year % 100 != 0 || year % 400 == 0)

/-- Go's `time.daysIn`. -/
def daysIn (month year : Nat) : Nat :=
  if month = 2 then (if isLeap year then 29 else 28)
  else if month = 4 ∨ month = 6 ∨ month = 9 ∨ month = 11 then 30
  else 31

/-- Go's `time.getnum(s, true)`: exactly two digits. -/
def getnum : List Char → Option (Nat × List Char)
  | a :: b :: rest =>
    if isDigit a && isDigit b then some (digitVal a * 10 + digitVal b, rest) else none
  | _ => none

/-- The layout string of the use-case. -/
def dateLayout : String := "2006-01-02"

/-- Go's `newParseError` for the layout of the use-case. -/
def newParseError (value : String) (layoutElem : String) (valueElem : List Char)
    (message : String) : ParseError :=
  { Layout := dateLayout, Value := value, LayoutElem := layoutElem,
    ValueElem := ⟨valueElem⟩, Message := message }

/-- Go's `time.Parse("2006-01-02", value)`: four digits of year, `-`, two digits of month in
`1..12`, `-`, two digits of day, no extra text, and a day that exists in that month.  The steps
follow the chunks of the layout in order, as `time.parse` does. -/
def timeParse (value : String) : Except ParseError Date :=
  match value.data with
  | y1 :: y2 :: y3 :: y4 :: r1 =>
    if isDigit y1 && isDigit y2 && isDigit y3 && isDigit y4 then
      let year := digitVal y1 * 1000 + digitVal y2 * 100 + digitVal y3 * 10 + digitVal y4
      match r1 with
      | '-' :: r2 =>
        match getnum r2 with
        | none => .error (newParseError value "01" r2 "")
        | some (month, r3) =>
          if month = 0 ∨ 12 < month then
            .error (newParseError value "01" r3 ": month out of range")
          else
            match r3 with
            | '-' :: r4 =>
              match getnum r4 with
              | none => .error (newParseError value "02" r4 "")
              | some (day, r5) =>
                if r5 ≠ [] then
                  .error (newParseError value "" r5 (": extra text: " ++ quote ⟨r5⟩))
                else if day < 1 ∨ daysIn month year < day then
                  .error (newParseError value "" r5 ": day out of range")
                else .ok { year := year, month := month, day := day }
            | _ => .error (newParseError value "-" r3 "")
      | _ => .error (newParseError value "-" r1 "")
    else .error (newParseError value "2006" value.data "")
  | _ => .error (newParseError value "2006" value.data "")

/-! ## Domain model and request shapes (`domain/ingredient.go`, `usecase/dto.go`) -/

/-- The record `domain.Ingredient`.  Timestamps are instants of the clock. -/
structure Ingredient where
  ID : Int
  Name : String
  Quantity : String
  PurchaseDate : Option Date
  CreatedAt : Nat
  UpdatedAt : Nat
deriving DecidableEq, Repr

/-- The request `usecase.CreateIngredientRequest`; `PurchaseDate` is a `*string`. -/
structure CreateIngredientRequest where
  Name : String
  Quantity : String
  PurchaseDate : Option String
deriving DecidableEq, Repr

/-- The request `usecase.UpdateIngredientRequest`; every field is a `*string`, `none` is nil. -/
structure UpdateIngredientRequest where
  Name : Option String
  Quantity : Option String
  PurchaseDate : Option String
deriving DecidableEq, Repr

/-- The body `usecase.ErrorResponse`; the field `Error` is the machine-readable kind. -/
structure ErrorResponse where
  Error : String
  Message : String
deriving DecidableEq, Repr

/-- The record `domain.RecipeSuggestion`; a slice is the list of its elements. -/
structure RecipeSuggestion where
  Name : String
  Steps : List String
  MissingItems : List String
deriving DecidableEq, Repr

/-- The record `domain.RecipeResponse`. -/
structure RecipeResponse where
  Suggestions : List RecipeSuggestion
deriving DecidableEq, Repr

/-! ## Environment: database state and clock -/

/-- What the code runs in: the state `db` of the database, the clock (its `k`-th reading is
`clock k`) and the number `ticks` of readings taken so far. -/
structure Env (σ : Type) where
  db : σ
  clock : Nat → Nat
  ticks : Nat

/-- Go's `time.Now()`: the next reading of the clock. -/
def timeNow {σ : Type} (e : Env σ) : Nat × Env σ :=
  (e.clock e.ticks, { e with ticks := e.ticks + 1 })

/-- Go's `sql.Result`: the outcomes of `LastInsertId()` and `RowsAffected()`. -/
structure SqlResult where
  LastInsertId : Except GoError Int
  RowsAffected : Except GoError Int
deriving DecidableEq, Repr

/-- The database as the repository uses it through `*sqlx.DB`, one field per statement of
`repository/ingredient_impl.go`.  Each takes the statement's arguments and the database state
and gives the outcome and the next state.  `SelectAll` is `SelectContext` with the query of
`GetAll` (`none` is a destination slice left nil), `GetRow` is `GetContext` with the query of
`GetByID`. -/
structure DB (σ : Type) where
  ExecInsert : String → String → Option Date → Nat → Nat → σ → Except GoError SqlResult × σ
  ExecUpdate : String → String → Option Date → Nat → Int → σ → Except GoError SqlResult × σ
  ExecDelete : Int → σ → Except GoError SqlResult × σ
  SelectAll : σ → Except GoError (Option (List Ingredient)) × σ
  GetRow : Int → σ → Except GoError Ingredient × σ

/-! ## The store interface (`repository/ingredient.go`) -/

/-- The interface `repository.IngredientRepository`.  `Create` and `Update` receive a pointer:
the record they hand back is the pointee after the call.  An error is `none` when nil; a
returned pointer or slice is `none` when nil. -/
structure IngredientRepository (σ : Type) where
  Create : Ingredient → Env σ → (Option GoError × Ingredient) × Env σ
  GetAll : Env σ → (Option (List Ingredient) × Option GoError) × Env σ
  GetByID : Int → Env σ → (Option Ingredient × Option GoError) × Env σ
  Update : Ingredient → Env σ → (Option GoError × Ingredient) × Env σ
  Delete : Int → Env σ → Option GoError × Env σ

/-! ## The SQL store (`repository/ingredient_impl.go`) -/

namespace ingredientRepository

/-- The method `(*ingredientRepository).Create`. -/
def Create {σ : Type} (db : DB σ) (ingredient : Ingredient) (e : Env σ) :
    (Option GoError × Ingredient) × Env σ :=
  let now := (timeNow e).1
  let e1 := (timeNow e).2
  let ingredient := { ingredient with CreatedAt := now, UpdatedAt := now }
  let r := db.ExecInsert ingredient.Name ingredient.Quantity ingredient.PurchaseDate
    ingredient.CreatedAt ingredient.UpdatedAt e1.db
  let e2 := { e1 with db := r.2 }
  match r.1 with
  | .error err => ((some (.wrapError "failed to create ingredient: " err), ingredient), e2)
  | .ok result =>
    match result.LastInsertId with
    | .error err => ((some (.wrapError "failed to get last insert id: " err), ingredient), e2)
    | .ok id => ((none, { ingredient with ID := id }), e2)

/-- The method `(*ingredientRepository).GetAll`. -/
def GetAll {σ : Type} (db : DB σ) (e : Env σ) :
    (Option (List Ingredient) × Option GoError) × Env σ :=
  let r := db.SelectAll e.db
  let e1 := { e with db := r.2 }
  match r.1 with
  | .error err => ((none, some (.wrapError "failed to get all ingredients: " err)), e1)
  | .ok none => ((some [], none), e1)
  | .ok (some ingredients) => ((some ingredients, none), e1)

/-- The method `(*ingredientRepository).GetByID`. -/
def GetByID {σ : Type} (db : DB σ) (id : Int) (e : Env σ) :
    (Option Ingredient × Option GoError) × Env σ :=
  let r := db.GetRow id e.db
  let e1 := { e with db := r.2 }
  match r.1 with
  | .error err =>
    if err = GoError.errNoRows then
      ((none, some (.wrapError "ingredient not found: " err)), e1)
    else ((none, some (.wrapError "failed to get ingredient by id: " err)), e1)
  | .ok ingredient => ((some ingredient, none), e1)

/-- The method `(*ingredientRepository).Update`. -/
def Update {σ : Type} (db : DB σ) (ingredient : Ingredient) (e : Env σ) :
    (Option GoError × Ingredient) × Env σ :=
  let now := (timeNow e).1
  let e1 := (timeNow e).2
  let ingredient := { ingredient with UpdatedAt := now }
  let r := db.ExecUpdate ingredient.Name ingredient.Quantity ingredient.PurchaseDate
    ingredient.UpdatedAt ingredient.ID e1.db
  let e2 := { e1 with db := r.2 }
  match r.1 with
  | .error err => ((some (.wrapError "failed to update ingredient: " err), ingredient), e2)
  | .ok result =>
    match result.RowsAffected with
    | .error err => ((some (.wrapError "failed to get rows affected: " err), ingredient), e2)
    | .ok rowsAffected =>
      if rowsAffected = 0 then ((some (.errorString "ingredient not found"), ingredient), e2)
      else ((none, ingredient), e2)

/-- The method `(*ingredientRepository).Delete`. -/
def Delete {σ : Type} (db : DB σ) (id : Int) (e : Env σ) : Option GoError × Env σ :=
  let r := db.ExecDelete id e.db
  let e1 := { e with db := r.2 }
  match r.1 with
  | .error err => (some (.wrapError "failed to delete ingredient: " err), e1)
  | .ok result =>
    match result.RowsAffected with
    | .error err => (some (.wrapError "failed to get rows affected: " err), e1)
    | .ok rowsAffected =>
      if rowsAffected = 0 then (some (.errorString "ingredient not found"), e1)
      else (none, e1)

end ingredientRepository

/-- The constructor `repository.NewIngredientRepository`. -/
def NewIngredientRepository {σ : Type} (db : DB σ) : IngredientRepository σ :=
  { Create := ingredientRepository.Create db
    GetAll := ingredientRepository.GetAll db
    GetByID := ingredientRepository.GetByID db
    Update := ingredientRepository.Update db
    Delete := ingredientRepository.Delete db }

/-! ## The ingredient use-case (`usecase/ingredient_impl.go`) -/

/-- One call of a method of the store, with its arguments. -/
inductive RepoCall where
  | Create (ingredient : Ingredient)
  | GetAll
  | GetByID (id : Int)
  | Update (ingredient : Ingredient)
  | Delete (id : Int)
deriving DecidableEq, Repr

/-- The environment together with the log of the store calls made so far, oldest first. -/
structure World (σ : Type) where
  env : Env σ
  calls : List RepoCall

/-- The world after a store call: the environment the store left and the call logged. -/
def World.record {σ : Type} (w : World σ) (call : RepoCall) (e : Env σ) : World σ :=
  { env := e, calls := w.calls ++ [call] }

/-- The world after one `time.Now()`. -/
def World.tick {σ : Type} (w : World σ) : World σ :=
  { w with env := (timeNow w.env).2 }

/-- What a use-case method returning `(*domain.Ingredient, error)` gives. -/
abbrev IngredientResult := Option Ingredient × Option GoError

/-- The interface `usecase.IngredientUsecase`. -/
structure IngredientUsecase (σ : Type) where
  CreateIngredient : CreateIngredientRequest → World σ → IngredientResult × World σ
  GetAllIngredients : World σ → (Option (List Ingredient) × Option GoError) × World σ
  GetIngredientByID : Int → World σ → IngredientResult × World σ
  UpdateIngredient : Int → UpdateIngredientRequest → World σ → IngredientResult × World σ
  DeleteIngredient : Int → World σ → Option GoError × World σ

namespace ingredientUsecase

/-- The method `(*ingredientUsecase).CreateIngredient`. -/
def CreateIngredient {σ : Type} (repo : IngredientRepository σ) (req : CreateIngredientRequest)
    (w : World σ) : IngredientResult × World σ :=
  if req.Name = "" then ((none, some (errorsNew "name is required")), w)
  else
    let createdAt := (timeNow w.env).1
    let w1 := w.tick
    let updatedAt := (timeNow w1.env).1
    let w2 := w1.tick
    let ingredient : Ingredient :=
      { ID := 0, Name := req.Name, Quantity := req.Quantity, PurchaseDate := none,
        CreatedAt := createdAt, UpdatedAt := updatedAt }
    let save := fun (ingredient : Ingredient) =>
      let r := repo.Create ingredient w2.env
      let w3 := w2.record (.Create ingredient) r.2
      match r.1.1 with
      | some err => ((none, some (GoError.wrapError "failed to create ingredient: " err)), w3)
      | none => ((some r.1.2, none), w3)
    match req.PurchaseDate with
    | none => save ingredient
    | some s =>
      if s ≠ "" then
        match timeParse s with
        | .error err =>
          ((none, some (.wrapError "invalid purchase_date format: " (.parseError err))), w2)
        | .ok purchaseDate => save { ingredient with PurchaseDate := some purchaseDate }
      else save ingredient

/-- The method `(*ingredientUsecase).GetAllIngredients`. -/
def GetAllIngredients {σ : Type} (repo : IngredientRepository σ) (w : World σ) :
    (Option (List Ingredient) × Option GoError) × World σ :=
  let r := repo.GetAll w.env
  let w1 := w.record .GetAll r.2
  match r.1.2 with
  | some err => ((none, some (.wrapError "failed to get all ingredients: " err)), w1)
  | none =>
    match r.1.1 with
    | none => ((some [], none), w1)
    | some ingredients => ((some ingredients, none), w1)

/-- The method `(*ingredientUsecase).GetIngredientByID`. -/
def GetIngredientByID {σ : Type} (repo : IngredientRepository σ) (id : Int) (w : World σ) :
    IngredientResult × World σ :=
  let r := repo.GetByID id w.env
  let w1 := w.record (.GetByID id) r.2
  match r.1.2 with
  | some err => ((none, some (.wrapError "failed to get ingredient by id: " err)), w1)
  | none => ((r.1.1, none), w1)

/-- The field merge of `UpdateIngredient` (the three `if req.X != nil` blocks): the loaded
record with every field present in the request overwritten, or the error of an unparsable
purchase date. -/
def mergeFields (ingredient : Ingredient) (req : UpdateIngredientRequest) :
    Except GoError Ingredient :=
  let ingredient :=
    match req.Name with
    | some name => { ingredient with Name := name }
    | none => ingredient
  let ingredient :=
    match req.Quantity with
    | some quantity => { ingredient with Quantity := quantity }
    | none => ingredient
  match req.PurchaseDate with
  | none => .ok ingredient
  | some s =>
    if s = "" then .ok { ingredient with PurchaseDate := none }
    else
      match timeParse s with
      | .error err => .error (.wrapError "invalid purchase_date format: " (.parseError err))
      | .ok purchaseDate => .ok { ingredient with PurchaseDate := some purchaseDate }

/-- The method `(*ingredientUsecase).UpdateIngredient`. -/
def UpdateIngredient {σ : Type} (repo : IngredientRepository σ) (id : Int)
    (req : UpdateIngredientRequest) (w : World σ) : IngredientResult × World σ :=
  let r := repo.GetByID id w.env
  let w1 := w.record (.GetByID id) r.2
  match r.1.2 with
  | some err => ((none, some (.wrapError "failed to get ingredient: " err)), w1)
  | none =>
    match r.1.1 with
    | none => ((none, some (errorsNew "ingredient not found")), w1)
    | some ingredient =>
      match mergeFields ingredient req with
      | .error err => ((none, some err), w1)
      | .ok ingredient =>
        let ingredient := { ingredient with UpdatedAt := (timeNow w1.env).1 }
        let w2 := w1.tick
        let u := repo.Update ingredient w2.env
        let w3 := w2.record (.Update ingredient) u.2
        match u.1.1 with
        | some err => ((none, some (.wrapError "failed to update ingredient: " err)), w3)
        | none => ((some u.1.2, none), w3)

/-- The method `(*ingredientUsecase).DeleteIngredient`. -/
def DeleteIngredient {σ : Type} (repo : IngredientRepository σ) (id : Int) (w : World σ) :
    Option GoError × World σ :=
  let r := repo.GetByID id w.env
  let w1 := w.record (.GetByID id) r.2
  match r.1.2 with
  | some err => (some (.wrapError "failed to get ingredient: " err), w1)
  | none =>
    match r.1.1 with
    | none => (some (errorsNew "ingredient not found"), w1)
    | some _ =>
      let d := repo.Delete id w1.env
      let w2 := w1.record (.Delete id) d.2
      match d.1 with
      | some err => (some (.wrapError "failed to delete ingredient: " err), w2)
      | none => (none, w2)

end ingredientUsecase

/-- The constructor `usecase.NewIngredientUsecase`. -/
def NewIngredientUsecase {σ : Type} (repo : IngredientRepository σ) : IngredientUsecase σ :=
  { CreateIngredient := ingredientUsecase.CreateIngredient repo
    GetAllIngredients := ingredientUsecase.GetAllIngredients repo
    GetIngredientByID := ingredientUsecase.GetIngredientByID repo
    UpdateIngredient := ingredientUsecase.UpdateIngredient repo
    DeleteIngredient := ingredientUsecase.DeleteIngredient repo }

/-! ## Handlers (`handler/error.go`, `handler/ingredient.go`) -/

/-- What a handler writes as the body of its response. -/
inductive ResponseBody where
  | empty
  | error (e : ErrorResponse)
  | ingredient (i : Option Ingredient)
  | ingredients (l : Option (List Ingredient))
  | recipe (r : Option RecipeResponse)
deriving DecidableEq, Repr

/-- An HTTP response: status code and body. -/
structure Response where
  status : Nat
  body : ResponseBody
deriving DecidableEq, Repr

/-- The kind of an error response: the field `error` of its body. -/
def Response.kind (r : Response) : Option String :=
  match r.body with
  | .error e => some e.Error
  | _ => none

/-- The function `respondWithError`. -/
def respondWithError (statusCode : Nat) (errorType : String) (message : String) : Response :=
  { status := statusCode, body := .error { Error := errorType, Message := message } }

/-- The function `handleError`; `none` is a nil error, for which no response is written. -/
def handleError (err : Option GoError) : Option Response :=
  match err with
  | none => none
  | some err =>
    if errorsIs err .errNoRows then
      some (respondWithError 404 "not_found" "Resource not found")
    else some (respondWithError 500 "internal_error" err.Error)

/-- The function `respondBadRequest`. -/
def respondBadRequest (message : String) : Response :=
  respondWithError 400 "validation_error" message

/-- The function `respondNotFound`. -/
def respondNotFound (message : String) : Response :=
  respondWithError 404 "not_found" message

/-- The function `respondInternalError`. -/
def respondInternalError (message : String) : Response :=
  respondWithError 500 "internal_error" message

/-- The function `respondServiceUnavailable`. -/
def respondServiceUnavailable (message : String) : Response :=
  respondWithError 503 "service_unavailable" message

/-- Go's `strconv.ParseUint(s, 10, 64)` before its range check: a non-empty run of decimal
digits and its value. -/
def parseDigits (cs : List Char) : Option Nat :=
  if cs ≠ [] ∧ cs.all isDigit = true then
    some (cs.foldl (fun acc c => acc * 10 + digitVal c) 0)
  else none

/-- Go's `strconv.ParseInt(s, 10, 64)`; `none` is a non-nil error (syntax or range). -/
def strconvParseInt (s : String) : Option Int :=
  match s.data with
  | [] => none
  | c :: rest =>
    let neg := decide (c = '-')
    let digits := if c = '+' ∨ c = '-' then rest else c :: rest
    match parseDigits digits with
    | none => none
    | some un =>
      if neg = false ∧ 2 ^ 63 ≤ un then none
      else if neg = true ∧ 2 ^ 63 < un then none
      else some (if neg then -(un : Int) else (un : Int))

/-- The type `handler.IngredientHandler`. -/
structure IngredientHandler (σ : Type) where
  ingredientUsecase : IngredientUsecase σ

/-- The constructor `handler.NewIngredientHandler`. -/
def NewIngredientHandler {σ : Type} (ingredientUsecase : IngredientUsecase σ) :
    IngredientHandler σ :=
  { ingredientUsecase := ingredientUsecase }

namespace IngredientHandler

/-- The handler of `POST /ingredients`.  `bound` is the outcome of `c.ShouldBindJSON(&req)`:
the bound request, or the binding error. -/
def CreateIngredient {σ : Type} (h : IngredientHandler σ)
    (bound : Except GoError CreateIngredientRequest) (w : World σ) :
    Option Response × World σ :=
  match bound with
  | .error err => (some (respondBadRequest err.Error), w)
  | .ok req =>
    let r := h.ingredientUsecase.CreateIngredient req w
    match r.1.2 with
    | some err => (handleError (some err), r.2)
    | none => (some { status := 201, body := .ingredient r.1.1 }, r.2)

/-- The handler of `GET /ingredients`. -/
def GetAllIngredients {σ : Type} (h : IngredientHandler σ) (w : World σ) :
    Option Response × World σ :=
  let r := h.ingredientUsecase.GetAllIngredients w
  match r.1.2 with
  | some err => (handleError (some err), r.2)
  | none => (some { status := 200, body := .ingredients r.1.1 }, r.2)

/-- The handler of `GET /ingredients/:id`; `idStr` is `c.Param("id")`. -/
def GetIngredientByID {σ : Type} (h : IngredientHandler σ) (idStr : String) (w : World σ) :
    Option Response × World σ :=
  match strconvParseInt idStr with
  | none => (some (respondBadRequest "Invalid ingredient ID"), w)
  | some id =>
    let r := h.ingredientUsecase.GetIngredientByID id w
    match r.1.2 with
    | some err => (handleError (some err), r.2)
    | none => (some { status := 200, body := .ingredient r.1.1 }, r.2)

/-- The handler of `PUT /ingredients/:id`; `idStr` is `c.Param("id")` and `bound` the outcome
of `c.ShouldBindJSON(&req)`. -/
def UpdateIngredient {σ : Type} (h : IngredientHandler σ) (idStr : String)
    (bound : Except GoError UpdateIngredientRequest) (w : World σ) :
    Option Response × World σ :=
  match strconvParseInt idStr with
  | none => (some (respondBadRequest "Invalid ingredient ID"), w)
  | some id =>
    match bound with
    | .error err => (some (respondBadRequest err.Error), w)
    | .ok req =>
      let r := h.ingredientUsecase.UpdateIngredient id req w
      match r.1.2 with
      | some err => (handleError (some err), r.2)
      | none => (some { status := 200, body := .ingredient r.1.1 }, r.2)

/-- The handler of `DELETE /ingredients/:id`; `idStr` is `c.Param("id")`. -/
def DeleteIngredient {σ : Type} (h : IngredientHandler σ) (idStr : String) (w : World σ) :
    Option Response × World σ :=
  match strconvParseInt idStr with
  | none => (some (respondBadRequest "Invalid ingredient ID"), w)
  | some id =>
    let r := h.ingredientUsecase.DeleteIngredient id w
    match r.1 with
    | some err => (handleError (some err), r.2)
    | none => (some { status := 204, body := .empty }, r.2)

end IngredientHandler

/-! ## The generation adapter (`service/ollama.go`, `service/ollama_impl.go`) -/

/-- The configuration `config.OllamaConfig`. -/
structure OllamaConfig where
  Endpoint : String
  Model : String
  Timeout : Nat
deriving DecidableEq, Repr

/-- The payload `ollamaRequest`. -/
structure ollamaRequest where
  Model : String
  Prompt : String
  Stream : Bool
  Format : String
deriving DecidableEq, Repr

/-- The envelope `ollamaResponse`; `CreatedAt` is an instant. -/
structure ollamaResponse where
  Model : String
  CreatedAt : Nat
  Response : String
  Done : Bool
deriving DecidableEq, Repr

/-- The `*http.Request` the adapter builds: method, URL, the `Content-Type` header, body. -/
structure HTTPRequest where
  Method : String
  URL : String
  ContentType : String
  Body : String
deriving DecidableEq, Repr

/-- The `*http.Response` the adapter reads: the status code and what `io.ReadAll(resp.Body)`
returns, the bytes read and the error (`none` when nil). -/
structure HTTPResponse where
  StatusCode : Nat
  Body : String
  ReadErr : Option GoError
deriving DecidableEq, Repr

/-- The field `httpClient` of the adapter: `Do` sends a request to the generation backend, whose
state is `ω`, and gives the reply or the transport error (unreachable, timed out, cancelled). -/
structure HTTPClient (ω : Type) where
  Do : HTTPRequest → ω → Except GoError HTTPResponse × ω

/-- The functions of `encoding/json` and `net/http` the adapter calls, left abstract:
`jsonMarshal` is `json.Marshal(reqPayload)`, `NewRequestWithContext` takes method, URL and body
and gives the error (`none` when nil), `unmarshalOllamaResponse` is
`json.Unmarshal(body, &ollamaResp)` and `unmarshalRecipeResponse` is
`json.Unmarshal([]byte(ollamaResp.Response), &recipeResp)`. -/
structure StdLib where
  jsonMarshal : ollamaRequest → Except GoError String
  NewRequestWithContext : String → String → String → Option GoError
  unmarshalOllamaResponse : String → Except GoError ollamaResponse
  unmarshalRecipeResponse : String → Except GoError RecipeResponse

/-- The network as the adapter sees it: the state of the generation backend and the log of the
requests handed to `httpClient.Do`, oldest first. -/
structure Net (ω : Type) where
  backend : ω
  sent : List HTTPRequest

/-- The interface `service.OllamaService`, over the state `ν` of whatever implements it.  The
ingredient slice is `none` when nil. -/
structure OllamaService (ν : Type) where
  GenerateRecipeSuggestion :
    Option (List Ingredient) → ν → (Option RecipeResponse × Option GoError) × ν

/-- The type `ollamaServiceImpl`. -/
structure ollamaServiceImpl (ω : Type) where
  config : OllamaConfig
  httpClient : HTTPClient ω

/-- The constant `promptTemplate` up to its only verb, the final `%s`:
`fmt.Sprintf(promptTemplate, x)` is this text followed by `x`. -/
def promptTemplate : String :=
  "あなたはプロの料理人兼管理栄養士です。以下の食材を使って作れる、美味しくて簡単な夕食の献立を3つ提案してください。\n" ++
  "それぞれの献立には、料理名、簡単な作り方、そして不足している食材（もしあれば）を記載してください。\n" ++
  "回答は必ずJSON形式で、以下のフォーマットに従ってください。\n" ++
  "\n" ++
  "\x7b\n" ++
  "  \"suggestions\": [\n" ++
  "    \x7b\n" ++
  "      \"name\": \"料理名\",\n" ++
  "      \"steps\": [\"手順1\", \"手順2\", \"手順3\"],\n" ++
  "      \"missing_items\": [\"不足している食材1\"]\n" ++
  "    \x7d\n" ++
  "  ]\n" ++
  "\x7d\n" ++
  "\n" ++
  "# 利用可能な食材\n"

/-- Go's `strings.Join(elems, sep)`. -/
def stringsJoin (elems : List String) (sep : String) : String :=
  match elems with
  | [] => ""
  | first :: rest => rest.foldl (fun b s => b ++ sep ++ s) first

namespace ollamaServiceImpl

/-- The method `(*ollamaServiceImpl).formatIngredients`; `fmt.Sprintf("%s(%s)", a, b)` is
`a ++ "(" ++ b ++ ")"`. -/
def formatIngredients (ingredients : Option (List Ingredient)) : String :=
  let elems := ingredients.getD []
  if elems.length = 0 then "食材がありません"
  else
    let parts := elems.foldl (fun (parts : List String) ing =>
      if ing.Quantity ≠ "" then parts ++ [ing.Name ++ "(" ++ ing.Quantity ++ ")"]
      else parts ++ [ing.Name]) []
    stringsJoin parts ", "

/-- The payload built at the start of `GenerateRecipeSuggestion` (`reqPayload`). -/
def requestPayload (config : OllamaConfig) (ingredients : Option (List Ingredient)) :
    ollamaRequest :=
  let ingredientsList := formatIngredients ingredients
  let prompt := promptTemplate ++ ingredientsList
  { Model := config.Model, Prompt := prompt, Stream := false, Format := "json" }

/-- The error of the status check, `fmt.Errorf("Ollama API returned status %d: %s", code, body)`:
a leaf error, since the format has no `%w`. -/
def upstreamStatusError (code : Nat) (body : String) : GoError :=
  .errorString ("Ollama API returned status " ++ toString code ++ ": " ++ body)

/-- The method `(*ollamaServiceImpl).GenerateRecipeSuggestion`. -/
def GenerateRecipeSuggestion {ω : Type} (lib : StdLib) (s : ollamaServiceImpl ω)
    (ingredients : Option (List Ingredient)) (n : Net ω) :
    (Option RecipeResponse × Option GoError) × Net ω :=
  let reqPayload := requestPayload s.config ingredients
  match lib.jsonMarshal reqPayload with
  | .error err => ((none, some (.wrapError "failed to marshal request: " err)), n)
  | .ok reqBody =>
    let endpoint := s.config.Endpoint ++ "/api/generate"
    match lib.NewRequestWithContext "POST" endpoint reqBody with
    | some err => ((none, some (.wrapError "failed to create request: " err)), n)
    | none =>
      let req : HTTPRequest :=
        { Method := "POST", URL := endpoint, ContentType := "application/json",
          Body := reqBody }
      let d := s.httpClient.Do req n.backend
      let n1 : Net ω := { backend := d.2, sent := n.sent ++ [req] }
      match d.1 with
      | .error err =>
        ((none, some (.wrapError "failed to send request to Ollama API: " err)), n1)
      | .ok resp =>
        if resp.StatusCode ≠ 200 then
          ((none, some (upstreamStatusError resp.StatusCode resp.Body)), n1)
        else
          match resp.ReadErr with
          | some err => ((none, some (.wrapError "failed to read response body: " err)), n1)
          | none =>
            match lib.unmarshalOllamaResponse resp.Body with
            | .error err =>
              ((none, some (.wrapError "failed to unmarshal Ollama response: " err)), n1)
            | .ok ollamaResp =>
              match lib.unmarshalRecipeResponse ollamaResp.Response with
              | .error err =>
                ((none, some (.wrapError "failed to parse recipe response: " err)), n1)
              | .ok recipeResp => ((some recipeResp, none), n1)

end ollamaServiceImpl

/-- The constructor `service.NewOllamaService`; the standard library and the HTTP client it
creates are given. -/
def NewOllamaService {ω : Type} (lib : StdLib) (httpClient : HTTPClient ω)
    (cfg : OllamaConfig) : OllamaService (Net ω) :=
  { GenerateRecipeSuggestion :=
      ollamaServiceImpl.GenerateRecipeSuggestion lib { config := cfg, httpClient := httpClient } }

/-! ## The recipe use-case (`usecase/recipe.go`, `usecase/recipe_impl.go`) -/

/-- What the recipe use-case runs in: the world of the store, the state `ν` of the adapter and
the log of the adapter calls made so far, each with its argument, oldest first. -/
structure RecipeWorld (σ ν : Type) where
  world : World σ
  service : ν
  generateCalls : List (Option (List Ingredient))

/-- What a method returning `(*domain.RecipeResponse, error)` gives. -/
abbrev RecipeResult := Option RecipeResponse × Option GoError

/-- The interface `usecase.RecipeUsecase`, over the state `ρ` it runs in. -/
structure RecipeUsecase (ρ : Type) where
  GetRecipeSuggestion : ρ → RecipeResult × ρ

namespace recipeUsecase

/-- The method `(*recipeUsecase).GetRecipeSuggestion`. -/
def GetRecipeSuggestion {σ ν : Type} (ingredientRepo : IngredientRepository σ)
    (ollamaService : OllamaService ν) (w : RecipeWorld σ ν) :
    RecipeResult × RecipeWorld σ ν :=
  let r := ingredientRepo.GetAll w.world.env
  let w1 : RecipeWorld σ ν := { w with world := w.world.record .GetAll r.2 }
  match r.1.2 with
  | some err => ((none, some (.wrapError "failed to get ingredients: " err)), w1)
  | none =>
    let ingredients := if (r.1.1.getD []).length = 0 then some [] else r.1.1
    let g := ollamaService.GenerateRecipeSuggestion ingredients w1.service
    let w2 : RecipeWorld σ ν :=
      { w1 with service := g.2, generateCalls := w1.generateCalls ++ [ingredients] }
    match g.1.2 with
    | some err => ((none, some (.wrapError "failed to generate recipe suggestion: " err)), w2)
    | none => ((g.1.1, none), w2)

end recipeUsecase

/-- The constructor `usecase.NewRecipeUsecase`. -/
def NewRecipeUsecase {σ ν : Type} (ingredientRepo : IngredientRepository σ)
    (ollamaService : OllamaService ν) : RecipeUsecase (RecipeWorld σ ν) :=
  { GetRecipeSuggestion := recipeUsecase.GetRecipeSuggestion ingredientRepo ollamaService }

/-! ## The recipe handler (`handler/recipe.go`) -/

/-- The type `handler.RecipeHandler`. -/
structure RecipeHandler (ρ : Type) where
  recipeUsecase : RecipeUsecase ρ

/-- The constructor `handler.NewRecipeHandler`. -/
def NewRecipeHandler {ρ : Type} (recipeUsecase : RecipeUsecase ρ) : RecipeHandler ρ :=
  { recipeUsecase := recipeUsecase }

/-- The handler of `POST /recipes/suggestion`. -/
def RecipeHandler.GetRecipeSuggestion {ρ : Type} (h : RecipeHandler ρ) (w : ρ) :
    Option Response × ρ :=
  let r := h.recipeUsecase.GetRecipeSuggestion w
  match r.1.2 with
  | some err =>
    if stringsContains err.Error "ollama" ∨ stringsContains err.Error "timeout" ∨
        stringsContains err.Error "connection" then
      (some (respondServiceUnavailable "Recipe suggestion service is currently unavailable"),
        r.2)
    else (handleError (some err), r.2)
  | none => (some { status := 200, body := .recipe r.1.1 }, r.2)

/-! ## The formatting of the ingredient list in the words of the specification -/

/-- The rendering of one ingredient as the specification words it: the name followed by the
quantity in parentheses, the parenthetical omitted when the quantity is empty. -/
def specRendering (ing : Ingredient) : String :=
  if ing.Quantity = "" then ing.Name else ing.Name ++ "(" ++ ing.Quantity ++ ")"

/-- The formatting of a list as the specification words it: the renderings in list order,
joined by a comma and a blank. -/
def specFormat (l : List Ingredient) : String :=
  ", ".intercalate (l.map specRendering)

/-! ## A concrete database and clock, to evaluate the code on -/

/-- A database holding a list of rows. -/
abbrev Rows := List Ingredient

/-- A database over `Rows` that behaves like a table keyed by `id`: `INSERT` appends a row under
the next free id, `UPDATE` and `DELETE` report how many rows matched, a `SELECT` by id fails
with `sql.ErrNoRows` when no row matches. -/
def tableDB : DB Rows :=
  { ExecInsert := fun name quantity purchaseDate createdAt updatedAt rows =>
      let id : Int := (rows.foldl (fun m r => max m r.ID) 0) + 1
      (.ok { LastInsertId := .ok id, RowsAffected := .ok 1 },
        rows ++ [{ ID := id, Name := name, Quantity := quantity, PurchaseDate := purchaseDate,
                   CreatedAt := createdAt, UpdatedAt := updatedAt }])
    ExecUpdate := fun name quantity purchaseDate updatedAt id rows =>
      (.ok { LastInsertId := .ok 0, RowsAffected := .ok ((rows.filter (·.ID = id)).length) },
        rows.map fun r => if r.ID = id then
          { r with Name := name, Quantity := quantity, PurchaseDate := purchaseDate,
                   UpdatedAt := updatedAt } else r)
    ExecDelete := fun id rows =>
      (.ok { LastInsertId := .ok 0, RowsAffected := .ok ((rows.filter (·.ID = id)).length) },
        rows.filter (·.ID ≠ id))
    SelectAll := fun rows => (.ok (if rows = [] then none else some rows.reverse), rows)
    GetRow := fun id rows =>
      match rows.find? (·.ID = id) with
      | some r => (.ok r, rows)
      | none => (.error .errNoRows, rows) }

/-- A clock whose `k`-th reading is `1000 + k`. -/
def tickingClock : Nat → Nat := fun k => 1000 + k

/-- A world over `tableDB` holding the given rows, with no reading taken and no call made. -/
def worldOf (rows : Rows) : World Rows :=
  { env := { db := rows, clock := tickingClock, ticks := 0 }, calls := [] }

/-- The row used in the examples: a carrot bought on 2025-12-31. -/
def carrot : Ingredient :=
  { ID := 1, Name := "にんじん", Quantity := "2本",
    PurchaseDate := some { year := 2025, month := 12, day := 31 },
    CreatedAt := 10, UpdatedAt := 20 }

/-- The table database with a second client that deletes a row right after it has been read by
id: `GetRow` answers with the row and leaves the table without it. -/
def racingDB : DB Rows :=
  { tableDB with
    GetRow := fun id rows =>
      match rows.find? (·.ID = id) with
      | some r => (.ok r, rows.filter (·.ID ≠ id))
      | none => (.error .errNoRows, rows) }

/-- The whole stack over the table database: handler, use-case and SQL store. -/
def tableHandler : IngredientHandler Rows :=
  NewIngredientHandler (NewIngredientUsecase (NewIngredientRepository tableDB))

/-- The whole stack over the database with the deleting second client. -/
def racingHandler : IngredientHandler Rows :=
  NewIngredientHandler (NewIngredientUsecase (NewIngredientRepository racingDB))

/-! ## A concrete generation backend, to evaluate the code on -/

/-- A database over `Rows` on which every statement fails with `err`. -/
def failingDB (err : GoError) : DB Rows :=
  { ExecInsert := fun _ _ _ _ _ rows => (.error err, rows)
    ExecUpdate := fun _ _ _ _ _ rows => (.error err, rows)
    ExecDelete := fun _ rows => (.error err, rows)
    SelectAll := fun rows => (.error err, rows)
    GetRow := fun _ rows => (.error err, rows) }

/-- The JSON text of one character of a string as `encoding/json` writes it: quote, backslash
and control characters escaped (backspace, form feed, line feed, carriage return and tab by
their letter, the others as `\u00XX`), `<`, `>`, `&`, U+2028 and U+2029 written as `\uXXXX`. -/
def jsonQuoteChar (c : Char) : List Char :=
  if c = '"' then ['\\', '"']
  else if c = '\\' then ['\\', '\\']
  else if c.toNat = 8 then ['\\', 'b']
  else if c.toNat = 12 then ['\\', 'f']
  else if c = '\n' then ['\\', 'n']
  else if c = '\r' then ['\\', 'r']
  else if c = '\t' then ['\\', 't']
  else if c.toNat < 32 ∨ c = '<' ∨ c = '>' ∨ c = '&' then
    ['\\', 'u', '0', '0', lowerhex (c.toNat / 16), lowerhex (c.toNat % 16)]
  else if c.toNat = 0x2028 then "\\u2028".data
  else if c.toNat = 0x2029 then "\\u2029".data
  else [c]

/-- The JSON text of a string. -/
def jsonQuote (s : String) : String :=
  ⟨'"' :: ((s.data.map jsonQuoteChar).flatten ++ ['"'])⟩

/-- The JSON text of the recipe response of the examples. -/
def curryText : String :=
  "\x7b\"suggestions\":[\x7b\"name\":\"カレーライス\"," ++
  "\"steps\":[\"野菜を切る\",\"肉を炒める\",\"カレールーを入れる\"]," ++
  "\"missing_items\":[\"カレールー\"]\x7d]\x7d"

/-- The recipe response of the examples. -/
def curry : RecipeResponse :=
  { Suggestions := [{ Name := "カレーライス",
                      Steps := ["野菜を切る", "肉を炒める", "カレールーを入れる"],
                      MissingItems := ["カレールー"] }] }

/-- The JSON text of an envelope whose `response` text is `response`. -/
def envelopeText (response : String) : String :=
  "\x7b\"model\":\"llama2\",\"created_at\":\"2025-01-01T00:00:00Z\",\"response\":" ++
  jsonQuote response ++ ",\"done\":true\x7d\n"

/-- A stand-in for the standard library on the texts of the examples.  `jsonMarshal` writes the
payload as a JSON object, a request can always be built, and the two uses of `json.Unmarshal`
know three texts: the envelope around `curryText`, the envelope around `invalid recipe json`,
and `curryText` itself; every other text is rejected the way `invalid json` is. -/
def exampleLib : StdLib :=
  { jsonMarshal := fun p =>
      .ok ("\x7b\"model\":" ++ jsonQuote p.Model ++ ",\"prompt\":" ++ jsonQuote p.Prompt ++
        ",\"stream\":" ++ (if p.Stream then "true" else "false") ++
        ",\"format\":" ++ jsonQuote p.Format ++ "\x7d")
    NewRequestWithContext := fun _ _ _ => none
    unmarshalOllamaResponse := fun body =>
      if body = envelopeText curryText then
        .ok { Model := "llama2", CreatedAt := 0, Response := curryText, Done := true }
      else if body = envelopeText "invalid recipe json" then
        .ok { Model := "llama2", CreatedAt := 0, Response := "invalid recipe json",
              Done := true }
      else .error (.errorString "invalid character 'i' looking for beginning of value")
    unmarshalRecipeResponse := fun text =>
      if text = curryText then .ok curry
      else .error (.errorString "invalid character 'i' looking for beginning of value") }

/-- An HTTP client whose every request fails with the transport error `err`. -/
def refusingClient (err : GoError) : HTTPClient Unit :=
  { Do := fun _ b => (.error err, b) }

/-- An HTTP client whose every request is answered with `resp`. -/
def replyingClient (resp : HTTPResponse) : HTTPClient Unit :=
  { Do := fun _ b => (.ok resp, b) }

/-- The default configuration of `pkg/config/config.go`; the timeout is in seconds. -/
def defaultConfig : OllamaConfig :=
  { Endpoint := "http://localhost:11434", Model := "llama2", Timeout := 30 }

/-- The adapter over the stand-in library, a given HTTP client and the default configuration. -/
def exampleService (httpClient : HTTPClient Unit) : OllamaService (Net Unit) :=
  NewOllamaService exampleLib httpClient defaultConfig

/-- The whole recipe stack: handler, use-case, SQL store over `db`, adapter over `httpClient`. -/
def recipeStack (db : DB Rows) (httpClient : HTTPClient Unit) :
    RecipeHandler (RecipeWorld Rows (Net Unit)) :=
  NewRecipeHandler (NewRecipeUsecase (NewIngredientRepository db) (exampleService httpClient))

/-- A network on which nothing has been sent. -/
def quietNet : Net Unit := { backend := (), sent := [] }

/-- The world of the recipe use-case over the given rows, with no call made. -/
def recipeWorldOf (rows : Rows) : RecipeWorld Rows (Net Unit) :=
  { world := worldOf rows, service := quietNet, generateCalls := [] }

/-! ## The JSON text of a recipe response (`encoding/json` on `domain/recipe.go`) -/

/-- The rest of a JSON array after an element: each further element after a comma, then the
closing bracket. -/
def jsonArrayTail : List (List Char) → List Char
  | [] => [']']
  | e :: es => ',' :: (e ++ jsonArrayTail es)

/-- The JSON array of the given element texts, as `encoding/json` writes it: no white space. -/
def jsonArray : List (List Char) → List Char
  | [] => ['[', ']']
  | e :: es => '[' :: (e ++ jsonArrayTail es)

/-- Go's `json.Marshal` on a `[]string`.  A slice is the list of its elements, so the nil slice
(which `json.Marshal` writes as `null`) is not told apart from the empty one. -/
def jsonMarshalStrings (l : List String) : List Char :=
  jsonArray (l.map fun s => (jsonQuote s).data)

/-- Go's `json.Marshal` on a `domain.RecipeSuggestion`: the fields in the order of the struct,
under the keys of their `json` tags. -/
def jsonMarshalRecipeSuggestion (s : RecipeSuggestion) : List Char :=
  "\x7b\"name\":".data ++ (jsonQuote s.Name).data ++
  ",\"steps\":".data ++ jsonMarshalStrings s.Steps ++
  ",\"missing_items\":".data ++ jsonMarshalStrings s.MissingItems ++ "\x7d".data

/-- Go's `json.Marshal` on a `domain.RecipeResponse`: the JSON encoding of a recipe response. -/
def jsonMarshalRecipeResponse (r : RecipeResponse) : String :=
  ⟨"\x7b\"suggestions\":".data ++
    jsonArray (r.Suggestions.map jsonMarshalRecipeSuggestion) ++ "\x7d".data⟩

/-! ## A decoder for the JSON text of a recipe response -/

/-- The value of a hexadecimal digit. -/
def hexVal (c : Char) : Option Nat :=
  if 48 ≤ c.toNat ∧ c.toNat ≤ 57 then some (c.toNat - 48)
  else if 97 ≤ c.toNat ∧ c.toNat ≤ 102 then some (c.toNat - 87)
  else if 65 ≤ c.toNat ∧ c.toNat ≤ 70 then some (c.toNat - 55)
  else none

/-- The character with the number `n`, the replacement character U+FFFD for a surrogate half
(pairs of `\uXXXX` escapes are not combined). -/
def charOfCode (n : Nat) : Char :=
  if 0xD800 ≤ n ∧ n < 0xE000 then Char.ofNat 0xFFFD else Char.ofNat n

/-- One character of a JSON string from the front of the input: a character that needs no
escape, or an escape sequence. -/
def decodeChar : List Char → Option (Char × List Char)
  | [] => none
  | c :: rest =>
    if c = '\\' then
      match rest with
      | [] => none
      | e :: rest1 =>
        if e = '"' then some ('"', rest1)
        else if e = '\\' then some ('\\', rest1)
        else if e = '/' then some ('/', rest1)
        else if e = 'b' then some (Char.ofNat 8, rest1)
        else if e = 'f' then some (Char.ofNat 12, rest1)
        else if e = 'n' then some ('\n', rest1)
        else if e = 'r' then some ('\r', rest1)
        else if e = 't' then some ('\t', rest1)
        else if e = 'u' then
          match rest1 with
          | h1 :: h2 :: h3 :: h4 :: rest2 =>
            match hexVal h1, hexVal h2, hexVal h3, hexVal h4 with
            | some a, some b, some c, some d =>
              some (charOfCode (((a * 16 + b) * 16 + c) * 16 + d), rest2)
            | _, _, _, _ => none
          | _ => none
        else none
    else if c = '"' ∨ c.toNat < 32 then none
    else some (c, rest)

/-- The characters of a JSON string up to its closing quote, and the input after the quote;
`fuel` bounds the number of characters. -/
def decodeStringBody : Nat → List Char → Option (List Char × List Char)
  | 0, _ => none
  | fuel + 1, cs =>
    match cs with
    | [] => none
    | c :: rest =>
      if c = '"' then some ([], rest)
      else
        match decodeChar (c :: rest) with
        | none => none
        | some (d, rest1) =>
          match decodeStringBody fuel rest1 with
          | none => none
          | some (ds, rest2) => some (d :: ds, rest2)

/-- A JSON string from the front of the input, and the input after it. -/
def decodeString : List Char → Option (String × List Char)
  | [] => none
  | c :: rest =>
    if c = '"' then
      match decodeStringBody (rest.length + 1) rest with
      | none => none
      | some (ds, rest1) => some (⟨ds⟩, rest1)
    else none

/-- The elements of a non-empty JSON array after its opening bracket, each read by
`decodeElem`, and the input after the closing bracket; `fuel` bounds their number. -/
def decodeElems {α : Type} (decodeElem : List Char → Option (α × List Char)) :
    Nat → List Char → Option (List α × List Char)
  | 0, _ => none
  | fuel + 1, cs =>
    match decodeElem cs with
    | none => none
    | some (a, rest) =>
      match rest with
      | [] => none
      | c :: rest1 =>
        if c = ']' then some ([a], rest1)
        else if c = ',' then
          match decodeElems decodeElem fuel rest1 with
          | none => none
          | some (as, rest2) => some (a :: as, rest2)
        else none

/-- A JSON array from the front of the input, its elements read by `decodeElem`, and the input
after it.  `null` gives the empty list. -/
def decodeArray {α : Type} (decodeElem : List Char → Option (α × List Char)) :
    List Char → Option (List α × List Char)
  | 'n' :: 'u' :: 'l' :: 'l' :: rest => some ([], rest)
  | '[' :: ']' :: rest => some ([], rest)
  | '[' :: rest => decodeElems decodeElem rest.length rest
  | _ => none

/-- The input after the literal `lit`, when the input starts with it. -/
def expectLiteral : List Char → List Char → Option (List Char)
  | [], cs => some cs
  | _ :: _, [] => none
  | l :: ls, c :: cs => if l = c then expectLiteral ls cs else none

/-- A recipe suggestion from the front of the input, written the way `json.Marshal` writes
it. -/
def decodeRecipeSuggestion (cs : List Char) : Option (RecipeSuggestion × List Char) :=
  match expectLiteral "\x7b\"name\":".data cs with
  | none => none
  | some cs1 =>
    match decodeString cs1 with
    | none => none
    | some (name, cs2) =>
      match expectLiteral ",\"steps\":".data cs2 with
      | none => none
      | some cs3 =>
        match decodeArray decodeString cs3 with
        | none => none
        | some (steps, cs4) =>
          match expectLiteral ",\"missing_items\":".data cs4 with
          | none => none
          | some cs5 =>
            match decodeArray decodeString cs5 with
            | none => none
            | some (missingItems, cs6) =>
              match expectLiteral "\x7d".data cs6 with
              | none => none
              | some cs7 =>
                some ({ Name := name, Steps := steps, MissingItems := missingItems }, cs7)

/-- A decoder for the texts `json.Marshal` writes for a recipe response: the recipe response a
text encodes, when it is one of them (keys in the order of the struct, no white space). -/
def decodeRecipeResponse (text : String) : Option RecipeResponse :=
  match expectLiteral "\x7b\"suggestions\":".data text.data with
  | none => none
  | some cs1 =>
    match decodeArray decodeRecipeSuggestion cs1 with
    | none => none
    | some (suggestions, cs2) =>
      if cs2 = "\x7d".data then some { Suggestions := suggestions } else none

/-- The stand-in library of the examples with `decodeRecipeResponse` for the second use of
`json.Unmarshal`: every text `json.Marshal` writes for a recipe response is decoded. -/
def codecLib : StdLib :=
  { exampleLib with
    unmarshalRecipeResponse := fun text =>
      match decodeRecipeResponse text with
      | some r => .ok r
      | none => .error (.errorString "invalid character 'i' looking for beginning of value") }

/-! ## The store contract of the specification, and test doubles -/

/-- The Ingredient Store contract of the specification, as far as a run without I/O failure
relies on it.  `holds s id` is the record the store keeps under `id` when the database is in
state `s`.
* `Create` inserts the record under the id it assigns and hands the stored record back, with
  the name, quantity and purchase date it was given;
* `GetByID` returns the matching record, or fails with the NotFound condition (an error with
  `sql.ErrNoRows` in its chain) when there is none, and changes nothing;
* `Update` of a record whose id is held overwrites name, quantity and purchase date under that
  id and leaves them untouched in the record it is given;
* `Delete` of an id that is held removes the record. -/
structure StoreContract {σ : Type} (repo : IngredientRepository σ)
    (holds : σ → Int → Option Ingredient) : Prop where
  create : ∀ (ing : Ingredient) (e : Env σ),
    (repo.Create ing e).1.1 = none ∧
    (repo.Create ing e).1.2.Name = ing.Name ∧
    (repo.Create ing e).1.2.Quantity = ing.Quantity ∧
    (repo.Create ing e).1.2.PurchaseDate = ing.PurchaseDate ∧
    holds (repo.Create ing e).2.db (repo.Create ing e).1.2.ID = some (repo.Create ing e).1.2
  getFound : ∀ (id : Int) (e : Env σ) (rec : Ingredient), holds e.db id = some rec →
    (repo.GetByID id e).1 = (some rec, none) ∧ holds (repo.GetByID id e).2.db = holds e.db
  getAbsent : ∀ (id : Int) (e : Env σ), holds e.db id = none →
    (∃ err : GoError, (repo.GetByID id e).1 = (none, some err) ∧
      errorsIs err .errNoRows = true) ∧
    holds (repo.GetByID id e).2.db = holds e.db
  update : ∀ (ing : Ingredient) (e : Env σ) (rec : Ingredient), holds e.db ing.ID = some rec →
    (repo.Update ing e).1.1 = none ∧
    (repo.Update ing e).1.2.ID = ing.ID ∧
    (repo.Update ing e).1.2.Name = ing.Name ∧
    (repo.Update ing e).1.2.Quantity = ing.Quantity ∧
    (repo.Update ing e).1.2.PurchaseDate = ing.PurchaseDate ∧
    (∃ stored : Ingredient, holds (repo.Update ing e).2.db ing.ID = some stored ∧
      stored.ID = ing.ID ∧ stored.Name = ing.Name ∧ stored.Quantity = ing.Quantity ∧
      stored.PurchaseDate = ing.PurchaseDate)
  delete : ∀ (id : Int) (e : Env σ) (rec : Ingredient), holds e.db id = some rec →
    (repo.Delete id e).1 = none ∧ holds (repo.Delete id e).2.db id = none

/-- The record the table database keeps under `id`: the first row with that id. -/
def tableHolds (rows : Rows) (id : Int) : Option Ingredient :=
  rows.find? (·.ID = id)

/-- A recipe use-case that returns a fixed result, like the mock of the handler tests. -/
def stubRecipeUsecase (result : RecipeResult) : RecipeUsecase Unit :=
  { GetRecipeSuggestion := fun u => (result, u) }

/-- An ingredient use-case whose every method fails with `err`, like a mock of the handler
tests that must not be called. -/
def stubIngredientUsecase (err : GoError) : IngredientUsecase Rows :=
  { CreateIngredient := fun _ w => ((none, some err), w)
    GetAllIngredients := fun w => ((none, some err), w)
    GetIngredientByID := fun _ w => ((none, some err), w)
    UpdateIngredient := fun _ _ w => ((none, some err), w)
    DeleteIngredient := fun _ w => (some err, w) }

/-- The SQL store over the table database, except that `GetAll` returns a nil slice and no
error, like the mock of `TestGetAllIngredients_EmptyResult`. -/
def nilListStore : IngredientRepository Rows :=
  { NewIngredientRepository tableDB with GetAll := fun e => ((none, none), e) }

/-! ## Helper lemmas -/

theorem stringsContains_append_left (a b sub : String) (h : stringsContains a sub) :
    stringsContains (a ++ b) sub := by
  unfold stringsContains at *
  rw [String.data_append]
  exact List.IsInfix.trans h (List.infix_append' [] a.data b.data)

theorem errorsIs_self (e : GoError) : errorsIs e e = true := by
  cases e <;> simp [errorsIs]

theorem errorsIs_wrapError (msg : String) (e target : GoError) (h : errorsIs e target = true) :
    errorsIs (.wrapError msg e) target = true := by
  rw [errorsIs]
  split
  · rfl
  · exact h

theorem handleError_errNoRows (err : GoError) (h : errorsIs err .errNoRows = true) :
    handleError (some err) = some (respondWithError 404 "not_found" "Resource not found") := by
  simp [handleError, h]

theorem handleError_other (err : GoError) (h : errorsIs err .errNoRows = false) :
    handleError (some err) = some (respondWithError 500 "internal_error" err.Error) := by
  simp [handleError, h]

/-- The success path of `UpdateIngredient` over the SQL store: the row is found, the merge
succeeds, and the `UPDATE` statement reports a non-zero number of rows. -/
theorem UpdateIngredient_sql_ok {σ : Type} (db : DB σ) (id : Int)
    (req : UpdateIngredientRequest) (w : World σ) (loaded merged : Ingredient) (s1 s2 : σ)
    (res : SqlResult) (n : Int)
    (hget : db.GetRow id w.env.db = (.ok loaded, s1))
    (hmerge : ingredientUsecase.mergeFields loaded req = .ok merged)
    (hexec : db.ExecUpdate merged.Name merged.Quantity merged.PurchaseDate
      (w.env.clock (w.env.ticks + 1)) merged.ID s1 = (.ok res, s2))
    (hrows : res.RowsAffected = .ok n) (hn : n ≠ 0) :
    ingredientUsecase.UpdateIngredient (NewIngredientRepository db) id req w
      = ((some { merged with UpdatedAt := w.env.clock (w.env.ticks + 1) }, none),
          { env := { db := s2, clock := w.env.clock, ticks := w.env.ticks + 2 },
            calls := w.calls ++
              [.GetByID id, .Update { merged with UpdatedAt := w.env.clock w.env.ticks }] }) := by
  simp [ingredientUsecase.UpdateIngredient, NewIngredientRepository,
    ingredientRepository.GetByID, ingredientRepository.Update, hget, hmerge, hexec, hrows, hn,
    World.record, World.tick, timeNow]

/-- What the field merge gives when the purchase date of the request is absent, empty or
parsable: name and quantity are those of the request when present, else those loaded. -/
theorem mergeFields_ok (loaded : Ingredient) (req : UpdateIngredientRequest) (pd : Option Date)
    (hpd : (req.PurchaseDate = some "" ∧ pd = none) ∨
      (req.PurchaseDate = none ∧ pd = loaded.PurchaseDate) ∨
      (∃ s d, req.PurchaseDate = some s ∧ s ≠ "" ∧ timeParse s = .ok d ∧ pd = some d)) :
    ingredientUsecase.mergeFields loaded req
      = .ok { loaded with Name := req.Name.getD loaded.Name,
                          Quantity := req.Quantity.getD loaded.Quantity,
                          PurchaseDate := pd } := by
  obtain ⟨rn, rq, rp⟩ := req
  rcases hpd with ⟨h, hp⟩ | ⟨h, hp⟩ | ⟨s, d, h, hs, hparse, hp⟩
  · simp only at h
    subst h hp
    cases rn <;> cases rq <;> simp [ingredientUsecase.mergeFields]
  · simp only at h
    subst h hp
    cases rn <;> cases rq <;> simp [ingredientUsecase.mergeFields]
  · simp only at h
    subst h hp
    cases rn <;> cases rq <;> simp [ingredientUsecase.mergeFields, hs, hparse]

/-- The success path of `CreateIngredient` over the SQL store: the name is not empty, the
purchase date is absent, empty or parsable, the `INSERT` statement runs and reports an id. -/
theorem CreateIngredient_sql_ok {σ : Type} (db : DB σ) (req : CreateIngredientRequest)
    (pd : Option Date) (w : World σ) (s1 : σ) (res : SqlResult) (newID : Int)
    (hname : req.Name ≠ "")
    (hpd : (req.PurchaseDate = none ∧ pd = none) ∨
      (req.PurchaseDate = some "" ∧ pd = none) ∨
      (∃ s d, req.PurchaseDate = some s ∧ s ≠ "" ∧ timeParse s = .ok d ∧ pd = some d))
    (hexec : db.ExecInsert req.Name req.Quantity pd (w.env.clock (w.env.ticks + 2))
      (w.env.clock (w.env.ticks + 2)) w.env.db = (.ok res, s1))
    (hid : res.LastInsertId = .ok newID) :
    ingredientUsecase.CreateIngredient (NewIngredientRepository db) req w
      = ((some { ID := newID, Name := req.Name, Quantity := req.Quantity, PurchaseDate := pd,
                 CreatedAt := w.env.clock (w.env.ticks + 2),
                 UpdatedAt := w.env.clock (w.env.ticks + 2) }, none),
          { env := { db := s1, clock := w.env.clock, ticks := w.env.ticks + 3 },
            calls := w.calls ++
              [.Create { ID := 0, Name := req.Name, Quantity := req.Quantity, PurchaseDate := pd,
                         CreatedAt := w.env.clock w.env.ticks,
                         UpdatedAt := w.env.clock (w.env.ticks + 1) }] }) := by
  obtain ⟨rn, rq, rp⟩ := req
  simp only at hname hexec
  rcases hpd with ⟨h, hp⟩ | ⟨h, hp⟩ | ⟨s, d, h, hs, hparse, hp⟩
  · simp only at h
    subst h hp
    simp [ingredientUsecase.CreateIngredient, NewIngredientRepository,
      ingredientRepository.Create, hname, hexec, hid, World.record, World.tick, timeNow]
  · simp only at h
    subst h hp
    simp [ingredientUsecase.CreateIngredient, NewIngredientRepository,
      ingredientRepository.Create, hname, hexec, hid, World.record, World.tick, timeNow]
  · simp only at h
    subst h hp
    simp [ingredientUsecase.CreateIngredient, NewIngredientRepository,
      ingredientRepository.Create, hname, hs, hparse, hexec, hid, World.record, World.tick,
      timeNow]

/-! ## Claims about the ingredient use-case -/

/-- Claim C2: for every store and every create request whose name is the empty string, whatever
its quantity and purchase date, `CreateIngredient` returns no ingredient and an error whose text
is exactly `name is required`, and it returns the world as it found it: no store method was
called (in particular not `Create`), no clock reading was taken, the database is untouched. -/
theorem C2_create_empty_name_rejected {σ : Type} (repo : IngredientRepository σ)
    (quantity : String) (purchaseDate : Option String) (w : World σ) :
    ∃ err : GoError,
      ingredientUsecase.CreateIngredient repo
          { Name := "", Quantity := quantity, PurchaseDate := purchaseDate } w
        = ((none, some err), w) ∧
      err.Error = "name is required" :=
  ⟨errorsNew "name is required", by simp [ingredientUsecase.CreateIngredient], rfl⟩

/-- Claim C3: let the purchase-date string `s` of a request be present, non-empty and rejected
by `time.Parse` with the layout `2006-01-02`.  Then (a) for every create request with a
non-empty name, `CreateIngredient` returns no ingredient and an error whose text contains
`invalid purchase_date format`, makes no store call at all and leaves the database untouched;
(b) for every update request on an id whose record the store finds, `UpdateIngredient` returns
no ingredient and an error whose text contains `invalid purchase_date format`, and the only
store call it makes is the `GetByID`.  So neither `Create` nor `Update` is ever called. -/
theorem C3_unparsable_purchase_date_rejected {σ : Type} (repo : IngredientRepository σ)
    (name quantity s : String) (uname uquantity : Option String) (id : Int) (w : World σ)
    (loaded : Ingredient) (e1 : Env σ) (perr : ParseError)
    (hs : s ≠ "") (hparse : timeParse s = .error perr) :
    (name ≠ "" →
      ∃ err : GoError,
        (ingredientUsecase.CreateIngredient repo
            { Name := name, Quantity := quantity, PurchaseDate := some s } w).1
          = (none, some err) ∧
        stringsContains err.Error "invalid purchase_date format" ∧
        (ingredientUsecase.CreateIngredient repo
            { Name := name, Quantity := quantity, PurchaseDate := some s } w).2.calls
          = w.calls ∧
        (ingredientUsecase.CreateIngredient repo
            { Name := name, Quantity := quantity, PurchaseDate := some s } w).2.env.db
          = w.env.db) ∧
    (repo.GetByID id w.env = ((some loaded, none), e1) →
      ∃ err : GoError,
        (ingredientUsecase.UpdateIngredient repo id
            { Name := uname, Quantity := uquantity, PurchaseDate := some s } w).1
          = (none, some err) ∧
        stringsContains err.Error "invalid purchase_date format" ∧
        (ingredientUsecase.UpdateIngredient repo id
            { Name := uname, Quantity := uquantity, PurchaseDate := some s } w).2
          = { env := e1, calls := w.calls ++ [.GetByID id] }) := by
  have hc : stringsContains
      (GoError.wrapError "invalid purchase_date format: " (.parseError perr)).Error
      "invalid purchase_date format" := by
    simp only [GoError.Error]
    exact stringsContains_append_left _ _ _ (by decide)
  refine ⟨fun hname => ⟨_, ?_, hc, ?_, ?_⟩, fun hget => ⟨_, ?_, hc, ?_⟩⟩
  · simp [ingredientUsecase.CreateIngredient, hname, hs, hparse]
  · simp [ingredientUsecase.CreateIngredient, hname, hs, hparse, World.tick]
  · simp [ingredientUsecase.CreateIngredient, hname, hs, hparse, World.tick, timeNow]
  · simp [ingredientUsecase.UpdateIngredient, ingredientUsecase.mergeFields, hget, hs, hparse]
  · simp [ingredientUsecase.UpdateIngredient, ingredientUsecase.mergeFields, hget, hs, hparse,
      World.record]

/-- Witness for C3: the purchase date `not-a-date`, over the table database holding the carrot. -/
theorem C3_unparsable_purchase_date_rejected_witness :
    (∃ err : GoError,
      (ingredientUsecase.CreateIngredient (NewIngredientRepository tableDB)
          { Name := "にんじん", Quantity := "2本", PurchaseDate := some "not-a-date" }
          (worldOf [carrot])).1 = (none, some err) ∧
      stringsContains err.Error "invalid purchase_date format" ∧
      (ingredientUsecase.CreateIngredient (NewIngredientRepository tableDB)
          { Name := "にんじん", Quantity := "2本", PurchaseDate := some "not-a-date" }
          (worldOf [carrot])).2.calls = (worldOf [carrot]).calls ∧
      (ingredientUsecase.CreateIngredient (NewIngredientRepository tableDB)
          { Name := "にんじん", Quantity := "2本", PurchaseDate := some "not-a-date" }
          (worldOf [carrot])).2.env.db = (worldOf [carrot]).env.db) ∧
    (∃ err : GoError,
      (ingredientUsecase.UpdateIngredient (NewIngredientRepository tableDB) 1
          { Name := none, Quantity := some "3本", PurchaseDate := some "not-a-date" }
          (worldOf [carrot])).1 = (none, some err) ∧
      stringsContains err.Error "invalid purchase_date format" ∧
      (ingredientUsecase.UpdateIngredient (NewIngredientRepository tableDB) 1
          { Name := none, Quantity := some "3本", PurchaseDate := some "not-a-date" }
          (worldOf [carrot])).2
        = { env := { db := [carrot], clock := tickingClock, ticks := 0 },
            calls := (worldOf [carrot]).calls ++ [.GetByID 1] }) :=
  have h := C3_unparsable_purchase_date_rejected (NewIngredientRepository tableDB) "にんじん"
    "2本" "not-a-date" none (some "3本") 1 (worldOf [carrot]) carrot
    { db := [carrot], clock := tickingClock, ticks := 0 }
    (newParseError "not-a-date" "2006" "not-a-date".data "")
    (by decide) (by decide)
  ⟨h.1 (by decide), h.2 rfl⟩

/-- Claim C4: for every store, id and update request, when the store's `GetByID` returns an
error (whatever pointer comes with it), `UpdateIngredient` returns no ingredient and the error
`failed to get ingredient: ` wrapped around the store's error, which therefore stays in its
wrap chain; the only store call made is that `GetByID`, so `Update` is never called. -/
theorem C4_update_get_failure_propagates {σ : Type} (repo : IngredientRepository σ) (id : Int)
    (req : UpdateIngredientRequest) (w : World σ) (p : Option Ingredient) (storeErr : GoError)
    (e1 : Env σ) (hget : repo.GetByID id w.env = ((p, some storeErr), e1)) :
    ∃ err : GoError,
      ingredientUsecase.UpdateIngredient repo id req w
        = ((none, some err), { env := e1, calls := w.calls ++ [.GetByID id] }) ∧
      err.Unwrap = some storeErr ∧
      errorsIs err storeErr = true ∧
      err.Error = "failed to get ingredient: " ++ storeErr.Error :=
  ⟨.wrapError "failed to get ingredient: " storeErr,
    by simp [ingredientUsecase.UpdateIngredient, hget, World.record],
    rfl, errorsIs_wrapError _ _ _ (errorsIs_self _), rfl⟩

/-- Witness for C4: id 99999 over the table database holding only the carrot. -/
theorem C4_update_get_failure_propagates_witness :
    ∃ err : GoError,
      ingredientUsecase.UpdateIngredient (NewIngredientRepository tableDB) 99999
          { Name := none, Quantity := some "500g", PurchaseDate := none } (worldOf [carrot])
        = ((none, some err),
            { env := { db := [carrot], clock := tickingClock, ticks := 0 },
              calls := (worldOf [carrot]).calls ++ [.GetByID 99999] }) ∧
      err.Unwrap = some (.wrapError "ingredient not found: " .errNoRows) ∧
      errorsIs err (.wrapError "ingredient not found: " .errNoRows) = true ∧
      err.Error = "failed to get ingredient: " ++
        (GoError.wrapError "ingredient not found: " .errNoRows).Error :=
  C4_update_get_failure_propagates (NewIngredientRepository tableDB) 99999
    { Name := none, Quantity := some "500g", PurchaseDate := none } (worldOf [carrot]) none
    (.wrapError "ingredient not found: " .errNoRows)
    { db := [carrot], clock := tickingClock, ticks := 0 } rfl

/-- Claim C5: over the SQL store on any database, let the row query for `id` fail with an error
that matches `sql.ErrNoRows` (no row found).  Then the error returned by the store's `GetByID`
and the errors returned by `GetIngredientByID`, `UpdateIngredient` (for every request) and
`DeleteIngredient` all still have `sql.ErrNoRows` in their wrap chain, none of the three returns
an ingredient, and `handleError` answers each of the three with status 404, kind `not_found`
and message `Resource not found`. -/
theorem C5_not_found_survives_every_layer {σ : Type} (db : DB σ) (id : Int)
    (req : UpdateIngredientRequest) (w : World σ) (rowErr : GoError)
    (hrow : (db.GetRow id w.env.db).1 = .error rowErr)
    (hnf : errorsIs rowErr .errNoRows = true) :
    (∃ storeErr : GoError,
      ((NewIngredientRepository db).GetByID id w.env).1 = (none, some storeErr) ∧
      errorsIs storeErr .errNoRows = true) ∧
    (∃ err : GoError,
      (ingredientUsecase.GetIngredientByID (NewIngredientRepository db) id w).1
        = (none, some err) ∧
      errorsIs err .errNoRows = true ∧
      handleError (some err)
        = some { status := 404, body := .error ⟨"not_found", "Resource not found"⟩ }) ∧
    (∃ err : GoError,
      (ingredientUsecase.UpdateIngredient (NewIngredientRepository db) id req w).1
        = (none, some err) ∧
      errorsIs err .errNoRows = true ∧
      handleError (some err)
        = some { status := 404, body := .error ⟨"not_found", "Resource not found"⟩ }) ∧
    (∃ err : GoError,
      (ingredientUsecase.DeleteIngredient (NewIngredientRepository db) id w).1 = some err ∧
      errorsIs err .errNoRows = true ∧
      handleError (some err)
        = some { status := 404, body := .error ⟨"not_found", "Resource not found"⟩ }) := by
  have hstore : ∃ storeErr : GoError,
      ((NewIngredientRepository db).GetByID id w.env).1 = (none, some storeErr) ∧
      errorsIs storeErr .errNoRows = true := by
    by_cases h : rowErr = GoError.errNoRows
    · exact ⟨.wrapError "ingredient not found: " rowErr,
        by simp [NewIngredientRepository, ingredientRepository.GetByID, hrow, h],
        errorsIs_wrapError _ _ _ hnf⟩
    · exact ⟨.wrapError "failed to get ingredient by id: " rowErr,
        by simp [NewIngredientRepository, ingredientRepository.GetByID, hrow, h],
        errorsIs_wrapError _ _ _ hnf⟩
  obtain ⟨storeErr, hget, his⟩ := hstore
  have h1 : ((NewIngredientRepository db).GetByID id w.env).1.1 = none := by rw [hget]
  have h2 : ((NewIngredientRepository db).GetByID id w.env).1.2 = some storeErr := by rw [hget]
  refine ⟨⟨storeErr, hget, his⟩,
    ⟨.wrapError "failed to get ingredient by id: " storeErr, ?_, ?_, ?_⟩,
    ⟨.wrapError "failed to get ingredient: " storeErr, ?_, ?_, ?_⟩,
    ⟨.wrapError "failed to get ingredient: " storeErr, ?_, ?_, ?_⟩⟩
  · simp [ingredientUsecase.GetIngredientByID, h2]
  · exact errorsIs_wrapError _ _ _ his
  · exact handleError_errNoRows _ (errorsIs_wrapError _ _ _ his)
  · simp [ingredientUsecase.UpdateIngredient, h2]
  · exact errorsIs_wrapError _ _ _ his
  · exact handleError_errNoRows _ (errorsIs_wrapError _ _ _ his)
  · simp [ingredientUsecase.DeleteIngredient, h2]
  · exact errorsIs_wrapError _ _ _ his
  · exact handleError_errNoRows _ (errorsIs_wrapError _ _ _ his)

/-- Witness for C5: id 99999 over the table database holding only the carrot. -/
theorem C5_not_found_survives_every_layer_witness :
    (∃ storeErr : GoError,
      ((NewIngredientRepository tableDB).GetByID 99999 (worldOf [carrot]).env).1
        = (none, some storeErr) ∧
      errorsIs storeErr .errNoRows = true) ∧
    (∃ err : GoError,
      (ingredientUsecase.GetIngredientByID (NewIngredientRepository tableDB) 99999
        (worldOf [carrot])).1 = (none, some err) ∧
      errorsIs err .errNoRows = true ∧
      handleError (some err)
        = some { status := 404, body := .error ⟨"not_found", "Resource not found"⟩ }) ∧
    (∃ err : GoError,
      (ingredientUsecase.UpdateIngredient (NewIngredientRepository tableDB) 99999
        { Name := none, Quantity := some "500g", PurchaseDate := none }
        (worldOf [carrot])).1 = (none, some err) ∧
      errorsIs err .errNoRows = true ∧
      handleError (some err)
        = some { status := 404, body := .error ⟨"not_found", "Resource not found"⟩ }) ∧
    (∃ err : GoError,
      (ingredientUsecase.DeleteIngredient (NewIngredientRepository tableDB) 99999
        (worldOf [carrot])).1 = some err ∧
      errorsIs err .errNoRows = true ∧
      handleError (some err)
        = some { status := 404, body := .error ⟨"not_found", "Resource not found"⟩ }) :=
  C5_not_found_survives_every_layer tableDB 99999
    { Name := none, Quantity := some "500g", PurchaseDate := none } (worldOf [carrot])
    .errNoRows (by decide) (by decide)

/-- Claim C1: over the SQL store on any database, let the row for `id` be found as `loaded`, let
the update request carry only a quantity (name and purchase date absent), and let the store's
`Update` succeed (the `UPDATE` statement runs and reports a non-zero number of rows).  Then
`UpdateIngredient` succeeds; the record it passes to the store's `Update` (`persisted`) and the
record it returns both have the requested quantity and the name and purchase date of `loaded`;
the statement that ran carried exactly these values and left the database in state `s2`. -/
theorem C1_update_quantity_only {σ : Type} (db : DB σ) (id : Int) (quantity : String)
    (w : World σ) (loaded : Ingredient) (s1 s2 : σ) (res : SqlResult) (n : Int)
    (hget : db.GetRow id w.env.db = (.ok loaded, s1))
    (hexec : db.ExecUpdate loaded.Name quantity loaded.PurchaseDate
      (w.env.clock (w.env.ticks + 1)) loaded.ID s1 = (.ok res, s2))
    (hrows : res.RowsAffected = .ok n) (hn : n ≠ 0) :
    ∃ returned persisted : Ingredient,
      (ingredientUsecase.UpdateIngredient (NewIngredientRepository db) id
        { Name := none, Quantity := some quantity, PurchaseDate := none } w).1
        = (some returned, none) ∧
      (ingredientUsecase.UpdateIngredient (NewIngredientRepository db) id
        { Name := none, Quantity := some quantity, PurchaseDate := none } w).2.calls
        = w.calls ++ [.GetByID id, .Update persisted] ∧
      (ingredientUsecase.UpdateIngredient (NewIngredientRepository db) id
        { Name := none, Quantity := some quantity, PurchaseDate := none } w).2.env.db = s2 ∧
      returned.Quantity = quantity ∧ returned.Name = loaded.Name ∧
      returned.PurchaseDate = loaded.PurchaseDate ∧
      persisted.Quantity = quantity ∧ persisted.Name = loaded.Name ∧
      persisted.PurchaseDate = loaded.PurchaseDate := by
  have h := UpdateIngredient_sql_ok db id
    { Name := none, Quantity := some quantity, PurchaseDate := none } w loaded
    { loaded with Quantity := quantity } s1 s2 res n hget rfl hexec hrows hn
  exact ⟨{ loaded with Quantity := quantity, UpdatedAt := w.env.clock (w.env.ticks + 1) },
    { loaded with Quantity := quantity, UpdatedAt := w.env.clock w.env.ticks },
    by rw [h], by rw [h], by rw [h], rfl, rfl, rfl, rfl, rfl, rfl⟩

/-- Witness for C1: the carrot in the table database, updated with the quantity `300g`. -/
theorem C1_update_quantity_only_witness :
    ∃ returned persisted : Ingredient,
      (ingredientUsecase.UpdateIngredient (NewIngredientRepository tableDB) 1
        { Name := none, Quantity := some "300g", PurchaseDate := none } (worldOf [carrot])).1
        = (some returned, none) ∧
      (ingredientUsecase.UpdateIngredient (NewIngredientRepository tableDB) 1
        { Name := none, Quantity := some "300g", PurchaseDate := none }
        (worldOf [carrot])).2.calls
        = (worldOf [carrot]).calls ++ [.GetByID 1, .Update persisted] ∧
      (ingredientUsecase.UpdateIngredient (NewIngredientRepository tableDB) 1
        { Name := none, Quantity := some "300g", PurchaseDate := none }
        (worldOf [carrot])).2.env.db
        = [{ carrot with Quantity := "300g", UpdatedAt := 1001 }] ∧
      returned.Quantity = "300g" ∧ returned.Name = carrot.Name ∧
      returned.PurchaseDate = carrot.PurchaseDate ∧
      persisted.Quantity = "300g" ∧ persisted.Name = carrot.Name ∧
      persisted.PurchaseDate = carrot.PurchaseDate :=
  C1_update_quantity_only tableDB 1 "300g" (worldOf [carrot]) carrot [carrot]
    [{ carrot with Quantity := "300g", UpdatedAt := 1001 }]
    { LastInsertId := .ok 0, RowsAffected := .ok 1 } 1
    (by decide) (by decide) (by decide) (by decide)

/-- Claim C9: over the SQL store on any database, let the row for `id` be found as `loaded`
(with or without a purchase date), let the request be any update request whose purchase date is
(i) the empty string, (ii) absent or (iii) a string that `time.Parse` accepts as the date `d`,
and let the store's `Update` succeed.  Then `UpdateIngredient` succeeds and the purchase date of
the record it passes to the store's `Update` and of the record it returns is `pd`, where `pd`
is (i) absent, (ii) the purchase date of `loaded`, (iii) the parsed date `d`. -/
theorem C9_update_purchase_date_cases {σ : Type} (db : DB σ) (id : Int)
    (req : UpdateIngredientRequest) (pd : Option Date) (w : World σ) (loaded : Ingredient)
    (s1 s2 : σ) (res : SqlResult) (n : Int)
    (hpd : (req.PurchaseDate = some "" ∧ pd = none) ∨
      (req.PurchaseDate = none ∧ pd = loaded.PurchaseDate) ∨
      (∃ s d, req.PurchaseDate = some s ∧ s ≠ "" ∧ timeParse s = .ok d ∧ pd = some d))
    (hget : db.GetRow id w.env.db = (.ok loaded, s1))
    (hexec : db.ExecUpdate (req.Name.getD loaded.Name) (req.Quantity.getD loaded.Quantity) pd
      (w.env.clock (w.env.ticks + 1)) loaded.ID s1 = (.ok res, s2))
    (hrows : res.RowsAffected = .ok n) (hn : n ≠ 0) :
    ∃ returned persisted : Ingredient,
      (ingredientUsecase.UpdateIngredient (NewIngredientRepository db) id req w).1
        = (some returned, none) ∧
      (ingredientUsecase.UpdateIngredient (NewIngredientRepository db) id req w).2.calls
        = w.calls ++ [.GetByID id, .Update persisted] ∧
      returned.PurchaseDate = pd ∧ persisted.PurchaseDate = pd := by
  have h := UpdateIngredient_sql_ok db id req w loaded _ s1 s2 res n hget
    (mergeFields_ok loaded req pd hpd) hexec hrows hn
  exact ⟨_, _, by rw [h], by rw [h], rfl, rfl⟩

/-- Witness for C9: the carrot (bought on 2025-12-31) in the table database, updated with the
purchase date `""` (cleared), with no purchase date (kept) and with `2026-01-15` (replaced). -/
theorem C9_update_purchase_date_cases_witness :
    (∃ returned persisted : Ingredient,
      (ingredientUsecase.UpdateIngredient (NewIngredientRepository tableDB) 1
        { Name := none, Quantity := none, PurchaseDate := some "" } (worldOf [carrot])).1
        = (some returned, none) ∧
      (ingredientUsecase.UpdateIngredient (NewIngredientRepository tableDB) 1
        { Name := none, Quantity := none, PurchaseDate := some "" } (worldOf [carrot])).2.calls
        = (worldOf [carrot]).calls ++ [.GetByID 1, .Update persisted] ∧
      returned.PurchaseDate = none ∧ persisted.PurchaseDate = none) ∧
    (∃ returned persisted : Ingredient,
      (ingredientUsecase.UpdateIngredient (NewIngredientRepository tableDB) 1
        { Name := some "大根", Quantity := none, PurchaseDate := none } (worldOf [carrot])).1
        = (some returned, none) ∧
      (ingredientUsecase.UpdateIngredient (NewIngredientRepository tableDB) 1
        { Name := some "大根", Quantity := none, PurchaseDate := none }
        (worldOf [carrot])).2.calls
        = (worldOf [carrot]).calls ++ [.GetByID 1, .Update persisted] ∧
      returned.PurchaseDate = some { year := 2025, month := 12, day := 31 } ∧
      persisted.PurchaseDate = some { year := 2025, month := 12, day := 31 }) ∧
    (∃ returned persisted : Ingredient,
      (ingredientUsecase.UpdateIngredient (NewIngredientRepository tableDB) 1
        { Name := none, Quantity := none, PurchaseDate := some "2026-01-15" }
        (worldOf [carrot])).1 = (some returned, none) ∧
      (ingredientUsecase.UpdateIngredient (NewIngredientRepository tableDB) 1
        { Name := none, Quantity := none, PurchaseDate := some "2026-01-15" }
        (worldOf [carrot])).2.calls
        = (worldOf [carrot]).calls ++ [.GetByID 1, .Update persisted] ∧
      returned.PurchaseDate = some { year := 2026, month := 1, day := 15 } ∧
      persisted.PurchaseDate = some { year := 2026, month := 1, day := 15 }) :=
  ⟨C9_update_purchase_date_cases tableDB 1
      { Name := none, Quantity := none, PurchaseDate := some "" } none (worldOf [carrot]) carrot
      [carrot] [{ carrot with PurchaseDate := none, UpdatedAt := 1001 }]
      { LastInsertId := .ok 0, RowsAffected := .ok 1 } 1
      (Or.inl ⟨rfl, rfl⟩) (by decide) (by decide) (by decide) (by decide),
    C9_update_purchase_date_cases tableDB 1
      { Name := some "大根", Quantity := none, PurchaseDate := none }
      (some { year := 2025, month := 12, day := 31 }) (worldOf [carrot]) carrot
      [carrot] [{ carrot with Name := "大根", UpdatedAt := 1001 }]
      { LastInsertId := .ok 0, RowsAffected := .ok 1 } 1
      (Or.inr (Or.inl ⟨rfl, rfl⟩)) (by decide) (by decide) (by decide) (by decide),
    C9_update_purchase_date_cases tableDB 1
      { Name := none, Quantity := none, PurchaseDate := some "2026-01-15" }
      (some { year := 2026, month := 1, day := 15 }) (worldOf [carrot]) carrot
      [carrot]
      [{ carrot with PurchaseDate := some { year := 2026, month := 1, day := 15 },
                     UpdatedAt := 1001 }]
      { LastInsertId := .ok 0, RowsAffected := .ok 1 } 1
      (Or.inr (Or.inr ⟨"2026-01-15", { year := 2026, month := 1, day := 15 }, rfl,
        by decide, by decide, rfl⟩))
      (by decide) (by decide) (by decide) (by decide)⟩

/-- Claim C8: over the SQL store on any database with a non-decreasing clock, let the create
request have a non-empty name and a purchase date that is absent, empty or accepted by
`time.Parse` as the date `d`, and let the store's `Create` succeed (the `INSERT` statement runs
and reports the new id).  Then `CreateIngredient` returns an ingredient whose name and quantity
are the submitted ones, whose purchase date is absent in the first two cases and `d` in the
third, whose id is the reported one, and whose created and updated timestamps are both the
reading the store took, so updated ≥ created.  The record the use-case hands to the store
carries the same name, quantity and purchase date, and two consecutive readings of the clock as
created and updated timestamps, so there too updated ≥ created. -/
theorem C8_create_returns_submitted_values {σ : Type} (db : DB σ)
    (req : CreateIngredientRequest) (pd : Option Date) (w : World σ) (s1 : σ) (res : SqlResult)
    (newID : Int)
    (hname : req.Name ≠ "")
    (hpd : (req.PurchaseDate = none ∧ pd = none) ∨
      (req.PurchaseDate = some "" ∧ pd = none) ∨
      (∃ s d, req.PurchaseDate = some s ∧ s ≠ "" ∧ timeParse s = .ok d ∧ pd = some d))
    (hclock : Monotone w.env.clock)
    (hexec : db.ExecInsert req.Name req.Quantity pd (w.env.clock (w.env.ticks + 2))
      (w.env.clock (w.env.ticks + 2)) w.env.db = (.ok res, s1))
    (hid : res.LastInsertId = .ok newID) :
    ∃ returned passed : Ingredient,
      (ingredientUsecase.CreateIngredient (NewIngredientRepository db) req w).1
        = (some returned, none) ∧
      (ingredientUsecase.CreateIngredient (NewIngredientRepository db) req w).2.calls
        = w.calls ++ [.Create passed] ∧
      returned.Name = req.Name ∧ returned.Quantity = req.Quantity ∧
      returned.PurchaseDate = pd ∧ returned.ID = newID ∧
      returned.CreatedAt = w.env.clock (w.env.ticks + 2) ∧
      returned.UpdatedAt = w.env.clock (w.env.ticks + 2) ∧
      returned.CreatedAt ≤ returned.UpdatedAt ∧
      passed.Name = req.Name ∧ passed.Quantity = req.Quantity ∧ passed.PurchaseDate = pd ∧
      passed.CreatedAt = w.env.clock w.env.ticks ∧
      passed.UpdatedAt = w.env.clock (w.env.ticks + 1) ∧
      passed.CreatedAt ≤ passed.UpdatedAt := by
  have h := CreateIngredient_sql_ok db req pd w s1 res newID hname hpd hexec hid
  exact ⟨_, _, by rw [h], by rw [h], rfl, rfl, rfl, rfl, rfl, rfl, le_refl _, rfl, rfl, rfl,
    rfl, rfl, hclock (Nat.le_succ _)⟩

/-- Witness for C8: the carrot bought on 2025-12-31, created in the empty table database. -/
theorem C8_create_returns_submitted_values_witness :
    ∃ returned passed : Ingredient,
      (ingredientUsecase.CreateIngredient (NewIngredientRepository tableDB)
        { Name := "にんじん", Quantity := "2本", PurchaseDate := some "2025-12-31" }
        (worldOf [])).1 = (some returned, none) ∧
      (ingredientUsecase.CreateIngredient (NewIngredientRepository tableDB)
        { Name := "にんじん", Quantity := "2本", PurchaseDate := some "2025-12-31" }
        (worldOf [])).2.calls = (worldOf []).calls ++ [.Create passed] ∧
      returned.Name = "にんじん" ∧ returned.Quantity = "2本" ∧
      returned.PurchaseDate = some { year := 2025, month := 12, day := 31 } ∧
      returned.ID = 1 ∧
      returned.CreatedAt = tickingClock (0 + 2) ∧
      returned.UpdatedAt = tickingClock (0 + 2) ∧
      returned.CreatedAt ≤ returned.UpdatedAt ∧
      passed.Name = "にんじん" ∧ passed.Quantity = "2本" ∧
      passed.PurchaseDate = some { year := 2025, month := 12, day := 31 } ∧
      passed.CreatedAt = tickingClock 0 ∧
      passed.UpdatedAt = tickingClock (0 + 1) ∧
      passed.CreatedAt ≤ passed.UpdatedAt :=
  C8_create_returns_submitted_values tableDB
    { Name := "にんじん", Quantity := "2本", PurchaseDate := some "2025-12-31" }
    (some { year := 2025, month := 12, day := 31 }) (worldOf [])
    [{ ID := 1, Name := "にんじん", Quantity := "2本",
       PurchaseDate := some { year := 2025, month := 12, day := 31 },
       CreatedAt := 1002, UpdatedAt := 1002 }]
    { LastInsertId := .ok 1, RowsAffected := .ok 1 } 1
    (by decide)
    (Or.inr (Or.inr ⟨"2025-12-31", { year := 2025, month := 12, day := 31 }, rfl,
      by decide, by decide, rfl⟩))
    (fun _ _ hab => Nat.add_le_add_left hab 1000)
    (by decide) (by decide)

/-- Claim C6, the code evaluated where it departs from the claim.  The store's `Update` of a
record with id 999 and its `Delete` of id 999, over a table without that row, report zero rows
and fail with the leaf error `ingredient not found`, which does not have `sql.ErrNoRows` in its
chain, whereas `GetByID` 999 fails with an error that has.  When a row is deleted between the
read and the write of `PUT /ingredients/1` and of `DELETE /ingredients/1`, the handlers
therefore answer 500 `internal_error`, not 404 `not_found`. -/
theorem C6_zero_rows_not_mapped_to_not_found :
    (ingredientRepository.Update tableDB { carrot with ID := 999 } (worldOf []).env).1.1
      = some (.errorString "ingredient not found") ∧
    (ingredientRepository.Delete tableDB 999 (worldOf []).env).1
      = some (.errorString "ingredient not found") ∧
    errorsIs (.errorString "ingredient not found") .errNoRows = false ∧
    (ingredientRepository.GetByID tableDB 999 (worldOf []).env).1
      = (none, some (.wrapError "ingredient not found: " .errNoRows)) ∧
    errorsIs (.wrapError "ingredient not found: " .errNoRows) .errNoRows = true ∧
    (racingHandler.UpdateIngredient
        "1" (.ok { Name := none, Quantity := some "3本", PurchaseDate := none })
        (worldOf [carrot])).1
      = some (respondWithError 500 "internal_error"
          "failed to update ingredient: ingredient not found") ∧
    (racingHandler.DeleteIngredient
        "1" (worldOf [carrot])).1
      = some (respondWithError 500 "internal_error"
          "failed to delete ingredient: ingredient not found") := by
  decide

/-- Claim C7, the code evaluated where it departs from the claim.  An update request whose name
is present and empty, on the carrot held by the table database, succeeds: the record passed to
the store's `Update`, the record returned and the row left in the database all have the empty
name. -/
theorem C7_update_persists_empty_name :
    (ingredientUsecase.UpdateIngredient (NewIngredientRepository tableDB) 1
        { Name := some "", Quantity := none, PurchaseDate := none } (worldOf [carrot])).1
      = (some { carrot with Name := "", UpdatedAt := 1001 }, none) ∧
    (ingredientUsecase.UpdateIngredient (NewIngredientRepository tableDB) 1
        { Name := some "", Quantity := none, PurchaseDate := none } (worldOf [carrot])).2.calls
      = [.GetByID 1, .Update { carrot with Name := "", UpdatedAt := 1000 }] ∧
    (ingredientUsecase.UpdateIngredient (NewIngredientRepository tableDB) 1
        { Name := some "", Quantity := none, PurchaseDate := none } (worldOf [carrot])).2.env.db
      = [{ carrot with Name := "", UpdatedAt := 1001 }] := by
  decide

/-- Claim C10, where the code departs from it: `POST /ingredients` with a body that binds to
name `carrot`, quantity `2` and purchase date `not-a-date` is answered with status 500 and kind
`internal_error`, not with the status 400 and kind `validation_error` that the claim states and
that the same handlers give to every other invalid request; so is `PUT /ingredients/1` with
purchase date `not-a-date` on the existing carrot. -/
theorem C10_invalid_date_not_a_validation_response :
    ((tableHandler.CreateIngredient
        (.ok { Name := "carrot", Quantity := "2", PurchaseDate := some "not-a-date" })
        (worldOf [])).1.map (·.status) = some 500 ∧
      (tableHandler.CreateIngredient
        (.ok { Name := "carrot", Quantity := "2", PurchaseDate := some "not-a-date" })
        (worldOf [])).1.bind Response.kind = some "internal_error" ∧
      ¬ (∃ r : Response,
        (tableHandler.CreateIngredient
          (.ok { Name := "carrot", Quantity := "2", PurchaseDate := some "not-a-date" })
          (worldOf [])).1 = some r ∧ r.status = 400 ∧ r.kind = some "validation_error")) ∧
    ((tableHandler.UpdateIngredient
        "1" (.ok { Name := none, Quantity := none, PurchaseDate := some "not-a-date" })
        (worldOf [carrot])).1.map (·.status) = some 500 ∧
      (tableHandler.UpdateIngredient
        "1" (.ok { Name := none, Quantity := none, PurchaseDate := some "not-a-date" })
        (worldOf [carrot])).1.bind Response.kind = some "internal_error" ∧
      ¬ (∃ r : Response,
        (tableHandler.UpdateIngredient
          "1" (.ok { Name := none, Quantity := none, PurchaseDate := some "not-a-date" })
          (worldOf [carrot])).1 = some r ∧ r.status = 400 ∧
            r.kind = some "validation_error")) := by
  have h1 : (tableHandler.CreateIngredient
      (.ok { Name := "carrot", Quantity := "2", PurchaseDate := some "not-a-date" })
      (worldOf [])).1.map (·.status) = some 500 := by decide
  have h2 : (tableHandler.UpdateIngredient
      "1" (.ok { Name := none, Quantity := none, PurchaseDate := some "not-a-date" })
      (worldOf [carrot])).1.map (·.status) = some 500 := by decide
  refine ⟨⟨h1, by decide, ?_⟩, ⟨h2, by decide, ?_⟩⟩
  · rintro ⟨r, hr, hst, -⟩
    rw [hr] at h1
    simp [hst] at h1
  · rintro ⟨r, hr, hst, -⟩
    rw [hr] at h2
    simp [hst] at h2

/-- The answer to an unparsable purchase date does not depend on the store or on the date: let
the purchase-date string `s` be non-empty and rejected by `time.Parse`.  For every store, (a) `POST /ingredients` with a body that binds to a request with
a non-empty name and purchase date `s`, and (b) `PUT /ingredients/{id}` with a path id that
parses to `id`, a record the store finds under `id` and a body that binds to a request with
purchase date `s`, are both answered with status 500, kind `internal_error` and as message the
text of the use-case error, `invalid purchase_date format: ` followed by the text of the parse
error. -/
theorem invalid_date_answered_internal_error {σ : Type} (repo : IngredientRepository σ)
    (name quantity s idStr : String) (uname uquantity : Option String) (id : Int) (w : World σ)
    (loaded : Ingredient) (e1 : Env σ) (perr : ParseError)
    (hs : s ≠ "") (hparse : timeParse s = .error perr) :
    (name ≠ "" →
      ((NewIngredientHandler (NewIngredientUsecase repo)).CreateIngredient
        (.ok { Name := name, Quantity := quantity, PurchaseDate := some s }) w).1
        = some { status := 500, body := ResponseBody.error {
            Error := "internal_error",
            Message := "invalid purchase_date format: " ++ perr.Error } }) ∧
    (strconvParseInt idStr = some id → repo.GetByID id w.env = ((some loaded, none), e1) →
      ((NewIngredientHandler (NewIngredientUsecase repo)).UpdateIngredient idStr
        (.ok { Name := uname, Quantity := uquantity, PurchaseDate := some s }) w).1
        = some { status := 500, body := ResponseBody.error {
            Error := "internal_error",
            Message := "invalid purchase_date format: " ++ perr.Error } }) := by
  have hno : errorsIs (GoError.wrapError "invalid purchase_date format: " (.parseError perr))
      .errNoRows = false := by
    simp [errorsIs]
  constructor
  · intro hname
    simp [IngredientHandler.CreateIngredient, NewIngredientHandler, NewIngredientUsecase,
      ingredientUsecase.CreateIngredient, hname, hs, hparse, handleError, hno,
      respondWithError, GoError.Error]
  · intro hid hget
    simp [IngredientHandler.UpdateIngredient, NewIngredientHandler, NewIngredientUsecase,
      ingredientUsecase.UpdateIngredient, ingredientUsecase.mergeFields, hid, hget, hs, hparse,
      handleError, hno, respondWithError, GoError.Error]

/-- The purchase date `not-a-date`, posted to the table database holding the carrot and put on
that carrot. -/
theorem invalid_date_answered_internal_error_example :
    (tableHandler.CreateIngredient
        (.ok { Name := "carrot", Quantity := "2", PurchaseDate := some "not-a-date" })
        (worldOf [carrot])).1
      = some { status := 500, body := ResponseBody.error {
          Error := "internal_error",
          Message := "invalid purchase_date format: " ++
            (newParseError "not-a-date" "2006" "not-a-date".data "").Error } } ∧
    (tableHandler.UpdateIngredient
        "1" (.ok { Name := none, Quantity := none, PurchaseDate := some "not-a-date" })
        (worldOf [carrot])).1
      = some { status := 500, body := ResponseBody.error {
          Error := "internal_error",
          Message := "invalid purchase_date format: " ++
            (newParseError "not-a-date" "2006" "not-a-date".data "").Error } } :=
  have h := invalid_date_answered_internal_error (NewIngredientRepository tableDB)
    "carrot" "2" "not-a-date" "1" none none 1 (worldOf [carrot]) carrot
    { db := [carrot], clock := tickingClock, ticks := 0 }
    (newParseError "not-a-date" "2006" "not-a-date".data "") (by decide) (by decide)
  ⟨h.1 (by decide), h.2 (by decide) rfl⟩


/-! ## Helper lemmas for recipe generation -/

theorem stringsContains_append_right (a b sub : String) (h : stringsContains b sub) :
    stringsContains (a ++ b) sub := by
  unfold stringsContains at *
  rw [String.data_append]
  exact List.IsInfix.trans h (List.suffix_append a.data b.data).isInfix

theorem stringsContains_self (a : String) : stringsContains a a := by
  unfold stringsContains
  exact List.infix_refl _

theorem foldl_append_singleton {α β : Type} (f : α → β) (l : List α) (acc : List β) :
    l.foldl (fun parts a => parts ++ [f a]) acc = acc ++ l.map f := by
  induction l generalizing acc with
  | nil => simp
  | cons a l ih => simp [ih]

theorem intercalate_go_eq_foldl (sep : String) (l : List String) (acc : String) :
    String.intercalate.go acc sep l = l.foldl (fun b s => b ++ sep ++ s) acc := by
  induction l generalizing acc with
  | nil => rfl
  | cons a l ih => simp [String.intercalate.go, ih]

theorem stringsJoin_eq_intercalate (elems : List String) (sep : String) :
    stringsJoin elems sep = sep.intercalate elems := by
  cases elems with
  | nil => rfl
  | cons a l => simp [stringsJoin, String.intercalate, intercalate_go_eq_foldl]

/-! ## Claims about recipe generation -/

/-- Claim C14: for every non-empty ingredient list, `formatIngredients` returns the formatting the
specification words: the renderings of the ingredients in list order joined by `, `, where an
ingredient renders as its name followed by its quantity in parentheses when the quantity is not
empty and as the bare name when it is. -/
theorem C14_formatIngredients_joins_renderings (l : List Ingredient) (h : l ≠ []) :
    ollamaServiceImpl.formatIngredients (some l) = specFormat l := by
  have hlen : l.length ≠ 0 := by
    intro h0
    exact h (List.length_eq_zero.mp h0)
  have hfold : l.foldl (fun (parts : List String) ing =>
      if ing.Quantity ≠ "" then parts ++ [ing.Name ++ "(" ++ ing.Quantity ++ ")"]
      else parts ++ [ing.Name]) [] = l.map specRendering := by
    have := foldl_append_singleton specRendering l []
    simp only [List.nil_append] at this
    rw [← this]
    congr 1
    funext parts ing
    by_cases hq : ing.Quantity = "" <;> simp [specRendering, hq]
  simp only [ollamaServiceImpl.formatIngredients, Option.getD_some, hlen, if_false]
  rw [hfold, stringsJoin_eq_intercalate]
  rfl

/-- Witness for C14: carrot, pork belly and an onion without quantity. -/
theorem C14_formatIngredients_joins_renderings_witness :
    ollamaServiceImpl.formatIngredients
        (some [{ carrot with Name := "にんじん", Quantity := "2本" },
               { carrot with Name := "豚バラ肉", Quantity := "200g" },
               { carrot with Name := "玉ねぎ", Quantity := "" }])
      = specFormat [{ carrot with Name := "にんじん", Quantity := "2本" },
                    { carrot with Name := "豚バラ肉", Quantity := "200g" },
                    { carrot with Name := "玉ねぎ", Quantity := "" }] ∧
    specFormat [{ carrot with Name := "にんじん", Quantity := "2本" },
                { carrot with Name := "豚バラ肉", Quantity := "200g" },
                { carrot with Name := "玉ねぎ", Quantity := "" }]
      = "にんじん(2本), 豚バラ肉(200g), 玉ねぎ" :=
  ⟨C14_formatIngredients_joins_renderings _ (by decide), by decide⟩

/-- Claim C20: for every store and adapter, when the store's `GetAll` returns an error (whatever
slice comes with it), the recipe use-case returns no result and the error
`failed to get ingredients: ` wrapped around the store's error, which stays in its wrap chain;
the only thing that changes is the world of the store, where the `GetAll` call is logged: the
state of the adapter and the log of adapter calls are as before, so the adapter is never
called. -/
theorem C20_recipe_store_failure_propagates {σ ν : Type} (repo : IngredientRepository σ)
    (svc : OllamaService ν) (w : RecipeWorld σ ν) (p : Option (List Ingredient))
    (storeErr : GoError) (e1 : Env σ)
    (hget : repo.GetAll w.world.env = ((p, some storeErr), e1)) :
    ∃ err : GoError,
      recipeUsecase.GetRecipeSuggestion repo svc w
        = ((none, some err),
            { world := { env := e1, calls := w.world.calls ++ [.GetAll] },
              service := w.service, generateCalls := w.generateCalls }) ∧
      stringsContains err.Error "failed to get ingredients" ∧
      err.Error = "failed to get ingredients: " ++ storeErr.Error ∧
      err.Unwrap = some storeErr ∧
      errorsIs err storeErr = true :=
  ⟨.wrapError "failed to get ingredients: " storeErr,
    by simp [recipeUsecase.GetRecipeSuggestion, hget, World.record],
    stringsContains_append_left _ _ _ (by decide), rfl, rfl,
    errorsIs_wrapError _ _ _ (errorsIs_self _)⟩

/-- Witness for C20: a database whose every statement fails, with a backend that would answer. -/
theorem C20_recipe_store_failure_propagates_witness :
    ∃ err : GoError,
      recipeUsecase.GetRecipeSuggestion (NewIngredientRepository (failingDB (.errorString "database error")))
          (exampleService (replyingClient ⟨200, envelopeText curryText, none⟩))
          (recipeWorldOf [carrot])
        = ((none, some err),
            { world := { env := { db := [carrot], clock := tickingClock, ticks := 0 },
                         calls := (recipeWorldOf [carrot]).world.calls ++ [.GetAll] },
              service := (recipeWorldOf [carrot]).service,
              generateCalls := (recipeWorldOf [carrot]).generateCalls }) ∧
      stringsContains err.Error "failed to get ingredients" ∧
      err.Error = "failed to get ingredients: " ++
        (GoError.wrapError "failed to get all ingredients: " (.errorString "database error")).Error ∧
      err.Unwrap = some (.wrapError "failed to get all ingredients: " (.errorString "database error")) ∧
      errorsIs err (.wrapError "failed to get all ingredients: " (.errorString "database error"))
        = true :=
  C20_recipe_store_failure_propagates
    (NewIngredientRepository (failingDB (.errorString "database error")))
    (exampleService (replyingClient ⟨200, envelopeText curryText, none⟩))
    (recipeWorldOf [carrot]) none
    (.wrapError "failed to get all ingredients: " (.errorString "database error"))
    { db := [carrot], clock := tickingClock, ticks := 0 } rfl

/-- Claim C19: for every store and adapter, when the store's `GetAll` succeeds with the slice
`p`, the recipe use-case calls the adapter exactly once, with the elements of `p` in the same
order as a non-nil slice (the empty one when `p` is nil or empty), and in the state the adapter
was in.  When the adapter returns no error the use-case returns the adapter's result unchanged;
when it returns the error `err` the use-case returns no result and the error
`failed to generate recipe suggestion: ` wrapped around `err`, which stays in its chain. -/
theorem C19_recipe_passes_list_and_result {σ ν : Type} (repo : IngredientRepository σ)
    (svc : OllamaService ν) (w : RecipeWorld σ ν) (p : Option (List Ingredient)) (e1 : Env σ)
    (hget : repo.GetAll w.world.env = ((p, none), e1)) :
    (recipeUsecase.GetRecipeSuggestion repo svc w).2.generateCalls
      = w.generateCalls ++ [some (p.getD [])] ∧
    (recipeUsecase.GetRecipeSuggestion repo svc w).2.service
      = (svc.GenerateRecipeSuggestion (some (p.getD [])) w.service).2 ∧
    (recipeUsecase.GetRecipeSuggestion repo svc w).2.world
      = { env := e1, calls := w.world.calls ++ [.GetAll] } ∧
    (∀ out : Option RecipeResponse,
      (svc.GenerateRecipeSuggestion (some (p.getD [])) w.service).1 = (out, none) →
      (recipeUsecase.GetRecipeSuggestion repo svc w).1 = (out, none)) ∧
    (∀ (out : Option RecipeResponse) (err : GoError),
      (svc.GenerateRecipeSuggestion (some (p.getD [])) w.service).1 = (out, some err) →
      ∃ e : GoError,
        (recipeUsecase.GetRecipeSuggestion repo svc w).1 = (none, some e) ∧
        e.Error = "failed to generate recipe suggestion: " ++ err.Error ∧
        e.Unwrap = some err ∧ errorsIs e err = true) := by
  have hp : (if (p.getD []).length = 0 then some [] else p) = some (p.getD []) := by
    cases p with
    | none => simp
    | some l =>
      cases l with
      | nil => simp
      | cons a l => simp
  refine ⟨?_, ?_, ?_, ?_, ?_⟩
  · simp only [recipeUsecase.GetRecipeSuggestion, hget, hp]
    split <;> rfl
  · simp only [recipeUsecase.GetRecipeSuggestion, hget, hp]
    split <;> rfl
  · simp only [recipeUsecase.GetRecipeSuggestion, hget, hp]
    split <;> rfl
  · intro out hout
    have h2 : (svc.GenerateRecipeSuggestion (some (p.getD [])) w.service).1.2 = none := by
      rw [hout]
    have h1 : (svc.GenerateRecipeSuggestion (some (p.getD [])) w.service).1.1 = out := by
      rw [hout]
    simp only [recipeUsecase.GetRecipeSuggestion, hget, hp, h1, h2]
  · intro out err hout
    have h2 : (svc.GenerateRecipeSuggestion (some (p.getD [])) w.service).1.2 = some err := by
      rw [hout]
    exact ⟨.wrapError "failed to generate recipe suggestion: " err,
      by simp only [recipeUsecase.GetRecipeSuggestion, hget, hp, h2], rfl, rfl,
      errorsIs_wrapError _ _ _ (errorsIs_self _)⟩

set_option maxRecDepth 100000 in
/-- Witness for C19: the table database holding the carrot, with a backend that answers the
curry (result passed through) and with a backend that refuses the connection (error wrapped). -/
theorem C19_recipe_passes_list_and_result_witness :
    (recipeUsecase.GetRecipeSuggestion (NewIngredientRepository tableDB)
        (exampleService (replyingClient ⟨200, envelopeText curryText, none⟩))
        (recipeWorldOf [carrot])).2.generateCalls = [some [carrot]] ∧
    (recipeUsecase.GetRecipeSuggestion (NewIngredientRepository tableDB)
        (exampleService (replyingClient ⟨200, envelopeText curryText, none⟩))
        (recipeWorldOf [carrot])).1 = (some curry, none) ∧
    (∃ e : GoError,
      (recipeUsecase.GetRecipeSuggestion (NewIngredientRepository tableDB)
        (exampleService (refusingClient (.errorString "connection refused")))
        (recipeWorldOf [carrot])).1 = (none, some e) ∧
      e.Error = "failed to generate recipe suggestion: " ++
        (GoError.wrapError "failed to send request to Ollama API: "
          (.errorString "connection refused")).Error ∧
      e.Unwrap = some (.wrapError "failed to send request to Ollama API: "
        (.errorString "connection refused")) ∧
      errorsIs e (.wrapError "failed to send request to Ollama API: "
        (.errorString "connection refused")) = true) :=
  have h := C19_recipe_passes_list_and_result (NewIngredientRepository tableDB)
    (exampleService (replyingClient ⟨200, envelopeText curryText, none⟩))
    (recipeWorldOf [carrot]) (some [carrot])
    { db := [carrot], clock := tickingClock, ticks := 0 } rfl
  have h' := C19_recipe_passes_list_and_result (NewIngredientRepository tableDB)
    (exampleService (refusingClient (.errorString "connection refused")))
    (recipeWorldOf [carrot]) (some [carrot])
    { db := [carrot], clock := tickingClock, ticks := 0 } rfl
  ⟨h.1, h.2.2.2.1 (some curry) (by decide),
    h'.2.2.2.2 none (.wrapError "failed to send request to Ollama API: "
      (.errorString "connection refused")) (by decide)⟩

set_option maxRecDepth 100000 in
/-- Claim C11, the code evaluated where it departs from the claim.  With the default endpoint
`http://localhost:11434`, a request that times out in the HTTP client and a request that is
cancelled both make the recipe-suggestion endpoint answer 500 `internal_error`: the text of the
use-case error holds `Ollama` with a capital letter and none of the markers `ollama`, `timeout`,
`connection` the handler looks for.  A refused connection, whose text holds `connection`, is
answered 503 `service_unavailable`. -/
theorem C11_transport_failure_answered_internal_error :
    ((recipeStack tableDB (refusingClient (.errorString
        ("Post \"http://localhost:11434/api/generate\": context deadline exceeded " ++
          "(Client.Timeout exceeded while awaiting headers)")))).GetRecipeSuggestion
        (recipeWorldOf [carrot])).1
      = some (respondWithError 500 "internal_error"
          ("failed to generate recipe suggestion: failed to send request to Ollama API: " ++
            "Post \"http://localhost:11434/api/generate\": context deadline exceeded " ++
            "(Client.Timeout exceeded while awaiting headers)")) ∧
    ((recipeStack tableDB (refusingClient (.errorString
        "Post \"http://localhost:11434/api/generate\": context canceled"))).GetRecipeSuggestion
        (recipeWorldOf [carrot])).1
      = some (respondWithError 500 "internal_error"
          ("failed to generate recipe suggestion: failed to send request to Ollama API: " ++
            "Post \"http://localhost:11434/api/generate\": context canceled")) ∧
    ((recipeStack tableDB (refusingClient (.errorString
        ("Post \"http://localhost:11434/api/generate\": dial tcp 127.0.0.1:11434: " ++
          "connect: connection refused")))).GetRecipeSuggestion
        (recipeWorldOf [carrot])).1
      = some (respondWithError 503 "service_unavailable"
          "Recipe suggestion service is currently unavailable") := by
  decide

set_option maxRecDepth 100000 in
/-- Claim C12, the code evaluated where it departs from the claim.  A reply of the generation
endpoint with status 500 and body `Internal Server Error`, and a reply with status 404 and body
`404 page not found`, make the recipe-suggestion endpoint answer 500 `internal_error`: the text
of the use-case error, `failed to generate recipe suggestion: Ollama API returned status ...`,
holds none of the markers `ollama`, `timeout`, `connection` the handler looks for. -/
theorem C12_upstream_status_answered_internal_error :
    ((recipeStack tableDB (replyingClient ⟨500, "Internal Server Error", none⟩)).GetRecipeSuggestion
        (recipeWorldOf [carrot])).1
      = some (respondWithError 500 "internal_error"
          ("failed to generate recipe suggestion: " ++
            "Ollama API returned status 500: Internal Server Error")) ∧
    ((recipeStack tableDB (replyingClient ⟨404, "404 page not found", none⟩)).GetRecipeSuggestion
        (recipeWorldOf [carrot])).1
      = some (respondWithError 500 "internal_error"
          ("failed to generate recipe suggestion: " ++
            "Ollama API returned status 404: 404 page not found")) := by
  decide

/-- What `GenerateRecipeSuggestion` does up to the reply: when the payload marshals to `body`
and the request can be built, the request is handed to the client and logged. -/
theorem GenerateRecipeSuggestion_sent {ω : Type} (lib : StdLib) (s : ollamaServiceImpl ω)
    (ingredients : Option (List Ingredient)) (n : Net ω) (body : String)
    (hm : lib.jsonMarshal (ollamaServiceImpl.requestPayload s.config ingredients) = .ok body)
    (hn : lib.NewRequestWithContext "POST" (s.config.Endpoint ++ "/api/generate") body = none) :
    (ollamaServiceImpl.GenerateRecipeSuggestion lib s ingredients n).2.sent
      = n.sent ++ [{ Method := "POST", URL := s.config.Endpoint ++ "/api/generate",
                     ContentType := "application/json", Body := body }] := by
  simp only [ollamaServiceImpl.GenerateRecipeSuggestion, hm, hn]
  repeat' split
  all_goals rfl

/-- What `GenerateRecipeSuggestion` returns once the client has given the reply `resp`. -/
theorem GenerateRecipeSuggestion_reply {ω : Type} (lib : StdLib) (s : ollamaServiceImpl ω)
    (ingredients : Option (List Ingredient)) (n : Net ω) (body : String) (resp : HTTPResponse)
    (b1 : ω)
    (hm : lib.jsonMarshal (ollamaServiceImpl.requestPayload s.config ingredients) = .ok body)
    (hn : lib.NewRequestWithContext "POST" (s.config.Endpoint ++ "/api/generate") body = none)
    (hdo : s.httpClient.Do { Method := "POST", URL := s.config.Endpoint ++ "/api/generate",
                             ContentType := "application/json", Body := body } n.backend
      = (.ok resp, b1)) :
    (ollamaServiceImpl.GenerateRecipeSuggestion lib s ingredients n).1
      = if resp.StatusCode ≠ 200 then
          (none, some (ollamaServiceImpl.upstreamStatusError resp.StatusCode resp.Body))
        else
          match resp.ReadErr with
          | some err => (none, some (.wrapError "failed to read response body: " err))
          | none =>
            match lib.unmarshalOllamaResponse resp.Body with
            | .error err =>
              (none, some (.wrapError "failed to unmarshal Ollama response: " err))
            | .ok ollamaResp =>
              match lib.unmarshalRecipeResponse ollamaResp.Response with
              | .error err => (none, some (.wrapError "failed to parse recipe response: " err))
              | .ok recipeResp => (some recipeResp, none) := by
  simp only [ollamaServiceImpl.GenerateRecipeSuggestion, hm, hn, hdo]
  repeat' split
  all_goals rfl

/-- The adapter call the recipe use-case makes when the store's `GetAll` succeeds with `p`. -/
theorem GetRecipeSuggestion_generateCalls {σ ν : Type} (repo : IngredientRepository σ)
    (svc : OllamaService ν) (w : RecipeWorld σ ν) (p : Option (List Ingredient)) (e1 : Env σ)
    (hget : repo.GetAll w.world.env = ((p, none), e1)) :
    (recipeUsecase.GetRecipeSuggestion repo svc w).2.generateCalls
      = w.generateCalls ++ [some (p.getD [])] := by
  have hp : (if (p.getD []).length = 0 then some [] else p) = some (p.getD []) := by
    cases p with
    | none => simp
    | some l =>
      cases l with
      | nil => simp
      | cons a l => simp
  simp only [recipeUsecase.GetRecipeSuggestion, hget, hp]
  split <;> rfl

/-- Claim C15: for a nil and for an empty ingredient list `p`, `formatIngredients` returns
exactly `食材がありません`; the prompt of the payload `GenerateRecipeSuggestion` builds is the
instructional template followed by that placeholder; when the payload marshals to `body` and
the request can be built, the request handed to the HTTP client is the `POST` of `body` to
`/api/generate` under the endpoint; and whenever the store's `GetAll` succeeds with a nil or empty
list, the recipe use-case calls the adapter with the empty list, which is this case. -/
theorem C15_empty_list_uses_placeholder {σ ν ω : Type} (repo : IngredientRepository σ)
    (svc : OllamaService ν) (w : RecipeWorld σ ν) (e1 : Env σ) (lib : StdLib)
    (s : ollamaServiceImpl ω) (n : Net ω) (body : String) (p : Option (List Ingredient))
    (hp : p = none ∨ p = some []) :
    ollamaServiceImpl.formatIngredients p = "食材がありません" ∧
    (ollamaServiceImpl.requestPayload s.config p).Prompt
      = promptTemplate ++ "食材がありません" ∧
    (lib.jsonMarshal { Model := s.config.Model, Prompt := promptTemplate ++ "食材がありません",
                       Stream := false, Format := "json" } = .ok body →
      lib.NewRequestWithContext "POST" (s.config.Endpoint ++ "/api/generate") body = none →
      (ollamaServiceImpl.GenerateRecipeSuggestion lib s p n).2.sent
        = n.sent ++ [{ Method := "POST", URL := s.config.Endpoint ++ "/api/generate",
                       ContentType := "application/json", Body := body }]) ∧
    (repo.GetAll w.world.env = ((p, none), e1) →
      (recipeUsecase.GetRecipeSuggestion repo svc w).2.generateCalls
        = w.generateCalls ++ [some []]) := by
  have hf : ollamaServiceImpl.formatIngredients p = "食材がありません" := by
    rcases hp with rfl | rfl <;> rfl
  have hpay : ollamaServiceImpl.requestPayload s.config p
      = { Model := s.config.Model, Prompt := promptTemplate ++ "食材がありません",
          Stream := false, Format := "json" } := by
    simp only [ollamaServiceImpl.requestPayload, hf]
  refine ⟨hf, by rw [hpay], ?_, ?_⟩
  · intro hm hn
    exact GenerateRecipeSuggestion_sent lib s p n body (by rw [hpay]; exact hm) hn
  · intro hget
    have h := GetRecipeSuggestion_generateCalls repo svc w p e1 hget
    rcases hp with rfl | rfl <;> exact h

set_option maxRecDepth 100000 in
/-- Witness for C15: the empty table database, the stand-in library and a backend that answers
the curry. -/
theorem C15_empty_list_uses_placeholder_witness :
    ollamaServiceImpl.formatIngredients (some []) = "食材がありません" ∧
    (ollamaServiceImpl.requestPayload defaultConfig (some [])).Prompt
      = promptTemplate ++ "食材がありません" ∧
    (ollamaServiceImpl.GenerateRecipeSuggestion exampleLib
        { config := defaultConfig,
          httpClient := replyingClient ⟨200, envelopeText curryText, none⟩ }
        (some []) quietNet).2.sent.map (·.URL) = ["http://localhost:11434/api/generate"] ∧
    (recipeUsecase.GetRecipeSuggestion (NewIngredientRepository tableDB)
        (exampleService (replyingClient ⟨200, envelopeText curryText, none⟩))
        (recipeWorldOf [])).2.generateCalls = [some []] :=
  have h := C15_empty_list_uses_placeholder (NewIngredientRepository tableDB)
    (exampleService (replyingClient ⟨200, envelopeText curryText, none⟩))
    (recipeWorldOf []) { db := [], clock := tickingClock, ticks := 0 } exampleLib
    { config := defaultConfig,
      httpClient := replyingClient ⟨200, envelopeText curryText, none⟩ }
    quietNet
    ((exampleLib.jsonMarshal (ollamaServiceImpl.requestPayload defaultConfig (some []))).toOption.getD "")
    (some []) (Or.inr rfl)
  ⟨h.1, h.2.1, by rw [h.2.2.1 (by decide) rfl]; rfl, h.2.2.2 rfl⟩

set_option maxRecDepth 100000 in
/-- Claim C16 fails as stated: a reply with the successful status 204 and an empty body, and a
reply with the successful status 201 whose body is a well-formed envelope around the curry,
both make `GenerateRecipeSuggestion` return the error of the status check. -/
theorem C16_successful_status_gets_status_error :
    (ollamaServiceImpl.GenerateRecipeSuggestion exampleLib
        { config := defaultConfig, httpClient := replyingClient ⟨204, "", none⟩ }
        (some [carrot]) quietNet).1
      = (none, some (ollamaServiceImpl.upstreamStatusError 204 "")) ∧
    (ollamaServiceImpl.upstreamStatusError 204 "").Error = "Ollama API returned status 204: " ∧
    (ollamaServiceImpl.GenerateRecipeSuggestion exampleLib
        { config := defaultConfig,
          httpClient := replyingClient ⟨201, envelopeText curryText, none⟩ }
        (some [carrot]) quietNet).1
      = (none, some (ollamaServiceImpl.upstreamStatusError 201 (envelopeText curryText))) := by
  decide

/-- Claim C16 as amended: let the request be sent and the endpoint reply with `resp`.  Then
`GenerateRecipeSuggestion` returns the error of the status check,
`Ollama API returned status <code>: <body>`, exactly when the status of the reply is not 200
(`http.StatusOK`); in that case the text of the
error contains the status code in decimal and the body of the reply; and when the status is 200
the error returned, if any, is not an error of the status check, whatever code and body. -/
theorem C16_upstream_status_error_iff {ω : Type} (lib : StdLib) (s : ollamaServiceImpl ω)
    (ingredients : Option (List Ingredient)) (n : Net ω) (body : String) (resp : HTTPResponse)
    (b1 : ω)
    (hm : lib.jsonMarshal (ollamaServiceImpl.requestPayload s.config ingredients) = .ok body)
    (hn : lib.NewRequestWithContext "POST" (s.config.Endpoint ++ "/api/generate") body = none)
    (hdo : s.httpClient.Do { Method := "POST", URL := s.config.Endpoint ++ "/api/generate",
                             ContentType := "application/json", Body := body } n.backend
      = (.ok resp, b1)) :
    ((ollamaServiceImpl.GenerateRecipeSuggestion lib s ingredients n).1
        = (none, some (ollamaServiceImpl.upstreamStatusError resp.StatusCode resp.Body))
      ↔ resp.StatusCode ≠ 200) ∧
    (ollamaServiceImpl.upstreamStatusError resp.StatusCode resp.Body).Error
      = "Ollama API returned status " ++ toString resp.StatusCode ++ ": " ++ resp.Body ∧
    stringsContains (ollamaServiceImpl.upstreamStatusError resp.StatusCode resp.Body).Error
      (toString resp.StatusCode) ∧
    stringsContains (ollamaServiceImpl.upstreamStatusError resp.StatusCode resp.Body).Error
      resp.Body ∧
    (resp.StatusCode = 200 → ∀ (code : Nat) (text : String),
      (ollamaServiceImpl.GenerateRecipeSuggestion lib s ingredients n).1.2
        ≠ some (ollamaServiceImpl.upstreamStatusError code text)) := by
  have hr := GenerateRecipeSuggestion_reply lib s ingredients n body resp b1 hm hn hdo
  have hnot : resp.StatusCode = 200 → ∀ (code : Nat) (text : String),
      (ollamaServiceImpl.GenerateRecipeSuggestion lib s ingredients n).1.2
        ≠ some (ollamaServiceImpl.upstreamStatusError code text) := by
    intro h200 code text
    rw [hr]
    simp only [h200, ne_eq, not_true_eq_false, if_false]
    repeat' split
    all_goals simp [ollamaServiceImpl.upstreamStatusError]
  refine ⟨⟨?_, ?_⟩, rfl, ?_, ?_, hnot⟩
  · intro h hc
    exact hnot hc resp.StatusCode resp.Body (by rw [h])
  · intro hne
    rw [hr, if_pos hne]
  · simp only [ollamaServiceImpl.upstreamStatusError, GoError.Error]
    exact stringsContains_append_left _ _ _
      (stringsContains_append_left _ _ _
        (stringsContains_append_right _ _ _ (stringsContains_self _)))
  · simp only [ollamaServiceImpl.upstreamStatusError, GoError.Error]
    exact stringsContains_append_right _ _ _ (stringsContains_self _)

set_option maxRecDepth 100000 in
/-- Witness for C16 as amended: the reply with status 500 and body `Internal Server Error`. -/
theorem C16_upstream_status_error_iff_witness :
    ((ollamaServiceImpl.GenerateRecipeSuggestion exampleLib
        { config := defaultConfig,
          httpClient := replyingClient ⟨500, "Internal Server Error", none⟩ }
        (some [carrot]) quietNet).1
        = (none, some (ollamaServiceImpl.upstreamStatusError 500 "Internal Server Error"))
      ↔ 500 ≠ 200) ∧
    (ollamaServiceImpl.upstreamStatusError 500 "Internal Server Error").Error
      = "Ollama API returned status " ++ toString 500 ++ ": " ++ "Internal Server Error" ∧
    stringsContains (ollamaServiceImpl.upstreamStatusError 500 "Internal Server Error").Error
      (toString 500) ∧
    stringsContains (ollamaServiceImpl.upstreamStatusError 500 "Internal Server Error").Error
      "Internal Server Error" ∧
    (500 = 200 → ∀ (code : Nat) (text : String),
      (ollamaServiceImpl.GenerateRecipeSuggestion exampleLib
        { config := defaultConfig,
          httpClient := replyingClient ⟨500, "Internal Server Error", none⟩ }
        (some [carrot]) quietNet).1.2
        ≠ some (ollamaServiceImpl.upstreamStatusError code text)) :=
  C16_upstream_status_error_iff exampleLib
    { config := defaultConfig,
      httpClient := replyingClient ⟨500, "Internal Server Error", none⟩ }
    (some [carrot]) quietNet
    ((exampleLib.jsonMarshal
      (ollamaServiceImpl.requestPayload defaultConfig (some [carrot]))).toOption.getD "")
    ⟨500, "Internal Server Error", none⟩ () (by decide) rfl rfl

/-! ## Helper lemmas: the decoder reads back what `json.Marshal` writes -/

theorem hexVal_lowerhex (k : Nat) (h : k < 16) : hexVal (lowerhex k) = some k := by
  interval_cases k <;> decide

theorem charOfCode_toNat (c : Char) (h : c.toNat < 0xD800) : charOfCode c.toNat = c := by
  have h2 : ¬ (0xD800 ≤ c.toNat ∧ c.toNat < 0xE000) := by omega
  simp only [charOfCode, h2, if_false]
  exact Char.ofNat_toNat c

theorem decodeChar_jsonQuoteChar (c : Char) (tail : List Char) :
    decodeChar (jsonQuoteChar c ++ tail) = some (c, tail) := by
  unfold jsonQuoteChar
  split
  · next h => subst h; rfl
  split
  · next h => subst h; rfl
  split
  · next _ _ h =>
    have : c = Char.ofNat 8 := by rw [← h, Char.ofNat_toNat]
    subst this; rfl
  split
  · next h =>
    have : c = Char.ofNat 12 := by rw [← h, Char.ofNat_toNat]
    subst this; rfl
  split
  · next h => subst h; rfl
  split
  · next h => subst h; rfl
  split
  · next h => subst h; rfl
  split
  · next h =>
    have hlt : c.toNat < 64 := by
      rcases h with h | h | h | h
      · omega
      · subst h; decide
      · subst h; decide
      · subst h; decide
    have h1 : hexVal (lowerhex (c.toNat / 16)) = some (c.toNat / 16) :=
      hexVal_lowerhex _ (by omega)
    have h2 : hexVal (lowerhex (c.toNat % 16)) = some (c.toNat % 16) :=
      hexVal_lowerhex _ (by omega)
    have h0 : hexVal '0' = some 0 := by decide
    have hval : ((0 * 16 + 0) * 16 + c.toNat / 16) * 16 + c.toNat % 16 = c.toNat := by omega
    simp only [List.cons_append, List.nil_append, decodeChar, h0, h1, h2, hval]
    simp [charOfCode_toNat c (by omega)]
  split
  · next h =>
    have : c = Char.ofNat 0x2028 := by rw [← h, Char.ofNat_toNat]
    subst this; rfl
  split
  · next h =>
    have : c = Char.ofNat 0x2029 := by rw [← h, Char.ofNat_toNat]
    subst this; rfl
  · next h1 h2 _ _ _ _ _ h8 _ _ =>
    have h32 : ¬ c.toNat < 32 := fun h => h8 (Or.inl h)
    simp [decodeChar, h1, h2, h32]

theorem jsonQuoteChar_head (c : Char) :
    ∃ (h : Char) (t : List Char), jsonQuoteChar c = h :: t ∧ h ≠ '"' := by
  unfold jsonQuoteChar
  repeat' split
  all_goals first
    | exact ⟨'\\', _, rfl, by decide⟩
    | skip
  next h1 _ _ _ _ _ _ _ _ _ => exact ⟨c, [], rfl, h1⟩

theorem decodeStringBody_quoted (s rest : List Char) (fuel : Nat)
    (hfuel : (s.map jsonQuoteChar).flatten.length < fuel) :
    decodeStringBody fuel ((s.map jsonQuoteChar).flatten ++ '"' :: rest) = some (s, rest) := by
  induction s generalizing fuel with
  | nil =>
    cases fuel with
    | zero => simp at hfuel
    | succ fuel => simp [decodeStringBody]
  | cons c s ih =>
    obtain ⟨h, t, hq, hne⟩ := jsonQuoteChar_head c
    cases fuel with
    | zero => simp at hfuel
    | succ fuel =>
      simp only [List.map_cons, List.flatten_cons, List.length_append] at hfuel
      have hlen : 1 ≤ (jsonQuoteChar c).length := by rw [hq]; simp
      have hdec := decodeChar_jsonQuoteChar c ((s.map jsonQuoteChar).flatten ++ '"' :: rest)
      rw [hq] at hdec
      simp only [List.map_cons, List.flatten_cons, List.append_assoc, hq, List.cons_append,
        decodeStringBody, hne, if_false]
      simp only [List.cons_append] at hdec
      rw [hdec]
      simp only [ih fuel (by omega)]

theorem decodeString_jsonQuote (s : String) (rest : List Char) :
    decodeString ((jsonQuote s).data ++ rest) = some (s, rest) := by
  simp only [jsonQuote, List.cons_append, List.append_assoc, List.singleton_append,
    List.nil_append, decodeString, if_true]
  rw [decodeStringBody_quoted s.data rest _ (by simp only [List.length_append]; omega)]

theorem jsonArrayTail_length (es : List (List Char)) : es.length < (jsonArrayTail es).length := by
  induction es with
  | nil => simp [jsonArrayTail]
  | cons e es ih => simp [jsonArrayTail]; omega

theorem decodeElems_written {α : Type} (enc : α → List Char)
    (dec : List Char → Option (α × List Char))
    (hdec : ∀ (a : α) (rest : List Char), dec (enc a ++ rest) = some (a, rest))
    (a : α) (l : List α) (rest : List Char) (fuel : Nat) (hfuel : l.length < fuel) :
    decodeElems dec fuel (enc a ++ (jsonArrayTail (l.map enc) ++ rest)) = some (a :: l, rest) := by
  induction l generalizing a fuel with
  | nil =>
    cases fuel with
    | zero => simp at hfuel
    | succ fuel => simp [decodeElems, hdec, jsonArrayTail]
  | cons b l ih =>
    cases fuel with
    | zero => simp at hfuel
    | succ fuel =>
      simp only [List.length_cons] at hfuel
      simp only [decodeElems, hdec, List.map_cons, jsonArrayTail, List.cons_append,
        List.append_assoc]
      rw [ih b fuel (by omega)]
      simp

theorem decodeArray_written {α : Type} (enc : α → List Char)
    (dec : List Char → Option (α × List Char))
    (hdec : ∀ (a : α) (rest : List Char), dec (enc a ++ rest) = some (a, rest))
    (hhead : ∀ a : α, ∃ (c : Char) (t : List Char), enc a = c :: t ∧ c ≠ ']')
    (l : List α) (rest : List Char) :
    decodeArray dec (jsonArray (l.map enc) ++ rest) = some (l, rest) := by
  cases l with
  | nil => rfl
  | cons a l =>
    obtain ⟨c, t, hc, hne⟩ := hhead a
    have hw := decodeElems_written enc dec hdec a l rest
      (enc a ++ (jsonArrayTail (l.map enc) ++ rest)).length (by
        have := jsonArrayTail_length (l.map enc)
        simp only [List.length_map] at this
        simp only [List.length_append]
        omega)
    simp only [List.map_cons, jsonArray, List.cons_append, List.append_assoc]
    rw [hc] at hw ⊢
    simp only [List.cons_append] at hw ⊢
    unfold decodeArray
    split
    · next heq => simp at heq
    · next heq =>
      simp only [List.cons.injEq, true_and] at heq
      exact absurd heq.1 hne
    · next rest1 _ heq =>
      simp only [List.cons.injEq, true_and] at heq
      subst heq
      exact hw
    · next h1 h2 h3 => exact absurd rfl (h3 _)

theorem expectLiteral_append (lit rest : List Char) :
    expectLiteral lit (lit ++ rest) = some rest := by
  induction lit with
  | nil => cases rest <;> rfl
  | cons l ls ih => simp [expectLiteral, ih]

theorem jsonQuote_head (s : String) :
    ∃ (c : Char) (t : List Char), (jsonQuote s).data = c :: t ∧ c ≠ ']' :=
  ⟨'"', _, rfl, by decide⟩

theorem decodeStrings_written (l : List String) (rest : List Char) :
    decodeArray decodeString (jsonMarshalStrings l ++ rest) = some (l, rest) :=
  decodeArray_written (fun s => (jsonQuote s).data) decodeString decodeString_jsonQuote
    jsonQuote_head l rest

theorem decodeRecipeSuggestion_written (s : RecipeSuggestion) (rest : List Char) :
    decodeRecipeSuggestion (jsonMarshalRecipeSuggestion s ++ rest) = some (s, rest) := by
  simp only [jsonMarshalRecipeSuggestion, decodeRecipeSuggestion, List.append_assoc,
    expectLiteral_append, decodeString_jsonQuote, decodeStrings_written]

theorem decodeRecipeResponse_written (r : RecipeResponse) :
    decodeRecipeResponse (jsonMarshalRecipeResponse r) = some r := by
  simp only [jsonMarshalRecipeResponse, decodeRecipeResponse, List.append_assoc,
    expectLiteral_append,
    decodeArray_written jsonMarshalRecipeSuggestion decodeRecipeSuggestion
      decodeRecipeSuggestion_written (fun _ => ⟨'\x7b', _, rfl, by decide⟩), if_true]

theorem codecLib_round_trip (r : RecipeResponse) :
    codecLib.unmarshalRecipeResponse (jsonMarshalRecipeResponse r) = .ok r := by
  simp only [codecLib, decodeRecipeResponse_written]

set_option maxRecDepth 100000 in
/-- Claim C17 fails as stated: a status-200 reply whose body breaks off after `invalid json`, so
that reading it fails with `unexpected EOF`, carries a body that cannot be parsed as the
envelope, yet `GenerateRecipeSuggestion` returns the read error
`failed to read response body: unexpected EOF`, not `failed to unmarshal Ollama response`;
and a reply whose read fails after the envelope around `invalid recipe json` gets the read error
too, not `failed to parse recipe response`. -/
theorem C17_unread_body_gets_read_error :
    (∃ e : GoError, exampleLib.unmarshalOllamaResponse "invalid json" = .error e) ∧
    (ollamaServiceImpl.GenerateRecipeSuggestion exampleLib
        { config := defaultConfig,
          httpClient := replyingClient
            ⟨200, "invalid json", some (.errorString "unexpected EOF")⟩ }
        (some [carrot]) quietNet).1
      = (none, some (.wrapError "failed to read response body: "
          (.errorString "unexpected EOF"))) ∧
    ¬ (∃ e : GoError, (ollamaServiceImpl.GenerateRecipeSuggestion exampleLib
        { config := defaultConfig,
          httpClient := replyingClient
            ⟨200, "invalid json", some (.errorString "unexpected EOF")⟩ }
        (some [carrot]) quietNet).1
      = (none, some (.wrapError "failed to unmarshal Ollama response: " e))) ∧
    (∃ (envelope : ollamaResponse) (e : GoError),
      exampleLib.unmarshalOllamaResponse (envelopeText "invalid recipe json") = .ok envelope ∧
      exampleLib.unmarshalRecipeResponse envelope.Response = .error e) ∧
    ¬ (∃ e : GoError, (ollamaServiceImpl.GenerateRecipeSuggestion exampleLib
        { config := defaultConfig,
          httpClient := replyingClient
            ⟨200, envelopeText "invalid recipe json", some (.errorString "unexpected EOF")⟩ }
        (some [carrot]) quietNet).1
      = (none, some (.wrapError "failed to parse recipe response: " e))) := by
  have h1 : (ollamaServiceImpl.GenerateRecipeSuggestion exampleLib
        { config := defaultConfig,
          httpClient := replyingClient
            ⟨200, "invalid json", some (.errorString "unexpected EOF")⟩ }
        (some [carrot]) quietNet).1
      = (none, some (.wrapError "failed to read response body: "
          (.errorString "unexpected EOF"))) := by decide
  have h2 : (ollamaServiceImpl.GenerateRecipeSuggestion exampleLib
        { config := defaultConfig,
          httpClient := replyingClient
            ⟨200, envelopeText "invalid recipe json", some (.errorString "unexpected EOF")⟩ }
        (some [carrot]) quietNet).1
      = (none, some (.wrapError "failed to read response body: "
          (.errorString "unexpected EOF"))) := by decide
  refine ⟨⟨_, rfl⟩, h1, ?_,
    ⟨{ Model := "llama2", CreatedAt := 0, Response := "invalid recipe json", Done := true },
      .errorString "invalid character 'i' looking for beginning of value",
      by decide, by decide⟩, ?_⟩
  · rintro ⟨e, he⟩
    rw [h1] at he
    simp at he
  · rintro ⟨e, he⟩
    rw [h2] at he
    simp at he

/-- Claim C17 as amended: let the request be sent and the endpoint reply with status 200.  Then
`GenerateRecipeSuggestion` returns the error `failed to unmarshal Ollama response: ...` if and
only if the body is read without error and `json.Unmarshal` rejects it as envelope, and the
error `failed to parse recipe response: ...` if and only if the body is read without error,
decodes to an envelope, and `json.Unmarshal` rejects the `response` text of that envelope as
recipe response.  The two errors differ: they never occur together.  When reading the body
fails, the error returned is neither: it is `failed to read response body: ` wrapped around the
read error. -/
theorem C17_malformed_envelope_and_content {ω : Type} (lib : StdLib) (s : ollamaServiceImpl ω)
    (ingredients : Option (List Ingredient)) (n : Net ω) (body : String) (resp : HTTPResponse)
    (b1 : ω)
    (hm : lib.jsonMarshal (ollamaServiceImpl.requestPayload s.config ingredients) = .ok body)
    (hn : lib.NewRequestWithContext "POST" (s.config.Endpoint ++ "/api/generate") body = none)
    (hdo : s.httpClient.Do { Method := "POST", URL := s.config.Endpoint ++ "/api/generate",
                             ContentType := "application/json", Body := body } n.backend
      = (.ok resp, b1))
    (hstatus : resp.StatusCode = 200) :
    ((∃ e : GoError, (ollamaServiceImpl.GenerateRecipeSuggestion lib s ingredients n).1
          = (none, some (.wrapError "failed to unmarshal Ollama response: " e)))
      ↔ (resp.ReadErr = none ∧
          ∃ e : GoError, lib.unmarshalOllamaResponse resp.Body = .error e)) ∧
    ((∃ e : GoError, (ollamaServiceImpl.GenerateRecipeSuggestion lib s ingredients n).1
          = (none, some (.wrapError "failed to parse recipe response: " e)))
      ↔ (resp.ReadErr = none ∧
          ∃ (envelope : ollamaResponse) (e : GoError),
            lib.unmarshalOllamaResponse resp.Body = .ok envelope ∧
            lib.unmarshalRecipeResponse envelope.Response = .error e)) ∧
    ¬ ((∃ e : GoError, (ollamaServiceImpl.GenerateRecipeSuggestion lib s ingredients n).1
          = (none, some (.wrapError "failed to unmarshal Ollama response: " e))) ∧
       (∃ e : GoError, (ollamaServiceImpl.GenerateRecipeSuggestion lib s ingredients n).1
          = (none, some (.wrapError "failed to parse recipe response: " e)))) ∧
    (∀ readErr : GoError, resp.ReadErr = some readErr →
      (ollamaServiceImpl.GenerateRecipeSuggestion lib s ingredients n).1
        = (none, some (.wrapError "failed to read response body: " readErr))) := by
  have hr := GenerateRecipeSuggestion_reply lib s ingredients n body resp b1 hm hn hdo
  simp only [hstatus, ne_eq, not_true_eq_false, if_false] at hr
  rw [hr]
  cases hread : resp.ReadErr with
  | some readErr =>
    refine ⟨⟨?_, ?_⟩, ⟨?_, ?_⟩, ?_, ?_⟩
    · rintro ⟨e, he⟩
      simp at he
    · rintro ⟨h, -⟩
      cases h
    · rintro ⟨e, he⟩
      simp at he
    · rintro ⟨h, -⟩
      cases h
    · rintro ⟨⟨e, he⟩, -⟩
      simp at he
    · intro readErr2 h
      cases h
      rfl
  | none =>
    simp only [true_and]
    cases henv : lib.unmarshalOllamaResponse resp.Body with
    | error e0 =>
      refine ⟨⟨fun _ => ⟨e0, rfl⟩, fun _ => ⟨e0, rfl⟩⟩, ⟨?_, ?_⟩, ?_, ?_⟩
      · rintro ⟨e, he⟩
        simp at he
      · rintro ⟨envelope, e, he, -⟩
        simp at he
      · rintro ⟨-, e, he⟩
        simp at he
      · intro readErr h
        cases h
    | ok envelope =>
      cases hrec : lib.unmarshalRecipeResponse envelope.Response with
      | error e1 =>
        refine ⟨⟨?_, ?_⟩, ⟨fun _ => ⟨envelope, e1, rfl, hrec⟩, fun _ => ⟨e1, ?_⟩⟩, ?_, ?_⟩
        · rintro ⟨e, he⟩
          simp [hrec] at he
        · rintro ⟨e, he⟩
          simp at he
        · simp [hrec]
        · rintro ⟨⟨e, he⟩, -⟩
          simp [hrec] at he
        · intro readErr h
          cases h
      | ok r =>
        refine ⟨⟨?_, ?_⟩, ⟨?_, ?_⟩, ?_, ?_⟩
        · rintro ⟨e, he⟩
          simp [hrec] at he
        · rintro ⟨e, he⟩
          simp at he
        · rintro ⟨e, he⟩
          simp [hrec] at he
        · rintro ⟨envelope', e, he, he'⟩
          simp only [Except.ok.injEq] at he
          subst he
          rw [hrec] at he'
          simp at he'
        · rintro ⟨⟨e, he⟩, -⟩
          simp [hrec] at he
        · intro readErr h
          cases h

set_option maxRecDepth 100000 in
/-- Witness for C17 as amended: the body `invalid json` (rejected as envelope), the envelope
around the response text `invalid recipe json` (rejected as recipe response), both read in
full, and a body whose read breaks off with `unexpected EOF`. -/
theorem C17_malformed_envelope_and_content_witness :
    (∃ e : GoError, (ollamaServiceImpl.GenerateRecipeSuggestion exampleLib
        { config := defaultConfig, httpClient := replyingClient ⟨200, "invalid json", none⟩ }
        (some [carrot]) quietNet).1
        = (none, some (.wrapError "failed to unmarshal Ollama response: " e))) ∧
    (∃ e : GoError, (ollamaServiceImpl.GenerateRecipeSuggestion exampleLib
        { config := defaultConfig,
          httpClient := replyingClient ⟨200, envelopeText "invalid recipe json", none⟩ }
        (some [carrot]) quietNet).1
        = (none, some (.wrapError "failed to parse recipe response: " e))) ∧
    (ollamaServiceImpl.GenerateRecipeSuggestion exampleLib
        { config := defaultConfig,
          httpClient := replyingClient
            ⟨200, "invalid json", some (.errorString "unexpected EOF")⟩ }
        (some [carrot]) quietNet).1
      = (none, some (.wrapError "failed to read response body: "
          (.errorString "unexpected EOF"))) :=
  ⟨(C17_malformed_envelope_and_content exampleLib
      { config := defaultConfig, httpClient := replyingClient ⟨200, "invalid json", none⟩ }
      (some [carrot]) quietNet
      ((exampleLib.jsonMarshal
        (ollamaServiceImpl.requestPayload defaultConfig (some [carrot]))).toOption.getD "")
      ⟨200, "invalid json", none⟩ () (by decide) rfl rfl rfl).1.mpr
      ⟨rfl, .errorString "invalid character 'i' looking for beginning of value", by decide⟩,
    (C17_malformed_envelope_and_content exampleLib
      { config := defaultConfig,
        httpClient := replyingClient ⟨200, envelopeText "invalid recipe json", none⟩ }
      (some [carrot]) quietNet
      ((exampleLib.jsonMarshal
        (ollamaServiceImpl.requestPayload defaultConfig (some [carrot]))).toOption.getD "")
      ⟨200, envelopeText "invalid recipe json", none⟩ () (by decide) rfl rfl rfl).2.1.mpr
      ⟨rfl, { Model := "llama2", CreatedAt := 0, Response := "invalid recipe json",
              Done := true },
        .errorString "invalid character 'i' looking for beginning of value",
        by decide, by decide⟩,
    (C17_malformed_envelope_and_content exampleLib
      { config := defaultConfig,
        httpClient := replyingClient
          ⟨200, "invalid json", some (.errorString "unexpected EOF")⟩ }
      (some [carrot]) quietNet
      ((exampleLib.jsonMarshal
        (ollamaServiceImpl.requestPayload defaultConfig (some [carrot]))).toOption.getD "")
      ⟨200, "invalid json", some (.errorString "unexpected EOF")⟩ () (by decide) rfl rfl
      rfl).2.2.2 _ rfl⟩

set_option maxRecDepth 100000 in
/-- Claim C18 fails as stated: the endpoint replies with status 200 and the envelope whose
`response` text is the JSON encoding of the curry, but reading the body ends with
`unexpected EOF` (the reply announced more bytes than it sent); `GenerateRecipeSuggestion`
returns the read error and no recipe response. -/
theorem C18_unread_envelope_not_passed_through :
    codecLib.unmarshalOllamaResponse (envelopeText curryText)
      = .ok { Model := "llama2", CreatedAt := 0, Response := curryText, Done := true } ∧
    curryText = jsonMarshalRecipeResponse curry ∧
    codecLib.unmarshalRecipeResponse curryText = .ok curry ∧
    (ollamaServiceImpl.GenerateRecipeSuggestion codecLib
        { config := defaultConfig,
          httpClient := replyingClient
            ⟨200, envelopeText curryText, some (.errorString "unexpected EOF")⟩ }
        (some [carrot]) quietNet).1
      = (none, some (.wrapError "failed to read response body: "
          (.errorString "unexpected EOF"))) := by
  decide

/-- Claim C18 as amended: take any JSON library whose decoder reads back what `json.Marshal`
writes for a recipe response.  For every recipe response `r`, whatever its suggestions, names,
steps and missing items, let the request be sent and the endpoint reply with status 200 and a
body that is read without error and decodes to an envelope whose `response` text is
`jsonMarshalRecipeResponse r`, the JSON encoding of `r`.  Then `GenerateRecipeSuggestion`
returns `r` itself, suggestions and steps in their order, and no error: nothing is checked or
changed on the way. -/
theorem C18_recipe_response_passed_through {ω : Type} (lib : StdLib) (s : ollamaServiceImpl ω)
    (ingredients : Option (List Ingredient)) (n : Net ω) (body : String) (resp : HTTPResponse)
    (b1 : ω) (envelope : ollamaResponse) (r : RecipeResponse)
    (hcodec : ∀ r0 : RecipeResponse,
      lib.unmarshalRecipeResponse (jsonMarshalRecipeResponse r0) = .ok r0)
    (hm : lib.jsonMarshal (ollamaServiceImpl.requestPayload s.config ingredients) = .ok body)
    (hn : lib.NewRequestWithContext "POST" (s.config.Endpoint ++ "/api/generate") body = none)
    (hdo : s.httpClient.Do { Method := "POST", URL := s.config.Endpoint ++ "/api/generate",
                             ContentType := "application/json", Body := body } n.backend
      = (.ok resp, b1))
    (hstatus : resp.StatusCode = 200) (hread : resp.ReadErr = none)
    (henv : lib.unmarshalOllamaResponse resp.Body = .ok envelope)
    (htext : envelope.Response = jsonMarshalRecipeResponse r) :
    (ollamaServiceImpl.GenerateRecipeSuggestion lib s ingredients n).1 = (some r, none) := by
  have hr := GenerateRecipeSuggestion_reply lib s ingredients n body resp b1 hm hn hdo
  simp only [hstatus, ne_eq, not_true_eq_false, if_false, hread, henv, htext, hcodec r] at hr
  exact hr

set_option maxRecDepth 100000 in
/-- Witness for C18 as amended: the library that decodes with `decodeRecipeResponse`, and the
envelope around the JSON encoding of the curry. -/
theorem C18_recipe_response_passed_through_witness :
    (∀ r0 : RecipeResponse,
      codecLib.unmarshalRecipeResponse (jsonMarshalRecipeResponse r0) = .ok r0) ∧
    jsonMarshalRecipeResponse curry = curryText ∧
    (ollamaServiceImpl.GenerateRecipeSuggestion codecLib
        { config := defaultConfig,
          httpClient := replyingClient ⟨200, envelopeText curryText, none⟩ }
        (some [carrot]) quietNet).1 = (some curry, none) :=
  ⟨codecLib_round_trip, by decide,
    C18_recipe_response_passed_through codecLib
      { config := defaultConfig,
        httpClient := replyingClient ⟨200, envelopeText curryText, none⟩ }
      (some [carrot]) quietNet
      ((codecLib.jsonMarshal
        (ollamaServiceImpl.requestPayload defaultConfig (some [carrot]))).toOption.getD "")
      ⟨200, envelopeText curryText, none⟩ ()
      { Model := "llama2", CreatedAt := 0, Response := curryText, Done := true } curry
      codecLib_round_trip (by decide) rfl rfl rfl rfl (by decide) (by decide)⟩

/-! ## Claims about deletion, listing, path ids and the error mapping -/

/-- Claim C21: for every store and id, (a) when the store's `GetByID` returns an error,
`DeleteIngredient` returns `failed to get ingredient: ` wrapped around that error and the only
store call it makes is the `GetByID`, so `Delete` is never called; (b) when `GetByID` finds a
record, the store calls are the `GetByID` followed by exactly one `Delete` with the same id,
`DeleteIngredient` returns nil exactly when that `Delete` returns nil, and an error of `Delete`
comes back wrapped in `failed to delete ingredient: `. -/
theorem C21_delete_checks_then_deletes {σ : Type} (repo : IngredientRepository σ) (id : Int)
    (w : World σ) (e1 : Env σ) :
    (∀ (p : Option Ingredient) (storeErr : GoError),
      repo.GetByID id w.env = ((p, some storeErr), e1) →
      ingredientUsecase.DeleteIngredient repo id w
        = (some (.wrapError "failed to get ingredient: " storeErr),
            { env := e1, calls := w.calls ++ [.GetByID id] }) ∧
      (GoError.wrapError "failed to get ingredient: " storeErr).Unwrap = some storeErr ∧
      errorsIs (.wrapError "failed to get ingredient: " storeErr) storeErr = true) ∧
    (∀ found : Ingredient, repo.GetByID id w.env = ((some found, none), e1) →
      (ingredientUsecase.DeleteIngredient repo id w).2.calls
        = w.calls ++ [.GetByID id, .Delete id] ∧
      (ingredientUsecase.DeleteIngredient repo id w).2.env = (repo.Delete id e1).2 ∧
      ((ingredientUsecase.DeleteIngredient repo id w).1 = none ↔ (repo.Delete id e1).1 = none) ∧
      (∀ delErr : GoError, (repo.Delete id e1).1 = some delErr →
        (ingredientUsecase.DeleteIngredient repo id w).1
          = some (.wrapError "failed to delete ingredient: " delErr))) := by
  constructor
  · intro p storeErr hget
    exact ⟨by simp [ingredientUsecase.DeleteIngredient, hget, World.record], rfl,
      errorsIs_wrapError _ _ _ (errorsIs_self _)⟩
  · intro found hget
    refine ⟨?_, ?_, ?_, ?_⟩
    · simp only [ingredientUsecase.DeleteIngredient, hget, World.record]
      split <;> simp
    · simp only [ingredientUsecase.DeleteIngredient, hget, World.record]
      split <;> rfl
    · simp only [ingredientUsecase.DeleteIngredient, hget, World.record]
      cases hd : (repo.Delete id e1).1 <;> simp
    · intro delErr hd
      simp only [ingredientUsecase.DeleteIngredient, hget, World.record, hd]

/-- Witness for C21: id 99999 (absent) and id 1 (the carrot) over the table database. -/
theorem C21_delete_checks_then_deletes_witness :
    (ingredientUsecase.DeleteIngredient (NewIngredientRepository tableDB) 99999
        (worldOf [carrot])
      = (some (.wrapError "failed to get ingredient: "
            (.wrapError "ingredient not found: " .errNoRows)),
          { env := { db := [carrot], clock := tickingClock, ticks := 0 },
            calls := (worldOf [carrot]).calls ++ [.GetByID 99999] })) ∧
    ((ingredientUsecase.DeleteIngredient (NewIngredientRepository tableDB) 1
        (worldOf [carrot])).2.calls = (worldOf [carrot]).calls ++ [.GetByID 1, .Delete 1]) ∧
    ((ingredientUsecase.DeleteIngredient (NewIngredientRepository tableDB) 1
        (worldOf [carrot])).1 = none) :=
  ⟨((C21_delete_checks_then_deletes (NewIngredientRepository tableDB) 99999 (worldOf [carrot])
      { db := [carrot], clock := tickingClock, ticks := 0 }).1 none
      (.wrapError "ingredient not found: " .errNoRows) rfl).1,
    ((C21_delete_checks_then_deletes (NewIngredientRepository tableDB) 1 (worldOf [carrot])
      { db := [carrot], clock := tickingClock, ticks := 0 }).2 carrot rfl).1,
    ((C21_delete_checks_then_deletes (NewIngredientRepository tableDB) 1 (worldOf [carrot])
      { db := [carrot], clock := tickingClock, ticks := 0 }).2 carrot rfl).2.2.1.mpr
      (by decide)⟩

/-- Claim C22: for every store, `GetAllIngredients` (a) returns the empty, non-nil collection
and no error when the store's `GetAll` succeeds with a nil result, (b) returns the store's list
itself, same elements in the same order, and no error when `GetAll` succeeds with a list, and
(c) returns nil together with `failed to get all ingredients: ` wrapped around the store's
error when `GetAll` fails.  So the collection returned is nil exactly when the store fails. -/
theorem C22_get_all_never_nil_on_success {σ : Type} (repo : IngredientRepository σ)
    (w : World σ) :
    ((repo.GetAll w.env).1 = (none, none) →
      (ingredientUsecase.GetAllIngredients repo w).1 = (some [], none)) ∧
    (∀ l : List Ingredient, (repo.GetAll w.env).1 = (some l, none) →
      (ingredientUsecase.GetAllIngredients repo w).1 = (some l, none)) ∧
    (∀ (p : Option (List Ingredient)) (storeErr : GoError),
      (repo.GetAll w.env).1 = (p, some storeErr) →
      (ingredientUsecase.GetAllIngredients repo w).1
        = (none, some (.wrapError "failed to get all ingredients: " storeErr)) ∧
      (GoError.wrapError "failed to get all ingredients: " storeErr).Unwrap = some storeErr ∧
      errorsIs (.wrapError "failed to get all ingredients: " storeErr) storeErr = true) ∧
    ((ingredientUsecase.GetAllIngredients repo w).1.1 = none ↔
      (repo.GetAll w.env).1.2 ≠ none) ∧
    ((ingredientUsecase.GetAllIngredients repo w).2.calls = w.calls ++ [.GetAll]) := by
  refine ⟨?_, ?_, ?_, ?_, ?_⟩
  · intro h
    simp [ingredientUsecase.GetAllIngredients, h]
  · intro l h
    simp [ingredientUsecase.GetAllIngredients, h]
  · intro p storeErr h
    exact ⟨by simp [ingredientUsecase.GetAllIngredients, h], rfl,
      errorsIs_wrapError _ _ _ (errorsIs_self _)⟩
  · simp only [ingredientUsecase.GetAllIngredients]
    cases h2 : (repo.GetAll w.env).1.2 with
    | some err => simp
    | none =>
      cases h1 : (repo.GetAll w.env).1.1 <;> simp
  · simp only [ingredientUsecase.GetAllIngredients, World.record]
    repeat' split
    all_goals rfl

/-- Witness for C22: a store that returns a nil slice, the table database without rows and
with the carrot, and a failing database. -/
theorem C22_get_all_never_nil_on_success_witness :
    (ingredientUsecase.GetAllIngredients nilListStore (worldOf [carrot])).1
      = (some [], none) ∧
    (ingredientUsecase.GetAllIngredients (NewIngredientRepository tableDB) (worldOf [])).1
      = (some [], none) ∧
    (ingredientUsecase.GetAllIngredients (NewIngredientRepository tableDB)
      (worldOf [carrot])).1 = (some [carrot], none) ∧
    (ingredientUsecase.GetAllIngredients
      (NewIngredientRepository (failingDB (.errorString "database error")))
      (worldOf [carrot])).1
      = (none, some (.wrapError "failed to get all ingredients: "
          (.wrapError "failed to get all ingredients: " (.errorString "database error")))) :=
  ⟨(C22_get_all_never_nil_on_success nilListStore (worldOf [carrot])).1 rfl,
    (C22_get_all_never_nil_on_success (NewIngredientRepository tableDB) (worldOf [])).2.1 []
      rfl,
    (C22_get_all_never_nil_on_success (NewIngredientRepository tableDB)
      (worldOf [carrot])).2.1 [carrot] rfl,
    ((C22_get_all_never_nil_on_success
      (NewIngredientRepository (failingDB (.errorString "database error")))
      (worldOf [carrot])).2.2.1 none
      (.wrapError "failed to get all ingredients: " (.errorString "database error")) rfl).1⟩

/-- Claim C23: for every use-case behind the handlers and every path id that
`strconv.ParseInt(idStr, 10, 64)` rejects (not a decimal integer, or outside the int64 range),
the handlers of `GET`, `PUT` and `DELETE /ingredients/{id}` answer 400 with kind
`validation_error` and message `Invalid ingredient ID` and hand the world back as they found
it, so no use-case method ran; for `PUT` this holds for every outcome of binding the body. -/
theorem C23_invalid_path_id_rejected {σ : Type} (h : IngredientHandler σ) (idStr : String)
    (bound : Except GoError UpdateIngredientRequest) (w : World σ)
    (hid : strconvParseInt idStr = none) :
    h.GetIngredientByID idStr w
      = (some { status := 400, body := ResponseBody.error {
          Error := "validation_error", Message := "Invalid ingredient ID" } }, w) ∧
    h.UpdateIngredient idStr bound w
      = (some { status := 400, body := ResponseBody.error {
          Error := "validation_error", Message := "Invalid ingredient ID" } }, w) ∧
    h.DeleteIngredient idStr w
      = (some { status := 400, body := ResponseBody.error {
          Error := "validation_error", Message := "Invalid ingredient ID" } }, w) := by
  refine ⟨?_, ?_, ?_⟩
  · simp only [IngredientHandler.GetIngredientByID, hid]
    rfl
  · simp only [IngredientHandler.UpdateIngredient, hid]
    rfl
  · simp only [IngredientHandler.DeleteIngredient, hid]
    rfl

/-- Witness for C23: the path ids `invalid` and `9223372036854775808` (one past the largest
int64), with a malformed body for `PUT`, over the table database holding the carrot. -/
theorem C23_invalid_path_id_rejected_witness :
    (tableHandler.GetIngredientByID "invalid" (worldOf [carrot])
      = (some { status := 400, body := ResponseBody.error {
          Error := "validation_error", Message := "Invalid ingredient ID" } },
        worldOf [carrot]) ∧
    tableHandler.UpdateIngredient "invalid"
        (.ok { Name := some "大根", Quantity := none, PurchaseDate := none }) (worldOf [carrot])
      = (some { status := 400, body := ResponseBody.error {
          Error := "validation_error", Message := "Invalid ingredient ID" } },
        worldOf [carrot]) ∧
    tableHandler.DeleteIngredient "invalid" (worldOf [carrot])
      = (some { status := 400, body := ResponseBody.error {
          Error := "validation_error", Message := "Invalid ingredient ID" } },
        worldOf [carrot])) ∧
    (tableHandler.GetIngredientByID "9223372036854775808" (worldOf [carrot])
      = (some { status := 400, body := ResponseBody.error {
          Error := "validation_error", Message := "Invalid ingredient ID" } },
        worldOf [carrot]) ∧
    tableHandler.UpdateIngredient "9223372036854775808"
        (.error (.errorString "unexpected end of JSON input")) (worldOf [carrot])
      = (some { status := 400, body := ResponseBody.error {
          Error := "validation_error", Message := "Invalid ingredient ID" } },
        worldOf [carrot]) ∧
    tableHandler.DeleteIngredient "9223372036854775808" (worldOf [carrot])
      = (some { status := 400, body := ResponseBody.error {
          Error := "validation_error", Message := "Invalid ingredient ID" } },
        worldOf [carrot])) :=
  ⟨C23_invalid_path_id_rejected tableHandler "invalid"
      (.ok { Name := some "大根", Quantity := none, PurchaseDate := none }) (worldOf [carrot])
      (by decide),
    C23_invalid_path_id_rejected tableHandler "9223372036854775808"
      (.error (.errorString "unexpected end of JSON input")) (worldOf [carrot]) (by decide)⟩

/-- Claim C24: `handleError` writes nothing for a nil error, and for every non-nil error it
writes exactly one of two responses: 404 with kind `not_found` and the fixed message
`Resource not found` if and only if `sql.ErrNoRows` is in the wrap chain of the error, and
500 with kind `internal_error` and the full text of the error as message if and only if it is
not. -/
theorem C24_handleError_two_way (err : GoError) :
    handleError none = none ∧
    (handleError (some err)
        = some { status := 404, body := ResponseBody.error {
            Error := "not_found", Message := "Resource not found" } }
      ↔ errorsIs err .errNoRows = true) ∧
    (handleError (some err)
        = some { status := 500, body := ResponseBody.error {
            Error := "internal_error", Message := err.Error } }
      ↔ errorsIs err .errNoRows = false) ∧
    (handleError (some err)
        = some { status := 404, body := ResponseBody.error {
            Error := "not_found", Message := "Resource not found" } } ∨
      handleError (some err)
        = some { status := 500, body := ResponseBody.error {
            Error := "internal_error", Message := err.Error } }) := by
  cases h : errorsIs err .errNoRows <;> simp [handleError, h, respondWithError]

/-- Claim C27: for every recipe use-case and world, when the use-case returns the error `err`
the handler answers 503, kind `service_unavailable`, message
`Recipe suggestion service is currently unavailable` if the text of `err` contains `ollama`,
`timeout` or `connection`, and answers what `handleError` answers for `err` if it contains
none of them; when the use-case returns no error the handler answers 200 with the result of the
use-case as body.  The world is the one the use-case left. -/
theorem C27_recipe_handler_mapping {ρ : Type} (uc : RecipeUsecase ρ) (w : ρ) :
    (∀ err : GoError, (uc.GetRecipeSuggestion w).1.2 = some err →
      ((stringsContains err.Error "ollama" ∨ stringsContains err.Error "timeout" ∨
          stringsContains err.Error "connection") →
        ((NewRecipeHandler uc).GetRecipeSuggestion w).1
          = some { status := 503, body := ResponseBody.error {
              Error := "service_unavailable",
              Message := "Recipe suggestion service is currently unavailable" } }) ∧
      (¬ (stringsContains err.Error "ollama" ∨ stringsContains err.Error "timeout" ∨
          stringsContains err.Error "connection") →
        ((NewRecipeHandler uc).GetRecipeSuggestion w).1 = handleError (some err))) ∧
    ((uc.GetRecipeSuggestion w).1.2 = none →
      ((NewRecipeHandler uc).GetRecipeSuggestion w).1
        = some { status := 200, body := .recipe (uc.GetRecipeSuggestion w).1.1 }) ∧
    ((NewRecipeHandler uc).GetRecipeSuggestion w).2 = (uc.GetRecipeSuggestion w).2 := by
  refine ⟨?_, ?_, ?_⟩
  · intro err herr
    constructor
    · intro hc
      simp only [RecipeHandler.GetRecipeSuggestion, NewRecipeHandler, herr, if_pos hc]
      rfl
    · intro hc
      simp only [RecipeHandler.GetRecipeSuggestion, NewRecipeHandler, herr, if_neg hc]
  · intro hok
    simp only [RecipeHandler.GetRecipeSuggestion, NewRecipeHandler, hok]
  · simp only [RecipeHandler.GetRecipeSuggestion, NewRecipeHandler]
    repeat' split
    all_goals rfl

/-- Witness for C27: the errors of the handler tests, `ollama service connection failed`,
`request timeout`, `connection refused` and `database error`, and the curry as result. -/
theorem C27_recipe_handler_mapping_witness :
    ((NewRecipeHandler (stubRecipeUsecase
        (none, some (.errorString "ollama service connection failed")))).GetRecipeSuggestion ()).1
      = some { status := 503, body := ResponseBody.error {
          Error := "service_unavailable",
          Message := "Recipe suggestion service is currently unavailable" } } ∧
    ((NewRecipeHandler (stubRecipeUsecase
        (none, some (.errorString "request timeout")))).GetRecipeSuggestion ()).1
      = some { status := 503, body := ResponseBody.error {
          Error := "service_unavailable",
          Message := "Recipe suggestion service is currently unavailable" } } ∧
    ((NewRecipeHandler (stubRecipeUsecase
        (none, some (.errorString "connection refused")))).GetRecipeSuggestion ()).1
      = some { status := 503, body := ResponseBody.error {
          Error := "service_unavailable",
          Message := "Recipe suggestion service is currently unavailable" } } ∧
    ((NewRecipeHandler (stubRecipeUsecase
        (none, some (.errorString "database error")))).GetRecipeSuggestion ()).1
      = handleError (some (.errorString "database error")) ∧
    handleError (some (.errorString "database error"))
      = some { status := 500, body := ResponseBody.error {
          Error := "internal_error", Message := "database error" } } ∧
    ((NewRecipeHandler (stubRecipeUsecase (some curry, none))).GetRecipeSuggestion ()).1
      = some { status := 200, body := .recipe (some curry) } :=
  ⟨((C27_recipe_handler_mapping (stubRecipeUsecase
      (none, some (.errorString "ollama service connection failed"))) ()).1 _ rfl).1
      (by decide),
    ((C27_recipe_handler_mapping (stubRecipeUsecase
      (none, some (.errorString "request timeout"))) ()).1 _ rfl).1 (by decide),
    ((C27_recipe_handler_mapping (stubRecipeUsecase
      (none, some (.errorString "connection refused"))) ()).1 _ rfl).1 (by decide),
    ((C27_recipe_handler_mapping (stubRecipeUsecase
      (none, some (.errorString "database error"))) ()).1 _ rfl).2 (by decide),
    by decide,
    (C27_recipe_handler_mapping (stubRecipeUsecase (some curry, none)) ()).2.1 rfl⟩

/-! ## Helper lemmas for the update path and the prompt -/

/-- The field merge leaves the ID and both timestamps of the loaded record alone. -/
theorem mergeFields_frame (loaded merged : Ingredient) (req : UpdateIngredientRequest)
    (h : ingredientUsecase.mergeFields loaded req = .ok merged) :
    merged.ID = loaded.ID ∧ merged.CreatedAt = loaded.CreatedAt ∧
      merged.UpdatedAt = loaded.UpdatedAt := by
  obtain ⟨rn, rq, rp⟩ := req
  unfold ingredientUsecase.mergeFields at h
  cases rn <;> cases rq <;> cases rp <;> simp only at h
  all_goals first
    | (cases h; exact ⟨rfl, rfl, rfl⟩)
    | (split at h
       · cases h; exact ⟨rfl, rfl, rfl⟩
       · split at h
         · cases h
         · cases h; exact ⟨rfl, rfl, rfl⟩)

/-- A record that already carries the name, quantity and purchase date the field merge produced
for a request is left as it is by the merge of the same request. -/
theorem mergeFields_fixed (loaded merged again : Ingredient) (req : UpdateIngredientRequest)
    (h : ingredientUsecase.mergeFields loaded req = .ok merged)
    (hname : again.Name = merged.Name) (hquantity : again.Quantity = merged.Quantity)
    (hdate : again.PurchaseDate = merged.PurchaseDate) :
    ingredientUsecase.mergeFields again req = .ok again := by
  obtain ⟨rn, rq, rp⟩ := req
  obtain ⟨aid, an, aq, ap, ac, au⟩ := again
  simp only at hname hquantity hdate
  subst hname hquantity hdate
  unfold ingredientUsecase.mergeFields at h ⊢
  cases rp with
  | none =>
    cases rn <;> cases rq <;> simp only at h ⊢
    all_goals (cases h; rfl)
  | some s =>
    by_cases hs : s = ""
    · cases rn <;> cases rq <;> simp only [hs, if_true] at h ⊢
      all_goals (cases h; rfl)
    · cases hp : timeParse s with
      | error err =>
        cases rn <;> cases rq <;> simp only [hs, if_false, hp] at h
        all_goals cases h
      | ok d =>
        cases rn <;> cases rq <;> simp only [hs, if_false, hp] at h ⊢
        all_goals (cases h; rfl)

/-- What `UpdateIngredient` does over the SQL store once the row is found and the merge
succeeds: it calls `Update` with the merged record stamped with the next reading of the clock,
and a record it returns is the merged record stamped by the store. -/
theorem UpdateIngredient_sql_merged {σ : Type} (db : DB σ) (id : Int)
    (req : UpdateIngredientRequest) (w : World σ) (loaded merged : Ingredient) (s1 : σ)
    (hget : db.GetRow id w.env.db = (.ok loaded, s1))
    (hmerge : ingredientUsecase.mergeFields loaded req = .ok merged) :
    (ingredientUsecase.UpdateIngredient (NewIngredientRepository db) id req w).2.calls
      = w.calls ++ [.GetByID id, .Update { merged with UpdatedAt := w.env.clock w.env.ticks }] ∧
    ∀ returned : Ingredient,
      (ingredientUsecase.UpdateIngredient (NewIngredientRepository db) id req w).1.1
        = some returned →
      returned = { merged with UpdatedAt := w.env.clock (w.env.ticks + 1) } := by
  simp only [ingredientUsecase.UpdateIngredient, NewIngredientRepository,
    ingredientRepository.GetByID, ingredientRepository.Update, hget, hmerge,
    World.record, World.tick, timeNow]
  constructor
  · repeat' split
    all_goals simp
  · intro returned
    repeat' split
    all_goals simp_all

/-- The SQL store's `GetByID` never returns a nil record together with a nil error. -/
theorem GetByID_sql_record_or_error {σ : Type} (db : DB σ) (id : Int) (e : Env σ) :
    ((NewIngredientRepository db).GetByID id e).1.2 ≠ none ∨
      ((NewIngredientRepository db).GetByID id e).1.1 ≠ none := by
  simp only [NewIngredientRepository, ingredientRepository.GetByID]
  repeat' split
  all_goals simp

/-- The parts `formatIngredients` joins are a function of the names and quantities. -/
theorem formatIngredients_parts (l : List Ingredient) :
    l.foldl (fun (parts : List String) ing =>
      if ing.Quantity ≠ "" then parts ++ [ing.Name ++ "(" ++ ing.Quantity ++ ")"]
      else parts ++ [ing.Name]) []
    = (l.map fun ing => (ing.Name, ing.Quantity)).map fun p =>
        if p.2 ≠ "" then p.1 ++ "(" ++ p.2 ++ ")" else p.1 := by
  have := foldl_append_singleton
    (fun ing : Ingredient => if ing.Quantity ≠ "" then ing.Name ++ "(" ++ ing.Quantity ++ ")"
      else ing.Name) l []
  simp only [List.nil_append] at this
  have hcomp : (l.map fun ing => (ing.Name, ing.Quantity)).map (fun p : String × String =>
        if p.2 ≠ "" then p.1 ++ "(" ++ p.2 ++ ")" else p.1)
      = l.map (fun ing : Ingredient =>
        if ing.Quantity ≠ "" then ing.Name ++ "(" ++ ing.Quantity ++ ")" else ing.Name) := by
    rw [List.map_map]
    rfl
  rw [hcomp, ← this]
  congr 1
  funext parts ing
  by_cases hq : ing.Quantity = "" <;> simp [hq]

/-- Lists that agree pairwise on name and quantity have the same list of name and quantity
pairs. -/
theorem map_name_quantity_of_agree (l1 l2 : List Ingredient)
    (h : List.Forall₂ (fun a b : Ingredient => a.Name = b.Name ∧ a.Quantity = b.Quantity)
      l1 l2) :
    (l1.map fun ing => (ing.Name, ing.Quantity)) = l2.map fun ing => (ing.Name, ing.Quantity) := by
  induction h with
  | nil => rfl
  | cons hab _ ih => simp [hab.1, hab.2, ih]

/-! ## Claims about what an update may change -/

/-- Claim C25: over the SQL store, when the row `loaded` is found, then for every update
request whose field merge succeeds the record `UpdateIngredient` passes to the store's
`Update` has the ID and the created timestamp of `loaded`, whatever the statement then does,
and so has every record it returns; both IDs equal the `id` argument when the loaded row is the
one stored under `id`; and a record is returned whenever the statement reports a row.  For a
request whose merge fails nothing is passed to `Update` and nothing is returned. -/
theorem C25_update_keeps_id_and_created {σ : Type} (db : DB σ) (id : Int)
    (req : UpdateIngredientRequest) (w : World σ) (loaded : Ingredient) (s1 : σ)
    (hget : db.GetRow id w.env.db = (.ok loaded, s1)) :
    (∀ merged : Ingredient, ingredientUsecase.mergeFields loaded req = .ok merged →
      (∃ passed : Ingredient,
        (ingredientUsecase.UpdateIngredient (NewIngredientRepository db) id req w).2.calls
          = w.calls ++ [.GetByID id, .Update passed] ∧
        passed.ID = loaded.ID ∧ passed.CreatedAt = loaded.CreatedAt ∧
        (loaded.ID = id → passed.ID = id)) ∧
      (∀ returned : Ingredient,
        (ingredientUsecase.UpdateIngredient (NewIngredientRepository db) id req w).1.1
          = some returned →
        returned.ID = loaded.ID ∧ returned.CreatedAt = loaded.CreatedAt ∧
        (loaded.ID = id → returned.ID = id)) ∧
      (∀ (res : SqlResult) (s2 : σ) (n : Int),
        db.ExecUpdate merged.Name merged.Quantity merged.PurchaseDate
          (w.env.clock (w.env.ticks + 1)) loaded.ID s1 = (.ok res, s2) →
        res.RowsAffected = .ok n → n ≠ 0 →
        (ingredientUsecase.UpdateIngredient (NewIngredientRepository db) id req w).1
          = (some { merged with UpdatedAt := w.env.clock (w.env.ticks + 1) }, none))) ∧
    (∀ err : GoError, ingredientUsecase.mergeFields loaded req = .error err →
      ingredientUsecase.UpdateIngredient (NewIngredientRepository db) id req w
        = ((none, some err),
            { env := { w.env with db := s1 }, calls := w.calls ++ [.GetByID id] })) := by
  constructor
  · intro merged hmerge
    obtain ⟨hid, hcreated, -⟩ := mergeFields_frame loaded merged req hmerge
    obtain ⟨hcalls, hret⟩ := UpdateIngredient_sql_merged db id req w loaded merged s1 hget hmerge
    refine ⟨⟨{ merged with UpdatedAt := w.env.clock w.env.ticks }, hcalls, hid, hcreated,
      fun h => hid.trans h⟩, ?_, ?_⟩
    · intro returned hr
      rw [hret returned hr]
      exact ⟨hid, hcreated, fun h => hid.trans h⟩
    · intro res s2 n hexec hrows hn
      rw [← hid] at hexec
      rw [UpdateIngredient_sql_ok db id req w loaded merged s1 s2 res n hget hmerge hexec hrows hn]
  · intro err hmerge
    simp [ingredientUsecase.UpdateIngredient, NewIngredientRepository,
      ingredientRepository.GetByID, hget, hmerge, World.record]

/-- Witness for C25: the carrot, stored under id 1 with created timestamp 10, is given a new
name, quantity and purchase date; and a request with an unparsable date. -/
theorem C25_update_keeps_id_and_created_witness :
    ((∃ passed : Ingredient,
        (ingredientUsecase.UpdateIngredient (NewIngredientRepository tableDB) 1
          { Name := some "大根", Quantity := some "1本", PurchaseDate := some "2026-01-05" }
          (worldOf [carrot])).2.calls = [.GetByID 1, .Update passed] ∧
        passed.ID = 1 ∧ passed.CreatedAt = 10 ∧ (carrot.ID = 1 → passed.ID = 1)) ∧
      (ingredientUsecase.UpdateIngredient (NewIngredientRepository tableDB) 1
          { Name := some "大根", Quantity := some "1本", PurchaseDate := some "2026-01-05" }
          (worldOf [carrot])).1
        = (some { ID := 1, Name := "大根", Quantity := "1本",
                  PurchaseDate := some { year := 2026, month := 1, day := 5 },
                  CreatedAt := 10, UpdatedAt := 1001 }, none)) ∧
    (ingredientUsecase.UpdateIngredient (NewIngredientRepository tableDB) 1
        { Name := some "大根", Quantity := none, PurchaseDate := some "05/01/2026" }
        (worldOf [carrot])).2.calls = [.GetByID 1] :=
  ⟨⟨((C25_update_keeps_id_and_created tableDB 1
        { Name := some "大根", Quantity := some "1本", PurchaseDate := some "2026-01-05" }
        (worldOf [carrot]) carrot [carrot] (by decide)).1
          { ID := 1, Name := "大根", Quantity := "1本",
            PurchaseDate := some { year := 2026, month := 1, day := 5 },
            CreatedAt := 10, UpdatedAt := 20 } (by decide)).1,
      ((C25_update_keeps_id_and_created tableDB 1
        { Name := some "大根", Quantity := some "1本", PurchaseDate := some "2026-01-05" }
        (worldOf [carrot]) carrot [carrot] (by decide)).1
          { ID := 1, Name := "大根", Quantity := "1本",
            PurchaseDate := some { year := 2026, month := 1, day := 5 },
            CreatedAt := 10, UpdatedAt := 20 } (by decide)).2.2 _ _ 1 rfl rfl (by decide)⟩,
    by
      rw [(C25_update_keeps_id_and_created tableDB 1
        { Name := some "大根", Quantity := none, PurchaseDate := some "05/01/2026" }
        (worldOf [carrot]) carrot [carrot] (by decide)).2 _ rfl]
      rfl⟩

/-- Claim C28: the field merge of `UpdateIngredient` is idempotent.  When the merge of a request
into a record succeeds with `merged`, the merge of the same request into any record that
carries the name, quantity and purchase date of `merged` (such as `merged` under a later
updated timestamp) succeeds and changes nothing.  So over the SQL store, a second update with
the same request, for which the row read back is what the first update wrote, passes to
`Update` and returns a record with the name, quantity and purchase date of `merged`: only the
updated timestamp is a new one. -/
theorem C28_merge_idempotent (loaded merged : Ingredient) (req : UpdateIngredientRequest)
    (hmerge : ingredientUsecase.mergeFields loaded req = .ok merged) :
    (∀ again : Ingredient, again.Name = merged.Name → again.Quantity = merged.Quantity →
      again.PurchaseDate = merged.PurchaseDate →
      ingredientUsecase.mergeFields again req = .ok again) ∧
    (∀ t : Nat, ingredientUsecase.mergeFields { merged with UpdatedAt := t } req
      = .ok { merged with UpdatedAt := t }) ∧
    (∀ (σ : Type) (db : DB σ) (id : Int) (w : World σ) (t : Nat) (s1 : σ),
      db.GetRow id w.env.db = (.ok { merged with UpdatedAt := t }, s1) →
      (ingredientUsecase.UpdateIngredient (NewIngredientRepository db) id req w).2.calls
        = w.calls ++ [.GetByID id, .Update { merged with UpdatedAt := w.env.clock w.env.ticks }] ∧
      (∀ returned : Ingredient,
        (ingredientUsecase.UpdateIngredient (NewIngredientRepository db) id req w).1.1
          = some returned →
        returned.Name = merged.Name ∧ returned.Quantity = merged.Quantity ∧
        returned.PurchaseDate = merged.PurchaseDate) ∧
      (∀ (res : SqlResult) (s2 : σ) (n : Int),
        db.ExecUpdate merged.Name merged.Quantity merged.PurchaseDate
          (w.env.clock (w.env.ticks + 1)) merged.ID s1 = (.ok res, s2) →
        res.RowsAffected = .ok n → n ≠ 0 →
        (ingredientUsecase.UpdateIngredient (NewIngredientRepository db) id req w).1
          = (some { merged with UpdatedAt := w.env.clock (w.env.ticks + 1) }, none))) := by
  have hfix : ∀ t : Nat, ingredientUsecase.mergeFields { merged with UpdatedAt := t } req
      = .ok { merged with UpdatedAt := t } :=
    fun t => mergeFields_fixed loaded merged { merged with UpdatedAt := t } req hmerge rfl rfl rfl
  refine ⟨fun again hn hq hd => mergeFields_fixed loaded merged again req hmerge hn hq hd,
    hfix, ?_⟩
  intro σ db id w t s1 hget
  obtain ⟨hcalls, hret⟩ := UpdateIngredient_sql_merged db id req w
    { merged with UpdatedAt := t } { merged with UpdatedAt := t } s1 hget (hfix t)
  refine ⟨hcalls, ?_, ?_⟩
  · intro returned hr
    rw [hret returned hr]
    exact ⟨rfl, rfl, rfl⟩
  · intro res s2 n hexec hrows hn
    rw [UpdateIngredient_sql_ok db id req w { merged with UpdatedAt := t }
      { merged with UpdatedAt := t } s1 s2 res n hget (hfix t) hexec hrows hn]

/-- Witness for C28: the carrot gets a new quantity and purchase date twice in a row over the
table database; the second update returns what the first returned but for the updated
timestamp. -/
theorem C28_merge_idempotent_witness :
    ingredientUsecase.mergeFields carrot
        { Name := none, Quantity := some "3本", PurchaseDate := some "2026-01-05" }
      = .ok { carrot with Quantity := "3本",
                          PurchaseDate := some { year := 2026, month := 1, day := 5 } } ∧
    (ingredientUsecase.UpdateIngredient (NewIngredientRepository tableDB) 1
        { Name := none, Quantity := some "3本", PurchaseDate := some "2026-01-05" }
        (worldOf [carrot])).1
      = (some { carrot with Quantity := "3本",
                            PurchaseDate := some { year := 2026, month := 1, day := 5 },
                            UpdatedAt := 1001 }, none) ∧
    (ingredientUsecase.UpdateIngredient (NewIngredientRepository tableDB) 1
        { Name := none, Quantity := some "3本", PurchaseDate := some "2026-01-05" }
        (ingredientUsecase.UpdateIngredient (NewIngredientRepository tableDB) 1
          { Name := none, Quantity := some "3本", PurchaseDate := some "2026-01-05" }
          (worldOf [carrot])).2).1
      = (some { carrot with Quantity := "3本",
                            PurchaseDate := some { year := 2026, month := 1, day := 5 },
                            UpdatedAt := 1003 }, none) :=
  ⟨by decide, by decide,
    (C28_merge_idempotent carrot
      { carrot with Quantity := "3本",
                    PurchaseDate := some { year := 2026, month := 1, day := 5 } }
      { Name := none, Quantity := some "3本", PurchaseDate := some "2026-01-05" }
      (by decide)).2.2 Rows tableDB 1
        (ingredientUsecase.UpdateIngredient (NewIngredientRepository tableDB) 1
          { Name := none, Quantity := some "3本", PurchaseDate := some "2026-01-05" }
          (worldOf [carrot])).2 1001
        [{ carrot with Quantity := "3本",
                       PurchaseDate := some { year := 2026, month := 1, day := 5 },
                       UpdatedAt := 1001 }] (by decide) |>.2.2 _ _ 1 rfl rfl (by decide)⟩

/-- Claim C29: for two ingredient lists of equal length whose elements agree pairwise on name
and quantity, whatever their IDs, purchase dates and timestamps, `formatIngredients` returns
the same string, the request payload `GenerateRecipeSuggestion` builds is the same, and so the
whole call does the same on the same network. -/
theorem C29_prompt_depends_on_names_and_quantities {ω : Type} (lib : StdLib)
    (s : ollamaServiceImpl ω) (l1 l2 : List Ingredient) (n : Net ω)
    (h : List.Forall₂ (fun a b : Ingredient => a.Name = b.Name ∧ a.Quantity = b.Quantity)
      l1 l2) :
    ollamaServiceImpl.formatIngredients (some l1) = ollamaServiceImpl.formatIngredients (some l2) ∧
    ollamaServiceImpl.requestPayload s.config (some l1)
      = ollamaServiceImpl.requestPayload s.config (some l2) ∧
    ollamaServiceImpl.GenerateRecipeSuggestion lib s (some l1) n
      = ollamaServiceImpl.GenerateRecipeSuggestion lib s (some l2) n := by
  have hformat : ollamaServiceImpl.formatIngredients (some l1)
      = ollamaServiceImpl.formatIngredients (some l2) := by
    simp only [ollamaServiceImpl.formatIngredients, Option.getD_some, formatIngredients_parts,
      map_name_quantity_of_agree l1 l2 h, h.length_eq]
  have hpayload : ollamaServiceImpl.requestPayload s.config (some l1)
      = ollamaServiceImpl.requestPayload s.config (some l2) := by
    simp only [ollamaServiceImpl.requestPayload, hformat]
  refine ⟨hformat, hpayload, ?_⟩
  simp only [ollamaServiceImpl.GenerateRecipeSuggestion, hpayload]

set_option maxRecDepth 100000 in
/-- Witness for C29: carrot and pork belly, once as rows 1 and 2 bought on 2025-12-31 and once
as rows 7 and 9 without purchase date and with other timestamps. -/
theorem C29_prompt_depends_on_names_and_quantities_witness :
    ollamaServiceImpl.formatIngredients
        (some [carrot, { carrot with ID := 2, Name := "豚バラ肉", Quantity := "200g" }])
      = ollamaServiceImpl.formatIngredients
        (some [{ ID := 7, Name := "にんじん", Quantity := "2本", PurchaseDate := none,
                 CreatedAt := 300, UpdatedAt := 400 },
               { ID := 9, Name := "豚バラ肉", Quantity := "200g", PurchaseDate := none,
                 CreatedAt := 500, UpdatedAt := 600 }]) ∧
    ollamaServiceImpl.formatIngredients
        (some [carrot, { carrot with ID := 2, Name := "豚バラ肉", Quantity := "200g" }])
      = "にんじん(2本), 豚バラ肉(200g)" ∧
    ollamaServiceImpl.GenerateRecipeSuggestion exampleLib
        { config := defaultConfig, httpClient := refusingClient (.errorString "dial tcp") }
        (some [carrot, { carrot with ID := 2, Name := "豚バラ肉", Quantity := "200g" }]) quietNet
      = ollamaServiceImpl.GenerateRecipeSuggestion exampleLib
        { config := defaultConfig, httpClient := refusingClient (.errorString "dial tcp") }
        (some [{ ID := 7, Name := "にんじん", Quantity := "2本", PurchaseDate := none,
                 CreatedAt := 300, UpdatedAt := 400 },
               { ID := 9, Name := "豚バラ肉", Quantity := "200g", PurchaseDate := none,
                 CreatedAt := 500, UpdatedAt := 600 }]) quietNet :=
  ⟨(C29_prompt_depends_on_names_and_quantities exampleLib
      { config := defaultConfig, httpClient := refusingClient (.errorString "dial tcp") }
      _ _ quietNet
      (List.Forall₂.cons ⟨rfl, rfl⟩ (List.Forall₂.cons ⟨rfl, rfl⟩ List.Forall₂.nil))).1,
    by decide,
    (C29_prompt_depends_on_names_and_quantities exampleLib
      { config := defaultConfig, httpClient := refusingClient (.errorString "dial tcp") }
      _ _ quietNet
      (List.Forall₂.cons ⟨rfl, rfl⟩ (List.Forall₂.cons ⟨rfl, rfl⟩ List.Forall₂.nil))).2.2⟩

/-- Claim C30: over a store whose `GetByID` returns an error or a non-nil record, the
`ingredient == nil` branches of `UpdateIngredient` and `DeleteIngredient` are not taken: neither
returns the plain error `ingredient not found`.  Every error `DeleteIngredient` returns is the
error of the store's `GetByID` or `Delete` behind a `%w` wrap, every error `UpdateIngredient`
returns is the error of the store's `GetByID` or `Update` behind a `%w` wrap or the error of
the field merge; so every error of either that has `sql.ErrNoRows` in its wrap chain (a not-found
error) unwraps to an error of the store that has it too. -/
theorem C30_nil_record_branch_unreachable {σ : Type} (repo : IngredientRepository σ)
    (hcontract : ∀ (id : Int) (e : Env σ),
      (repo.GetByID id e).1.2 ≠ none ∨ (repo.GetByID id e).1.1 ≠ none)
    (id : Int) (req : UpdateIngredientRequest) (w : World σ) :
    (ingredientUsecase.UpdateIngredient repo id req w).1.2
      ≠ some (errorsNew "ingredient not found") ∧
    (ingredientUsecase.DeleteIngredient repo id w).1 ≠ some (errorsNew "ingredient not found") ∧
    (∀ err : GoError, (ingredientUsecase.UpdateIngredient repo id req w).1.2 = some err →
      (∃ storeErr : GoError, (repo.GetByID id w.env).1.2 = some storeErr ∧
        err = .wrapError "failed to get ingredient: " storeErr) ∨
      (∃ loaded : Ingredient, (repo.GetByID id w.env).1 = (some loaded, none) ∧
        ingredientUsecase.mergeFields loaded req = .error err) ∨
      (∃ (storeErr : GoError) (passed : Ingredient) (e : Env σ),
        (repo.Update passed e).1.1 = some storeErr ∧
        (ingredientUsecase.UpdateIngredient repo id req w).2.calls
          = w.calls ++ [.GetByID id, .Update passed] ∧
        err = .wrapError "failed to update ingredient: " storeErr)) ∧
    (∀ err : GoError, (ingredientUsecase.DeleteIngredient repo id w).1 = some err →
      (∃ storeErr : GoError, (repo.GetByID id w.env).1.2 = some storeErr ∧
        err = .wrapError "failed to get ingredient: " storeErr) ∨
      (∃ storeErr : GoError, (repo.Delete id (repo.GetByID id w.env).2).1 = some storeErr ∧
        err = .wrapError "failed to delete ingredient: " storeErr)) ∧
    (∀ err : GoError, ((ingredientUsecase.UpdateIngredient repo id req w).1.2 = some err ∨
        (ingredientUsecase.DeleteIngredient repo id w).1 = some err) →
      errorsIs err .errNoRows = true →
      ∃ storeErr : GoError, err.Unwrap = some storeErr ∧
        errorsIs storeErr .errNoRows = true) := by
  have hupd : ∀ err : GoError, (ingredientUsecase.UpdateIngredient repo id req w).1.2 = some err →
      (∃ storeErr : GoError, (repo.GetByID id w.env).1.2 = some storeErr ∧
        err = .wrapError "failed to get ingredient: " storeErr) ∨
      (∃ loaded : Ingredient, (repo.GetByID id w.env).1 = (some loaded, none) ∧
        ingredientUsecase.mergeFields loaded req = .error err) ∨
      (∃ (storeErr : GoError) (passed : Ingredient) (e : Env σ),
        (repo.Update passed e).1.1 = some storeErr ∧
        (ingredientUsecase.UpdateIngredient repo id req w).2.calls
          = w.calls ++ [.GetByID id, .Update passed] ∧
        err = .wrapError "failed to update ingredient: " storeErr) := by
    intro err herr
    have hc := hcontract id w.env
    rcases hg : repo.GetByID id w.env with ⟨⟨rec, gerr⟩, e1⟩
    rw [hg] at hc
    simp only [ingredientUsecase.UpdateIngredient, hg] at herr ⊢
    cases gerr with
    | some storeErr =>
      simp only [Option.some.injEq] at herr
      exact Or.inl ⟨storeErr, rfl, herr.symm⟩
    | none =>
      cases rec with
      | none => simp at hc
      | some loaded =>
        simp only at herr ⊢
        cases hm : ingredientUsecase.mergeFields loaded req with
        | error merr =>
          simp only [hm, Option.some.injEq] at herr
          subst herr
          exact Or.inr (Or.inl ⟨loaded, rfl, hm⟩)
        | ok merged =>
          simp only [hm] at herr ⊢
          right; right
          split at herr
          · rename_i storeErr hs
            simp only [Option.some.injEq] at herr
            refine ⟨storeErr, _, _, hs, ?_, herr.symm⟩
            simp [hs, World.record, World.tick]
          · simp at herr
  have hdel : ∀ err : GoError, (ingredientUsecase.DeleteIngredient repo id w).1 = some err →
      (∃ storeErr : GoError, (repo.GetByID id w.env).1.2 = some storeErr ∧
        err = .wrapError "failed to get ingredient: " storeErr) ∨
      (∃ storeErr : GoError, (repo.Delete id (repo.GetByID id w.env).2).1 = some storeErr ∧
        err = .wrapError "failed to delete ingredient: " storeErr) := by
    intro err herr
    have hc := hcontract id w.env
    rcases hg : repo.GetByID id w.env with ⟨⟨rec, gerr⟩, e1⟩
    rw [hg] at hc
    simp only [ingredientUsecase.DeleteIngredient, hg] at herr ⊢
    cases gerr with
    | some storeErr =>
      simp only [Option.some.injEq] at herr
      exact Or.inl ⟨storeErr, rfl, herr.symm⟩
    | none =>
      cases rec with
      | none => simp at hc
      | some loaded =>
        simp only [World.record] at herr ⊢
        right
        split at herr
        · rename_i storeErr hs
          simp only [Option.some.injEq] at herr
          exact ⟨storeErr, hs, herr.symm⟩
        · simp at herr
  have hmergeErr : ∀ (loaded : Ingredient) (err : GoError),
      ingredientUsecase.mergeFields loaded req = .error err →
      errorsIs err .errNoRows = false ∧ err ≠ errorsNew "ingredient not found" := by
    intro loaded err hm
    obtain ⟨rn, rq, rp⟩ := req
    unfold ingredientUsecase.mergeFields at hm
    cases rp with
    | none => cases rn <;> cases rq <;> simp at hm
    | some s =>
      simp only at hm
      split at hm
      · cases hm
      · split at hm
        · cases hm
          simp [errorsIs, errorsNew]
        · cases hm
  refine ⟨?_, ?_, hupd, hdel, ?_⟩
  · intro h
    rcases hupd _ h with ⟨storeErr, -, he⟩ | ⟨loaded, -, hm⟩ | ⟨storeErr, _, _, -, -, he⟩
    · simp [errorsNew] at he
    · exact (hmergeErr loaded _ hm).2 rfl
    · simp [errorsNew] at he
  · intro h
    rcases hdel _ h with ⟨storeErr, -, he⟩ | ⟨storeErr, -, he⟩
    · simp [errorsNew] at he
    · simp [errorsNew] at he
  · intro err h hnr
    have hwrap : ∀ (msg : String) (storeErr : GoError), err = .wrapError msg storeErr →
        ∃ storeErr : GoError, err.Unwrap = some storeErr ∧
          errorsIs storeErr .errNoRows = true := by
      intro msg storeErr he
      subst he
      refine ⟨storeErr, rfl, ?_⟩
      rw [errorsIs] at hnr
      simpa using hnr
    rcases h with h | h
    · rcases hupd _ h with ⟨storeErr, -, he⟩ | ⟨loaded, -, hm⟩ | ⟨storeErr, _, _, -, -, he⟩
      · exact hwrap _ _ he
      · rw [(hmergeErr loaded _ hm).1] at hnr
        cases hnr
      · exact hwrap _ _ he
    · rcases hdel _ h with ⟨storeErr, -, he⟩ | ⟨storeErr, -, he⟩
      · exact hwrap _ _ he
      · exact hwrap _ _ he

/-- Witness for C30: the SQL store over the table database honours the contract; updating and
deleting the absent id 99999 give the store's `sql.ErrNoRows` behind two wraps. -/
theorem C30_nil_record_branch_unreachable_witness :
    (∀ (id : Int) (e : Env Rows),
      ((NewIngredientRepository tableDB).GetByID id e).1.2 ≠ none ∨
        ((NewIngredientRepository tableDB).GetByID id e).1.1 ≠ none) ∧
    (ingredientUsecase.UpdateIngredient (NewIngredientRepository tableDB) 99999
        { Name := none, Quantity := some "3本", PurchaseDate := none } (worldOf [carrot])).1.2
      = some (.wrapError "failed to get ingredient: "
          (.wrapError "ingredient not found: " .errNoRows)) ∧
    (ingredientUsecase.DeleteIngredient (NewIngredientRepository tableDB) 99999
        (worldOf [carrot])).1
      = some (.wrapError "failed to get ingredient: "
          (.wrapError "ingredient not found: " .errNoRows)) ∧
    (∃ storeErr : GoError,
      GoError.Unwrap (.wrapError "failed to get ingredient: "
          (.wrapError "ingredient not found: " .errNoRows)) = some storeErr ∧
        errorsIs storeErr .errNoRows = true) :=
  ⟨GetByID_sql_record_or_error tableDB, by decide, by decide,
    (C30_nil_record_branch_unreachable (NewIngredientRepository tableDB)
      (GetByID_sql_record_or_error tableDB) 99999
      { Name := none, Quantity := some "3本", PurchaseDate := none } (worldOf [carrot])).2.2.2.2
      _ (Or.inl (by decide)) (by decide)⟩

/-! ## Helper lemmas about a store that honours the contract -/

/-- Over a store that honours the contract, `CreateIngredient` with a name and without purchase
date returns the stored record, which the store then holds under its id. -/
theorem contract_CreateIngredient {σ : Type} {repo : IngredientRepository σ}
    {holds : σ → Int → Option Ingredient} (hstore : StoreContract repo holds)
    (req : CreateIngredientRequest) (w : World σ) (hname : req.Name ≠ "")
    (hpd : req.PurchaseDate = none) :
    ∃ created : Ingredient,
      (ingredientUsecase.CreateIngredient repo req w).1 = (some created, none) ∧
      created.Name = req.Name ∧ created.Quantity = req.Quantity ∧
      holds (ingredientUsecase.CreateIngredient repo req w).2.env.db created.ID
        = some created := by
  obtain ⟨rn, rq, rp⟩ := req
  simp only at hname hpd
  subst hpd
  simp only [ingredientUsecase.CreateIngredient, hname, if_false]
  obtain ⟨h1, h2, h3, -, h5⟩ := hstore.create
    { ID := 0, Name := rn, Quantity := rq, PurchaseDate := none,
      CreatedAt := (timeNow w.env).1, UpdatedAt := (timeNow w.tick.env).1 } w.tick.tick.env
  simp only [h1, World.record]
  exact ⟨_, rfl, h2, h3, h5⟩

/-- Over a store that honours the contract, `UpdateIngredient` of a held record with a request
whose merge succeeds returns a record with the merged name, quantity and purchase date under
the same id, and the store holds such a record afterwards. -/
theorem contract_UpdateIngredient {σ : Type} {repo : IngredientRepository σ}
    {holds : σ → Int → Option Ingredient} (hstore : StoreContract repo holds)
    (id : Int) (req : UpdateIngredientRequest) (w : World σ) (loaded merged : Ingredient)
    (hheld : holds w.env.db id = some loaded) (hid : loaded.ID = id)
    (hmerge : ingredientUsecase.mergeFields loaded req = .ok merged) :
    ∃ updated : Ingredient,
      (ingredientUsecase.UpdateIngredient repo id req w).1 = (some updated, none) ∧
      updated.ID = id ∧ updated.Name = merged.Name ∧ updated.Quantity = merged.Quantity ∧
      updated.PurchaseDate = merged.PurchaseDate ∧
      ∃ stored : Ingredient,
        holds (ingredientUsecase.UpdateIngredient repo id req w).2.env.db id = some stored := by
  obtain ⟨hg, hsame⟩ := hstore.getFound id w.env loaded hheld
  obtain ⟨hmid, -, -⟩ := mergeFields_frame loaded merged req hmerge
  have hheld2 : holds (timeNow (repo.GetByID id w.env).2).2.db
      ({ merged with UpdatedAt := (timeNow (repo.GetByID id w.env).2).1 } : Ingredient).ID
        = some loaded := by
    show holds (repo.GetByID id w.env).2.db merged.ID = some loaded
    rw [hsame, hmid, hid]
    exact hheld
  obtain ⟨h1, h2, h3, h4, h5, stored, h6, -⟩ := hstore.update _ _ loaded hheld2
  have hg1 : (repo.GetByID id w.env).1.1 = some loaded := by rw [hg]
  have hg2 : (repo.GetByID id w.env).1.2 = none := by rw [hg]
  simp only [ingredientUsecase.UpdateIngredient, hg1, hg2, hmerge, World.record, World.tick, h1]
  refine ⟨_, rfl, ?_, h3, h4, h5, stored, ?_⟩
  · rw [h2]
    exact hmid.trans hid
  · exact (congrArg (holds _) (hmid.trans hid).symm).trans h6

/-- Over a store that honours the contract, `DeleteIngredient` of a held id returns no error and
the store holds nothing under that id afterwards. -/
theorem contract_DeleteIngredient {σ : Type} {repo : IngredientRepository σ}
    {holds : σ → Int → Option Ingredient} (hstore : StoreContract repo holds)
    (id : Int) (w : World σ) (rec : Ingredient) (hheld : holds w.env.db id = some rec) :
    (ingredientUsecase.DeleteIngredient repo id w).1 = none ∧
      holds (ingredientUsecase.DeleteIngredient repo id w).2.env.db id = none := by
  obtain ⟨hg, hsame⟩ := hstore.getFound id w.env rec hheld
  have hheld2 : holds (repo.GetByID id w.env).2.db id = some rec := by
    rw [hsame]
    exact hheld
  obtain ⟨h1, h2⟩ := hstore.delete id _ rec hheld2
  have hg1 : (repo.GetByID id w.env).1.1 = some rec := by rw [hg]
  have hg2 : (repo.GetByID id w.env).1.2 = none := by rw [hg]
  constructor
  · simp only [ingredientUsecase.DeleteIngredient, hg1, hg2, World.record, h1]
  · simp only [ingredientUsecase.DeleteIngredient, hg1, hg2, World.record, h1]
    exact h2

/-- Over a store that honours the contract, `GetIngredientByID` of an id that is not held
returns an error with `sql.ErrNoRows` in its wrap chain. -/
theorem contract_GetIngredientByID_absent {σ : Type} {repo : IngredientRepository σ}
    {holds : σ → Int → Option Ingredient} (hstore : StoreContract repo holds)
    (id : Int) (w : World σ) (habsent : holds w.env.db id = none) :
    ∃ err : GoError, (ingredientUsecase.GetIngredientByID repo id w).1 = (none, some err) ∧
      errorsIs err .errNoRows = true := by
  obtain ⟨⟨err, hg, hnr⟩, -⟩ := hstore.getAbsent id w.env habsent
  have hg2 : (repo.GetByID id w.env).1.2 = some err := by rw [hg]
  simp only [ingredientUsecase.GetIngredientByID, hg2]
  exact ⟨_, rfl, errorsIs_wrapError _ _ _ hnr⟩

/-- No row of a table has an id above the running maximum of the ids. -/
theorem foldl_max_ge (rows : Rows) (m : Int) :
    m ≤ rows.foldl (fun m r => max m r.ID) m ∧
      ∀ r ∈ rows, r.ID ≤ rows.foldl (fun m r => max m r.ID) m := by
  induction rows generalizing m with
  | nil => simp
  | cons a l ih =>
    simp only [List.foldl_cons, List.mem_cons, forall_eq_or_imp]
    refine ⟨le_trans (le_max_left m a.ID) (ih _).1, le_trans (le_max_right m a.ID) (ih _).1,
      (ih _).2⟩

/-- The `UPDATE` of the table database rewrites the first row with the id. -/
theorem find_map_update (rows : Rows) (id : Int) (f : Ingredient → Ingredient)
    (hf : ∀ r, (f r).ID = r.ID) :
    (rows.map fun r => if r.ID = id then f r else r).find? (·.ID = id)
      = (rows.find? (·.ID = id)).map f := by
  induction rows with
  | nil => rfl
  | cons a l ih =>
    by_cases ha : a.ID = id
    · simp [List.find?, ha, hf]
    · simp only [List.map_cons, ha, if_false, List.find?, decide_False]
      exact ih

/-- The SQL store over the table database honours the store contract. -/
theorem tableDB_contract : StoreContract (NewIngredientRepository tableDB) tableHolds where
  create := by
    intro ing e
    refine ⟨rfl, rfl, rfl, rfl, ?_⟩
    simp only [NewIngredientRepository, ingredientRepository.Create, tableDB, tableHolds,
      timeNow]
    rw [List.find?_append]
    have hnone : List.find? (fun x => decide (x.ID = List.foldl (fun m r => max m r.ID) 0 e.db + 1))
        e.db = none := by
      rw [List.find?_eq_none]
      intro r hr
      have := (foldl_max_ge e.db 0).2 r hr
      simp only [decide_eq_true_eq]
      omega
    rw [hnone]
    simp
  getFound := by
    intro id e rec h
    simp only [tableHolds] at h
    simp [NewIngredientRepository, ingredientRepository.GetByID, tableDB, h]
  getAbsent := by
    intro id e h
    simp only [tableHolds] at h
    simp [NewIngredientRepository, ingredientRepository.GetByID, tableDB, h, errorsIs]
  update := by
    intro ing e rec h
    simp only [tableHolds] at h
    have hlen : ((e.db.filter (·.ID = ing.ID)).length : Int) ≠ 0 := by
      have hmem := List.mem_of_find?_eq_some h
      have hp := List.find?_some h
      have : rec ∈ e.db.filter (·.ID = ing.ID) := List.mem_filter.mpr ⟨hmem, hp⟩
      have := List.length_pos_of_mem this
      omega
    simp only [NewIngredientRepository, ingredientRepository.Update, tableDB, tableHolds,
      timeNow, hlen, if_false]
    rw [find_map_update e.db ing.ID
      (fun r => { r with Name := ing.Name, Quantity := ing.Quantity,
                         PurchaseDate := ing.PurchaseDate, UpdatedAt := e.clock e.ticks })
      (fun _ => rfl), h]
    have hrec : rec.ID = ing.ID := by simpa using List.find?_some h
    exact ⟨trivial, trivial, trivial, trivial, trivial, _, rfl, hrec, rfl, rfl, rfl⟩
  delete := by
    intro id e rec h
    simp only [tableHolds] at h
    have hlen : ((e.db.filter (·.ID = id)).length : Int) ≠ 0 := by
      have hmem := List.mem_of_find?_eq_some h
      have hp := List.find?_some h
      have : rec ∈ e.db.filter (·.ID = id) := List.mem_filter.mpr ⟨hmem, hp⟩
      have := List.length_pos_of_mem this
      omega
    simp only [NewIngredientRepository, ingredientRepository.Delete, tableDB, tableHolds, hlen,
      if_false]
    refine ⟨trivial, ?_⟩
    rw [List.find?_eq_none]
    intro r hr
    have := (List.mem_filter.mp hr).2
    simpa using this

/-! ## The end-to-end scenario -/

/-- Claim C26: over every store that honours the store contract, from every world:
`POST /ingredients` with name `carrot` and quantity `2` answers 201 with the created record,
which carries an id; then, `idStr` being a path segment that reads as that id,
`PUT /ingredients/idStr` with only the quantity `3` answers 200 with a record of that id,
quantity `3` and name still `carrot`; then `DELETE /ingredients/idStr` answers 204 with no
body; then `GET /ingredients/idStr` answers 404 with kind `not_found`.  Each request runs in
the world the one before left. -/
theorem C26_crud_flow {σ : Type} (repo : IngredientRepository σ)
    (holds : σ → Int → Option Ingredient) (hstore : StoreContract repo holds) (w0 : World σ) :
    let h := NewIngredientHandler (NewIngredientUsecase repo)
    let post := h.CreateIngredient
      (.ok { Name := "carrot", Quantity := "2", PurchaseDate := none }) w0
    ∃ created : Ingredient,
      post.1 = some { status := 201, body := .ingredient (some created) } ∧
      created.Name = "carrot" ∧ created.Quantity = "2" ∧
      ∀ idStr : String, strconvParseInt idStr = some created.ID →
        let put := h.UpdateIngredient idStr
          (.ok { Name := none, Quantity := some "3", PurchaseDate := none }) post.2
        let del := h.DeleteIngredient idStr put.2
        let get := h.GetIngredientByID idStr del.2
        (∃ updated : Ingredient,
          put.1 = some { status := 200, body := .ingredient (some updated) } ∧
          updated.ID = created.ID ∧ updated.Quantity = "3" ∧ updated.Name = "carrot") ∧
        del.1 = some { status := 204, body := .empty } ∧
        get.1 = some { status := 404, body := ResponseBody.error {
          Error := "not_found", Message := "Resource not found" } } := by
  intro h post
  obtain ⟨created, hc, hn, hq, hheld⟩ := contract_CreateIngredient hstore
    { Name := "carrot", Quantity := "2", PurchaseDate := none } w0 (by decide) rfl
  have hpost : post = (some { status := 201, body := .ingredient (some created) },
      (ingredientUsecase.CreateIngredient repo
        { Name := "carrot", Quantity := "2", PurchaseDate := none } w0).2) := by
    simp only [post, h, IngredientHandler.CreateIngredient, NewIngredientHandler,
      NewIngredientUsecase, hc]
  refine ⟨created, by rw [hpost], hn, hq, ?_⟩
  intro idStr hparse put del get
  have hmerge : ingredientUsecase.mergeFields created
      { Name := none, Quantity := some "3", PurchaseDate := none }
        = .ok { created with Quantity := "3" } := rfl
  obtain ⟨updated, hu, huid, huname, huquantity, -, stored, hstored⟩ :=
    contract_UpdateIngredient hstore created.ID
      { Name := none, Quantity := some "3", PurchaseDate := none } _ created
      { created with Quantity := "3" } hheld rfl hmerge
  have hput : put = (some { status := 200, body := .ingredient (some updated) },
      (ingredientUsecase.UpdateIngredient repo created.ID
        { Name := none, Quantity := some "3", PurchaseDate := none }
        (ingredientUsecase.CreateIngredient repo
          { Name := "carrot", Quantity := "2", PurchaseDate := none } w0).2).2) := by
    simp only [put, hpost, h, IngredientHandler.UpdateIngredient, NewIngredientHandler,
      NewIngredientUsecase, hparse, hu]
  obtain ⟨hd, habsent⟩ := contract_DeleteIngredient hstore created.ID _ stored hstored
  have hdel : del = (some { status := 204, body := .empty },
      (ingredientUsecase.DeleteIngredient repo created.ID
        (ingredientUsecase.UpdateIngredient repo created.ID
          { Name := none, Quantity := some "3", PurchaseDate := none }
          (ingredientUsecase.CreateIngredient repo
            { Name := "carrot", Quantity := "2", PurchaseDate := none } w0).2).2).2) := by
    simp only [del, hput, h, IngredientHandler.DeleteIngredient, NewIngredientHandler,
      NewIngredientUsecase, hparse, hd]
  obtain ⟨err, hg, hnr⟩ := contract_GetIngredientByID_absent hstore created.ID _ habsent
  refine ⟨⟨updated, by rw [hput], huid, huquantity, huname.trans hn⟩, by rw [hdel], ?_⟩
  simp only [get, hdel, h, IngredientHandler.GetIngredientByID, NewIngredientHandler,
    NewIngredientUsecase, hparse, hg]
  exact handleError_errNoRows err hnr

/-- Witness for C26: the scenario over the SQL store on an empty table database; the created
record gets the id 1 and the path segment is `1`. -/
theorem C26_crud_flow_witness :
    StoreContract (NewIngredientRepository tableDB) tableHolds ∧
    (tableHandler.CreateIngredient
        (.ok { Name := "carrot", Quantity := "2", PurchaseDate := none }) (worldOf [])).1
      = some { status := 201, body := .ingredient (some {
          ID := 1, Name := "carrot", Quantity := "2", PurchaseDate := none,
          CreatedAt := 1002, UpdatedAt := 1002 }) } ∧
    strconvParseInt "1" = some 1 ∧
    (∃ updated : Ingredient,
      (tableHandler.UpdateIngredient "1"
          (.ok { Name := none, Quantity := some "3", PurchaseDate := none })
          (tableHandler.CreateIngredient
            (.ok { Name := "carrot", Quantity := "2", PurchaseDate := none })
            (worldOf [])).2).1
        = some { status := 200, body := .ingredient (some updated) } ∧
      updated.ID = 1 ∧ updated.Quantity = "3" ∧ updated.Name = "carrot") ∧
    (tableHandler.DeleteIngredient "1"
        (tableHandler.UpdateIngredient "1"
          (.ok { Name := none, Quantity := some "3", PurchaseDate := none })
          (tableHandler.CreateIngredient
            (.ok { Name := "carrot", Quantity := "2", PurchaseDate := none })
            (worldOf [])).2).2).1
      = some { status := 204, body := .empty } ∧
    (tableHandler.GetIngredientByID "1"
        (tableHandler.DeleteIngredient "1"
          (tableHandler.UpdateIngredient "1"
            (.ok { Name := none, Quantity := some "3", PurchaseDate := none })
            (tableHandler.CreateIngredient
              (.ok { Name := "carrot", Quantity := "2", PurchaseDate := none })
              (worldOf [])).2).2).2).1
      = some { status := 404, body := ResponseBody.error {
          Error := "not_found", Message := "Resource not found" } } := by
  obtain ⟨created, hpost, -, -, hrest⟩ :=
    C26_crud_flow (NewIngredientRepository tableDB) tableHolds tableDB_contract (worldOf [])
  have hrun : (tableHandler.CreateIngredient
      (.ok { Name := "carrot", Quantity := "2", PurchaseDate := none }) (worldOf [])).1
      = some { status := 201, body := .ingredient (some {
          ID := 1, Name := "carrot", Quantity := "2", PurchaseDate := none,
          CreatedAt := 1002, UpdatedAt := 1002 }) } := by decide
  have hcreated := hpost.symm.trans hrun
  simp only [Option.some.injEq, Response.mk.injEq, ResponseBody.ingredient.injEq,
    true_and] at hcreated
  subst hcreated
  exact ⟨tableDB_contract, hpost, by decide, hrest "1" (by decide)⟩

end DinnerDecider
